import Mathlib

/-!
# WavGlue: a shallow embedding of `WavGlue/main.cpp`

The program glues two mono 16-bit PCM WAVE files into one stereo file.  This
file embeds the header record, the random-access store (`WavFile`), the header
validator and the channel combiner as Lean functions, and proves properties
of them.

Conventions of the embedding.
* `unsigned int`/`uint32_t` arithmetic is arithmetic on `Nat` reduced modulo
  `2^32`; `uint16_t` header fields are promoted to `int` before they are used.
* A file on disk is the list of its bytes (`List Nat`, one entry per `char`).
* An `fstream` is the file behind it together with one flag, `failed`, which
  stands for `eof() || fail()`.  In this program only a short `read` raises the
  flag (it sets `eofbit` and `failbit` together) and only `clear()` lowers it.
  Every `read`/`write` of the program is preceded by an absolute seek, so the
  cursor itself is not part of the state.
* `new char[n]` returns indeterminate memory; the functions that allocate such
  a buffer take its initial content as the parameter `junk`.
* The loop counters `i`, `j` are `int`s compared with `unsigned` bounds; they range
  over `Nat` here, which is what the program does as long as a count stays below
  2^31 (beyond that the increment overflows).  An index into a `vector` is
  computed modulo 2^32 as in the program; where such an index would fall outside
  the vector (only possible once a product wrapped) a store is dropped and a load
  gives 0.
* The three stores handed to `Combine` are three objects on three different files.
* A `float` is a value of `CFloat` in the IEEE 754 binary32 format (24 significant
  bits, least quantum 2^-149); a zero has no sign here.  Comparisons are exact.
  A product of two `float`s is evaluated in the precision of `float`: it is the
  exact product rounded to the nearest `float`, ties to even (`CFloat.mul`).
  The conversion of a `float` to `int16_t` truncates toward zero; where the
  truncated value is not an `int16_t`, or the `float` is not finite, the
  conversion is undefined behaviour and its result is the parameter `outOfRange`.
* A read through a pointer past the end of the object it points to is undefined
  behaviour; the bytes it finds are indeterminate, the parameter `past`.
* The parameter `channelNumber` of the three channel methods is a `short`; an
  argument is converted to `short` (16 bits, two's complement) where the offset of
  a sample is computed (`samplePos`).
* A call that can throw after it changed a store returns the store together with
  the way it ended.
* An integer division by zero is undefined behaviour; it is the fault
  `Fault.divisionByZero`.  A thrown `std::invalid_argument` is the fault
  `Fault.invalidArgument` carrying the text of `what()`.
-/

namespace WavGlue

/-- Number of values of an `unsigned int` / `uint32_t`. -/
abbrev U32 : Nat := 4294967296

/-- Value of a signed integer after conversion to `unsigned int`. -/
def toU32 (z : Int) : Nat := (z % 4294967296).toNat

/-- The ways a call can end without returning. -/
inductive Fault where
  | divisionByZero
  | invalidArgument (what : String)
  deriving DecidableEq, Repr

deriving instance DecidableEq for Except

/-- Source: `const unsigned int wavHeaderLength = 44;` -/
def wavHeaderLength : Nat := 44

/-- The record `struct WavHeader`, with its default member initialisers. -/
structure WavHeader where
  riff : Nat := 1179011410
  offRiffSize : Nat := 36
  riffType : Nat := 1163280727
  fmt : Nat := 544501094
  fmtSize : Nat := 16
  wavType : Nat := 1
  channels : Nat := 1
  sampleRate : Nat := 8000
  byteRate : Nat := 16000
  blockAlign : Nat := 2
  bitsPerSample : Nat := 16
  dataBlock : Nat := 1635017060
  dataBlockSize : Nat := 8
  deriving DecidableEq, Repr

/-- Every field holds a value of its C++ type (`uint32_t` or `uint16_t`). -/
def WavHeader.InRange (h : WavHeader) : Prop :=
  h.riff < 4294967296 ∧ h.offRiffSize < 4294967296 ∧ h.riffType < 4294967296 ∧
  h.fmt < 4294967296 ∧ h.fmtSize < 4294967296 ∧ h.wavType < 65536 ∧
  h.channels < 65536 ∧ h.sampleRate < 4294967296 ∧ h.byteRate < 4294967296 ∧
  h.blockAlign < 65536 ∧ h.bitsPerSample < 65536 ∧ h.dataBlock < 4294967296 ∧
  h.dataBlockSize < 4294967296

instance (h : WavHeader) : Decidable h.InRange := by
  unfold WavHeader.InRange; infer_instance

/-- The four bytes of a `uint32_t` in memory (little-endian host). -/
def le32 (x : Nat) : List Nat :=
  [x % 256, x / 256 % 256, x / 65536 % 256, x / 16777216 % 256]

/-- The two bytes of a `uint16_t` in memory (little-endian host). -/
def le16 (x : Nat) : List Nat :=
  [x % 256, x / 256 % 256]

/-- The `uint32_t` stored at offset `k` of a byte buffer. -/
def u32At (bs : List Nat) (k : Nat) : Nat :=
  bs.getD k 0 + 256 * bs.getD (k + 1) 0 + 65536 * bs.getD (k + 2) 0 +
    16777216 * bs.getD (k + 3) 0

/-- The `uint16_t` stored at offset `k` of a byte buffer. -/
def u16At (bs : List Nat) (k : Nat) : Nat :=
  bs.getD k 0 + 256 * bs.getD (k + 1) 0

/-- The object representation `(char*)&header`: 44 bytes, no padding. -/
def WavHeader.toBytes (h : WavHeader) : List Nat :=
  le32 h.riff ++ le32 h.offRiffSize ++ le32 h.riffType ++ le32 h.fmt ++
  le32 h.fmtSize ++ le16 h.wavType ++ le16 h.channels ++ le32 h.sampleRate ++
  le32 h.byteRate ++ le16 h.blockAlign ++ le16 h.bitsPerSample ++
  le32 h.dataBlock ++ le32 h.dataBlockSize

/-- The header whose object representation is the given 44 bytes. -/
def WavHeader.ofBytes (bs : List Nat) : WavHeader :=
  { riff := u32At bs 0
    offRiffSize := u32At bs 4
    riffType := u32At bs 8
    fmt := u32At bs 12
    fmtSize := u32At bs 16
    wavType := u16At bs 20
    channels := u16At bs 22
    sampleRate := u32At bs 24
    byteRate := u32At bs 28
    blockAlign := u16At bs 32
    bitsPerSample := u16At bs 34
    dataBlock := u32At bs 36
    dataBlockSize := u32At bs 40 }

/-- Value of a `uint16_t` bit pattern read as an `int16_t`. -/
def toInt16 (x : Nat) : Int :=
  if x % 65536 < 32768 then ((x % 65536 : Nat) : Int) else ((x % 65536 : Nat) : Int) - 65536

/-- The `uint16_t` bit pattern of an `int16_t` value. -/
def toU16 (z : Int) : Nat := (z % 65536).toNat

/-- Value of an integer after conversion to `short` (16 bits, two's complement). -/
def toShort (z : Int) : Int :=
  (z + 32768) % 65536 - 32768

/-- A value of type `float`: not a number, an infinity, or the finite value
`num / 2 ^ scale` (every finite `float` is such a quotient). -/
inductive CFloat where
  | nan
  | negInf
  | posInf
  | finite (num : Int) (scale : Nat)
  deriving DecidableEq, Repr

/-- The comparison `x < k` of a `float` with an integer constant. -/
def CFloat.lt (x : CFloat) (k : Int) : Bool :=
  match x with
  | .nan => false
  | .negInf => true
  | .posInf => false
  | .finite num scale => decide (num < k * 2 ^ scale)

/-- The comparison `x > k` of a `float` with an integer constant. -/
def CFloat.gt (x : CFloat) (k : Int) : Bool :=
  match x with
  | .nan => false
  | .negInf => false
  | .posInf => true
  | .finite num scale => decide (num > k * 2 ^ scale)

/-- The comparison `x == k` of a `float` with an integer constant. -/
def CFloat.eq (x : CFloat) (k : Int) : Bool :=
  match x with
  | .finite num scale => decide (num = k * 2 ^ scale)
  | _ => false

/-- Number of binary digits of `m`; the first argument bounds the recursion, and
`m` itself is enough for it. -/
def bitLength : Nat → Nat → Nat
  | 0, _ => 0
  | fuel + 1, m => if m = 0 then 0 else bitLength fuel (m / 2) + 1

/-- The `float` nearest to `num / 2 ^ scale`, ties to even: of the binary digits
of `|num|` the first 24 are kept, and none below the quantum 2^-149; a result of
magnitude 2^128 or more is an infinity. -/
def CFloat.round (num : Int) (scale : Nat) : CFloat :=
  let m := num.natAbs
  let dropped := max (bitLength m m - 24) (scale - 149)
  let q := m / 2 ^ dropped
  let r := m % 2 ^ dropped
  let kept := if 2 ^ dropped < 2 * r ∨ (2 * r = 2 ^ dropped ∧ q % 2 = 1) then q + 1 else q
  if 2 ^ (128 + scale) ≤ kept * 2 ^ dropped then (if num < 0 then .negInf else .posInf)
  else .finite (num.sign * ((kept * 2 ^ dropped : Nat) : Int)) scale

/-- The conversion `(float)s` of an `int16_t`, which is exact. -/
def CFloat.ofInt16 (s : Int) : CFloat := .finite s 0

/-- Sign of a `float` that is not a NaN: -1, 0 or 1. -/
def CFloat.sign (x : CFloat) : Int :=
  match x with
  | .nan => 0
  | .negInf => -1
  | .posInf => 1
  | .finite num _ => num.sign

/-- The product `x * y` of two `float`s. -/
def CFloat.mul (x y : CFloat) : CFloat :=
  match x, y with
  | .nan, _ => .nan
  | _, .nan => .nan
  | .finite a s, .finite b t => CFloat.round (a * b) (s + t)
  | x, y =>
    if x.sign * y.sign = 0 then .nan
    else if x.sign * y.sign < 0 then .negInf
    else .posInf

/-- The conversion of a `float` to `int16_t` where it is defined: the value
truncated toward zero, when that is an `int16_t`. -/
def CFloat.toInt16 (x : CFloat) : Option Int :=
  match x with
  | .finite num scale =>
    if -32768 ≤ Int.tdiv num (2 ^ scale) ∧ Int.tdiv num (2 ^ scale) ≤ 32767 then
      some (Int.tdiv num (2 ^ scale))
    else none
  | _ => none

/-- The `count` bytes found at the address of an object whose bytes are `object`:
a byte past the end of the object is indeterminate, `past j`. -/
def bytesAt (object : List Nat) (count : Nat) (past : Nat → Nat) : List Nat :=
  (List.range count).map (fun j => if j < object.length then object.getD j 0 else past j)

/-- An `fstream` opened on a file: the bytes of the file and the error flag. -/
structure FStream where
  contents : List Nat
  failed : Bool
  deriving DecidableEq, Repr

/-- The call `dataStream.clear()`. -/
def FStream.clear (s : FStream) : FStream :=
  { s with failed := false }

/-- The calls `seekg(pos, beg); read(buffer, n)` (in the constructor the cursor
is at `pos = 0` already).  On a failed stream neither call does anything.
Otherwise the bytes available from `pos` on, at most `n`, overwrite the start
of `buffer`; when fewer than `n` are available the stream fails. -/
def FStream.read (s : FStream) (pos n : Nat) (buffer : List Nat) : FStream × List Nat :=
  if s.failed then (s, buffer)
  else
    let got := (s.contents.drop pos).take n
    ({ s with failed := decide (got.length < n) }, got ++ buffer.drop got.length)

/-- The calls `seekp(pos, beg); write(buffer, buffer.length)`.  On a failed stream
neither call does anything, and writing no byte leaves the file alone.
Otherwise the bytes replace the file's bytes from `pos` on, the file growing as
needed; a gap between the old end of the file and `pos` reads as zeros. -/
def FStream.write (s : FStream) (pos : Nat) (buffer : List Nat) : FStream :=
  if s.failed then s
  else if buffer.isEmpty then s
  else
    let old := s.contents ++ List.replicate (pos - s.contents.length) 0
    { s with contents := old.take pos ++ buffer ++ old.drop (pos + buffer.length) }

/-- The allocation `new char[n]`: `n` bytes of indeterminate content `junk`. -/
def newChars (junk : Nat → Nat) (n : Nat) : List Nat :=
  (List.range n).map junk

/-- The state of a `class WavFile` object. -/
structure WavFile where
  filePath : String
  header : WavHeader
  dataStream : FStream
  deriving DecidableEq, Repr

namespace WavFile

/-- Method `WavFile::SaveHeader`. -/
def SaveHeader (f : WavFile) : WavFile :=
  { f with dataStream := f.dataStream.write 0 f.header.toBytes }

/-- Constructor `WavFile::WavFile(const string& filePath)`; `disk` is the content of the file
at `filePath`, or `none` when there is no such file.  An existing file has its
first 44 bytes read over the default header; otherwise the file is created and
the default header is saved to it. -/
def new (filePath : String) (disk : Option (List Nat)) : WavFile :=
  match disk with
  | some bytes =>
    let r := (FStream.mk bytes false).read 0 wavHeaderLength ({} : WavHeader).toBytes
    { filePath := filePath, header := WavHeader.ofBytes r.2, dataStream := r.1 }
  | none =>
    SaveHeader { filePath := filePath, header := {}, dataStream := ⟨[], false⟩ }

/-- Method `WavFile::GetFilePath`. -/
def GetFilePath (f : WavFile) : String := f.filePath

/-- Method `WavFile::GetBytesPerSample`. -/
def GetBytesPerSample (f : WavFile) : Nat :=
  f.header.bitsPerSample / 8

/-- Method `WavFile::GetChunksPerChannel`: `(dataBlockSize - 8) / (channels * GetBytesPerSample())`
in `unsigned int` arithmetic. -/
def GetChunksPerChannel (f : WavFile) : Except Fault Nat :=
  if (f.header.channels * f.GetBytesPerSample) % U32 = 0 then .error .divisionByZero
  else .ok (((f.header.dataBlockSize + U32 - 8) % U32) /
    ((f.header.channels * f.GetBytesPerSample) % U32))

/-- Method `WavFile::GetDuration`. -/
def GetDuration (f : WavFile) : Except Fault Nat :=
  match f.GetChunksPerChannel with
  | .error e => .error e
  | .ok chunks =>
    if f.header.sampleRate = 0 then .error .divisionByZero
    else .ok (chunks / f.header.sampleRate)

/-- Byte offset of sample `i` in a call whose channel argument is `channelNumber`:
`wavHeaderLength + bytesPerSample * channelNumber + bytesPerSample * i * header.channels`
in `unsigned int` arithmetic.  The parameter `channelNumber` of `GetDataFromChannel`,
`SetDataOnChannel` and `ClearChannel` is a `short`: the argument is converted to
`short` when the call is made, and that value is converted to `unsigned int` in
the product. -/
def samplePos (f : WavFile) (channelNumber : Int) (i : Nat) : Nat :=
  (wavHeaderLength + f.GetBytesPerSample * toU32 (toShort channelNumber) +
    f.GetBytesPerSample * i * f.header.channels) % U32

/-- The loop `for (j ...) bytes[(i * bytesPerSample) + j] = buffer[j];` run for
`j = 0 .. count - 1`. -/
def storeSample (bytesPerSample i : Nat) (buffer : List Nat) : Nat → List Nat → List Nat
  | 0, bytes => bytes
  | j + 1, bytes =>
    (storeSample bytesPerSample i buffer j bytes).set
      (((i * bytesPerSample) % U32 + j) % U32) (buffer.getD j 0)

/-- The loop `for (j ...) buffer[j] = bytes[(i * bytesPerSample) + j];`. -/
def loadSample (bytesPerSample i : Nat) (bytes : List Nat) : List Nat :=
  (List.range bytesPerSample).map
    (fun j => bytes.getD (((i * bytesPerSample) % U32 + j) % U32) 0)

/-- The `for (int i ...)` loop of `GetDataFromChannel` from iteration `i` on, with
`remaining` iterations left. -/
def GetDataFromChannel.loop (junk : Nat → Nat → Nat) (f : WavFile) (channelNumber : Int) :
    (remaining i : Nat) → FStream → List Nat → FStream × List Nat
  | 0, _, s, bytes => (s, bytes)
  | remaining + 1, i, s, bytes =>
    if s.failed then (s.clear, bytes)
    else
      let r := s.read (f.samplePos channelNumber i) f.GetBytesPerSample
        (newChars (junk i) f.GetBytesPerSample)
      GetDataFromChannel.loop junk f channelNumber remaining (i + 1) r.1
        (storeSample f.GetBytesPerSample i r.2 f.GetBytesPerSample bytes)

/-- Method `WavFile::GetDataFromChannel`; returns the store (its stream may have changed
state) and the vector `bytes`.  `channelNumber` is the argument of the call; its
conversion to the `short` parameter is part of `samplePos`. -/
def GetDataFromChannel (junk : Nat → Nat → Nat) (f : WavFile) (channelNumber : Int)
    (samplesCount : Nat) : WavFile × List Nat :=
  let r := GetDataFromChannel.loop junk f channelNumber samplesCount 0 f.dataStream
    (List.replicate ((samplesCount * f.GetBytesPerSample) % U32) 0)
  ({ f with dataStream := r.1 }, r.2)

/-- The `for (int i ...)` loop of `SetDataOnChannel`. -/
def SetDataOnChannel.loop (f : WavFile) (channelNumber : Int) (bytes : List Nat) :
    (remaining i : Nat) → FStream → FStream
  | 0, _, s => s
  | remaining + 1, i, s =>
    if s.failed then s.clear
    else
      SetDataOnChannel.loop f channelNumber bytes remaining (i + 1)
        (s.write (f.samplePos channelNumber i) (loadSample f.GetBytesPerSample i bytes))

/-- Method `WavFile::SetDataOnChannel`.  `channelNumber` is the argument of the call;
its conversion to the `short` parameter is part of `samplePos`. -/
def SetDataOnChannel (f : WavFile) (channelNumber : Int) (bytes : List Nat) :
    Except Fault WavFile :=
  if f.GetBytesPerSample = 0 then .error .divisionByZero
  else
    let samplesCount := (bytes.length / f.GetBytesPerSample) % U32
    .ok { f with
      dataStream := SetDataOnChannel.loop f channelNumber bytes samplesCount 0 f.dataStream }

/-- The `for (int i ...)` loop of `ClearChannel`: every iteration writes
`bytesPerSample` zero bytes at the slot of sample `i`. -/
def ClearChannel.loop (f : WavFile) (channelNumber : Int) :
    (remaining i : Nat) → FStream → FStream
  | 0, _, s => s
  | remaining + 1, i, s =>
    if s.failed then s.clear
    else
      ClearChannel.loop f channelNumber remaining (i + 1)
        (s.write (f.samplePos channelNumber i) (List.replicate f.GetBytesPerSample 0))

/-- Method `WavFile::ClearChannel`.  The `seekp(0, beg)` before the loop has no
effect of its own: every write of the loop seeks first.  `channelNumber` is the
argument of the call; its conversion to the `short` parameter is part of
`samplePos`. -/
def ClearChannel (f : WavFile) (channelNumber : Int) : Except Fault WavFile :=
  match f.GetChunksPerChannel with
  | .error e => .error e
  | .ok samplesCount =>
    .ok { f with dataStream := ClearChannel.loop f channelNumber samplesCount 0 f.dataStream }

/-- The loop of `ClearAllChannels` from channel `i` on: `ClearChannel(i)`, the `int`
counter being the argument of the `short` parameter. -/
def ClearAllChannels.loop : (remaining i : Nat) → WavFile → Except Fault WavFile
  | 0, _, f => .ok f
  | remaining + 1, i, f =>
    match f.ClearChannel (i : Int) with
    | .error e => .error e
    | .ok g => ClearAllChannels.loop remaining (i + 1) g

/-- Method `WavFile::ClearAllChannels`. -/
def ClearAllChannels (f : WavFile) : Except Fault WavFile :=
  ClearAllChannels.loop f.header.channels 0 f

end WavFile

namespace WavFileValidator

/-- Method `WavFileValidator::CheckField<T>`: throws when the two values differ, returns
`true` otherwise.  `operator<<` prints both integer types in decimal. -/
def CheckField (toValidate expected : Nat) (fieldName : String) : Except Fault Bool :=
  if toValidate ≠ expected then
    .error (.invalidArgument
      ("WAVE PCM " ++ fieldName ++ " not validated: expected \x7b" ++ toString expected ++
        "\x7d, was \x7b" ++ toString toValidate ++ "\x7d!"))
  else .ok true

/-- The six checks of `Validate`, joined by `&`: every operand is evaluated (here
from left to right) and the first one that throws ends the evaluation. -/
def checks (expectedHeader : WavHeader) (file : WavFile) : Except Fault Bool :=
  match CheckField file.header.riff expectedHeader.riff "RIFF" with
  | .error e => .error e
  | .ok c1 =>
  match CheckField file.header.riffType expectedHeader.riffType "RIFF type" with
  | .error e => .error e
  | .ok c2 =>
  match CheckField file.header.wavType expectedHeader.wavType "WAVE type" with
  | .error e => .error e
  | .ok c3 =>
  match CheckField file.header.channels expectedHeader.channels "channels count" with
  | .error e => .error e
  | .ok c4 =>
  match CheckField file.header.sampleRate expectedHeader.sampleRate "sample rate" with
  | .error e => .error e
  | .ok c5 =>
  match CheckField file.header.bitsPerSample expectedHeader.bitsPerSample "bits per sample" with
  | .error e => .error e
  | .ok c6 => .ok (true && c1 && c2 && c3 && c4 && c5 && c6)

/-- Method `WavFileValidator::Validate`; the member `expectedHeader` is the default
header.  An exception of the checks is rethrown with the file's path in front. -/
def Validate (file : WavFile) : Except Fault Bool :=
  let expectedHeader : WavHeader := {}
  match checks expectedHeader file with
  | .ok validated => .ok validated
  | .error (.invalidArgument what) =>
    .error (.invalidArgument ("In file " ++ file.GetFilePath ++ ":\n" ++ what ++ "\n"))
  | .error e => .error e

end WavFileValidator

namespace WavEditor

/-- The header `Combine` gives to `result`, from the header of the primary input
`first`: lines `channels = 2` to `resultHeader.offRiffSize = size`. -/
def Combine.resultHeader (first resultHeader : WavHeader) : WavHeader :=
  let channels := 2
  let size := (first.offRiffSize * 2) % U32
  let dataBlockSize := (first.dataBlockSize * 2) % U32
  { resultHeader with
    dataBlockSize := dataBlockSize
    sampleRate := first.sampleRate
    channels := channels
    bitsPerSample := first.bitsPerSample
    offRiffSize := size }

/-- The body of `Combine` once `first` (the primary input) and `second` are
chosen: set and save the header of `result`, read channel 0 of both inputs in
full, write the two vectors as channels 0 and 1 of `result`.  Returns the
stores `first`, `second` and `result` as they are when the call returns. -/
def Combine.body (junkFirst junkSecond : Nat → Nat → Nat) (first second result : WavFile) :
    Except Fault (WavFile × WavFile × WavFile) :=
  let result := { result with header := Combine.resultHeader first.header result.header }
  let result := result.SaveHeader
  match first.GetChunksPerChannel with
  | .error e => .error e
  | .ok firstCount =>
  let firstRead := first.GetDataFromChannel junkFirst 0 firstCount
  match second.GetChunksPerChannel with
  | .error e => .error e
  | .ok secondCount =>
  let secondRead := second.GetDataFromChannel junkSecond 0 secondCount
  match result.SetDataOnChannel 0 firstRead.2 with
  | .error e => .error e
  | .ok result =>
  match result.SetDataOnChannel 1 secondRead.2 with
  | .error e => .error e
  | .ok result => .ok (firstRead.1, secondRead.1, result)

/-- Method `WavEditor::Combine`, for three distinct stores on three distinct files: the
input with the larger `dataBlockSize` becomes `first`, the other one `second`. -/
def Combine (junkFirst junkSecond : Nat → Nat → Nat) (firstFile secondFile result : WavFile) :
    Except Fault (WavFile × WavFile × WavFile) :=
  if secondFile.header.dataBlockSize > firstFile.header.dataBlockSize then
    Combine.body junkFirst junkSecond secondFile firstFile result
  else
    Combine.body junkFirst junkSecond firstFile secondFile result

/-- The initialiser `(float)*((int16_t*)bytes) * factor` of the `int16_t` variable
`resultSample`, for the value `sample` of `*((int16_t*)bytes)`. -/
def MultiplyVolume.resultSample (outOfRange : CFloat → Int) (factor : CFloat) (sample : Int) :
    Int :=
  match ((CFloat.ofInt16 sample).mul factor).toInt16 with
  | some value => value
  | none => outOfRange ((CFloat.ofInt16 sample).mul factor)

/-- The sample loop of `MultiplyVolume` over one channel's vector: sample `i` is
copied to the buffer `bytes` of `bytesPerSample` bytes, the two bytes at the
address of the buffer are read as an `int16_t`, `resultSample` is computed from
it, and `bytesPerSample` bytes at the address of `resultSample` are copied back. -/
def MultiplyVolume.scale (past : Nat → Nat → Nat) (outOfRange : CFloat → Int) (factor : CFloat)
    (bytesPerSample : Nat) : (remaining i : Nat) → List Nat → List Nat
  | 0, _, channelBytes => channelBytes
  | remaining + 1, i, channelBytes =>
    let bytes := WavFile.loadSample bytesPerSample i channelBytes
    let resultSample := MultiplyVolume.resultSample outOfRange factor
      (toInt16 (u16At (bytesAt bytes 2 (past i)) 0))
    let rawResultSample := bytesAt (le16 (toU16 resultSample)) bytesPerSample (past i)
    MultiplyVolume.scale past outOfRange factor bytesPerSample remaining (i + 1)
      (WavFile.storeSample bytesPerSample i rawResultSample bytesPerSample channelBytes)

/-- Method `WavEditor::MultiplyVolume`.  Returns the store as it is when the call ends
and how the call ended. -/
def MultiplyVolume (junkLeft junkRight pastLeft pastRight : Nat → Nat → Nat)
    (outOfRange : CFloat → Int) (file : WavFile) (factor : CFloat) :
    WavFile × Except Fault Unit :=
  if factor.lt 0 || factor.gt 2 then
    (file, .error (.invalidArgument "Multiply factor must be in range from 0 to 2!"))
  else if factor.eq 1 then (file, .ok ())
  else
    match file.GetChunksPerChannel with
    | .error e => (file, .error e)
    | .ok chunksPerChannel =>
    let bytesPerSample := file.GetBytesPerSample
    let leftRead := file.GetDataFromChannel junkLeft 0 chunksPerChannel
    let rightRead := leftRead.1.GetDataFromChannel junkRight 1 chunksPerChannel
    let leftChannelBytes :=
      MultiplyVolume.scale pastLeft outOfRange factor bytesPerSample chunksPerChannel 0
        leftRead.2
    let rightChannelBytes :=
      MultiplyVolume.scale pastRight outOfRange factor bytesPerSample chunksPerChannel 0
        rightRead.2
    match rightRead.1.SetDataOnChannel 0 leftChannelBytes with
    | .error e => (rightRead.1, .error e)
    | .ok file =>
    match file.SetDataOnChannel 1 rightChannelBytes with
    | .error e => (file, .error e)
    | .ok file => (file, .ok ())

end WavEditor

/-- A mono 16-bit 8000 Hz file: the default header with the given `dataBlockSize`,
followed by the payload. -/
def monoFile (dataBlockSize : Nat) (payload : List Nat) : List Nat :=
  ({ dataBlockSize := dataBlockSize } : WavHeader).toBytes ++ payload

open WavFile WavFileValidator WavEditor

/-! ## Stores and headers used as examples, and specification-side definitions -/

/-- The six fields that `Validate` compares hold the values of the default header. -/
def WavHeader.Supported (h : WavHeader) : Prop :=
  h.riff = 1179011410 ∧ h.riffType = 1163280727 ∧ h.wavType = 1 ∧ h.channels = 1 ∧
  h.sampleRate = 8000 ∧ h.bitsPerSample = 16

/-- The frame count as the specification writes it, over the integers:
`(dataBlockSize - 8) / (channelCount * bytesPerSample)`, `bytesPerSample = bitsPerSample / 8`. -/
def framesPerChannelSpec (h : WavHeader) : Int :=
  ((h.dataBlockSize : Int) - 8) / ((h.channels : Int) * ((h.bitsPerSample : Int) / 8))

/-- A store on an empty standard WAVE file: mono, 16 bit, `dataBlockSize = 0`. -/
def emptyPayloadStore : WavFile :=
  WavFile.new "empty.wav" (some (monoFile 0 []))

/-- A store opened on an existing, empty file, whose in-memory header was then
set to a stereo header (as `Combine` does with its `result`). -/
def staleStore : WavFile :=
  { WavFile.new "out.wav" (some []) with header := { channels := 2 } }

/-- A freshly created store whose in-memory header was set to a stereo header. -/
def freshStereoStore : WavFile :=
  { WavFile.new "out.wav" none with header := { channels := 2, dataBlockSize := 416 } }

/-- The store `result` as `Combine` has it after `result.SaveHeader()`. -/
def WavEditor.Combine.prepared (first result : WavFile) : WavFile :=
  SaveHeader { result with header := Combine.resultHeader first.header result.header }

/-- A validated mono 16-bit 8000 Hz input with 100 frames of silence. -/
def hundredFrames : WavFile :=
  WavFile.new "in.wav" (some (monoFile 208 (List.replicate 200 0)))

/-- A mono store on a file with one frame, bytes 1 and 2. -/
def oneFrame : WavFile :=
  WavFile.new "in.wav" (some (monoFile 10 [1, 2]))

/-- The store `oneFrame` after a call `GetDataFromChannel(0, 2)`: the second
iteration read past the end of the file and was the last one, so the stream
is left in the failed state. -/
def oneFrameAfterLongRead : WavFile :=
  (oneFrame.GetDataFromChannel (fun _ _ => 0) 0 2).1

/-- A store with 65535 channels of 16 bits, as opened on a file of a little more
than 4 GiB: the header, then 32769 complete frames whose bytes are all 1. -/
def wideStore : WavFile :=
  { filePath := "wide.wav"
    header := { channels := 65535 }
    dataStream :=
      ⟨({ channels := 65535 } : WavHeader).toBytes ++ List.replicate (2 * 32769 * 65535) 1,
        false⟩ }

/-- A store with 65535 channels of 16 bits on a file with the header and two
complete frames whose bytes are all 1. -/
def wideTwoFrames : WavFile :=
  { filePath := "wide2.wav"
    header := { channels := 65535, dataBlockSize := 262148 }
    dataStream :=
      ⟨({ channels := 65535, dataBlockSize := 262148 } : WavHeader).toBytes ++
        List.replicate (2 * 2 * 65535) 1, false⟩ }

/-- A stereo 16-bit store on a file with three frames; the samples of channel 0 are
the byte pairs 11 12, 13 14, 15 16 and those of channel 1 are 21 22, 23 24, 25 26. -/
def stereoFrames : WavFile :=
  WavFile.new "stereo.wav" (some (({ channels := 2, dataBlockSize := 20 } : WavHeader).toBytes ++
    [11, 12, 21, 22, 13, 14, 23, 24, 15, 16, 25, 26]))

/-- A store on a file whose header says four bits per sample, so that
`GetBytesPerSample` is 0. -/
def nibbleStore : WavFile :=
  WavFile.new "in.wav" (some (({ bitsPerSample := 4 } : WavHeader).toBytes ++ [1, 2]))

/-- A freshly created store given the channel count and sample width of
`nibbleStore`. -/
def nibbleTarget : WavFile :=
  { WavFile.new "copy.wav" none with header := { bitsPerSample := 4 } }

/-- A mono input whose header says one frame (`dataBlockSize = 10`), bytes 1, 0. -/
def leftInput : WavFile :=
  WavFile.new "left.wav" (some (monoFile 10 [1, 0]))

/-- A mono input whose header says one frame as well, but with the odd
`dataBlockSize = 11`; its frame is the bytes 2, 0. -/
def rightInput : WavFile :=
  WavFile.new "right.wav" (some (monoFile 11 [2, 0]))

/-- A validated mono input with 4 frames. -/
def longInput : WavFile :=
  WavFile.new "long.wav" (some (monoFile 16 [1, 0, 2, 0, 3, 0, 4, 0]))

/-- A validated mono input with 2 frames. -/
def shortInput : WavFile :=
  WavFile.new "short.wav" (some (monoFile 12 [5, 0, 6, 0]))

/-- A header read from a file, not validated, with four bits per sample. -/
def fourBitStore : WavFile :=
  WavFile.new "odd.wav" (some ({ bitsPerSample := 4 } : WavHeader).toBytes)

/-- A store on a file whose `dataBlockSize` field is 7: `dataBlockSize - 8` wraps to
4294967295, so `GetChunksPerChannel` is 2147483647. -/
def wrappedSizeStore : WavFile :=
  WavFile.new "in.wav" (some (monoFile 7 []))

/-- A store with two channels of 16 bits on a file with two frames: the samples of
channel 0 are 25 and -3, those of channel 1 are 100 and 20000. -/
def quietStereo : WavFile :=
  WavFile.new "quiet.wav" (some (({ channels := 2, dataBlockSize := 16 } : WavHeader).toBytes ++
    [25, 0, 100, 0, 253, 255, 32, 78]))

/-- The store `quietStereo` after a call `GetDataFromChannel(0, 3)`: the third
iteration read past the end of the file and was the last one, so the stream is
left in the failed state. -/
def quietStereoAfterLongRead : WavFile :=
  (quietStereo.GetDataFromChannel (fun _ _ => 0) 0 3).1

/-! ## Lists of bytes -/

theorem getElem?_eq_some_getD (l : List Nat) (k : Nat) (h : k < l.length) :
    l[k]? = some (l.getD k 0) := by
  simp [List.getD_eq_getElem?_getD, List.getElem?_eq_getElem h]

theorem getD_of_length_le (l : List Nat) (k : Nat) (h : l.length ≤ k) : l.getD k 0 = 0 := by
  simp [List.getD_eq_getElem?_getD, List.getElem?_eq_none h]

theorem ext_getD (l₁ l₂ : List Nat) (hlen : l₁.length = l₂.length)
    (h : ∀ k, k < l₁.length → l₁.getD k 0 = l₂.getD k 0) : l₁ = l₂ := by
  apply List.ext_getElem hlen
  intro k h₁ h₂
  have := h k h₁
  simpa [List.getD_eq_getElem?_getD, List.getElem?_eq_getElem h₁,
    List.getElem?_eq_getElem h₂] using this

theorem getD_append_zeros (l : List Nat) (m k : Nat) :
    (l ++ List.replicate m 0).getD k 0 = l.getD k 0 := by
  simp only [List.getD_eq_getElem?_getD, List.getElem?_append, List.getElem?_replicate]
  by_cases h : k < l.length
  · simp [h]
  · simp only [h, if_false]
    rw [List.getElem?_eq_none (Nat.le_of_not_lt h)]
    split <;> simp

theorem getD_take (l : List Nat) (n k : Nat) :
    (l.take n).getD k 0 = if k < n then l.getD k 0 else 0 := by
  simp only [List.getD_eq_getElem?_getD, List.getElem?_take]
  split <;> simp

theorem getD_drop (l : List Nat) (n k : Nat) :
    (l.drop n).getD k 0 = l.getD (n + k) 0 := by
  simp [List.getD_eq_getElem?_getD, List.getElem?_drop]

theorem getD_append (l₁ l₂ : List Nat) (k : Nat) :
    (l₁ ++ l₂).getD k 0 = if k < l₁.length then l₁.getD k 0 else l₂.getD (k - l₁.length) 0 := by
  simp only [List.getD_eq_getElem?_getD, List.getElem?_append]
  split <;> simp

theorem getD_replicate_zero (k t : Nat) : (List.replicate k 0).getD t 0 = 0 := by
  simp only [List.getD_eq_getElem?_getD, List.getElem?_replicate]
  split <;> rfl

/-! ## The stream -/

theorem FStream.write_failed (s : FStream) (pos : Nat) (buffer : List Nat) :
    (s.write pos buffer).failed = s.failed := by
  unfold FStream.write
  split
  · rfl
  · split <;> rfl

theorem getD_splice (old buffer : List Nat) (pos k : Nat) (h : pos ≤ old.length) :
    (old.take pos ++ buffer ++ old.drop (pos + buffer.length)).getD k 0 =
      if pos ≤ k ∧ k < pos + buffer.length then buffer.getD (k - pos) 0
      else old.getD k 0 := by
  have hA : (old.take pos).length = pos := by simp only [List.length_take]; omega
  rw [getD_append, getD_append, List.length_append, hA, getD_take, getD_drop]
  by_cases h1 : k < pos
  · rw [if_pos (by omega), if_pos h1, if_pos h1, if_neg (by omega)]
  · by_cases h2 : k < pos + buffer.length
    · rw [if_pos h2, if_neg h1, if_pos ⟨by omega, h2⟩]
    · rw [if_neg h2, if_neg (by omega)]
      congr 1
      omega

theorem FStream.write_getD (s : FStream) (pos : Nat) (buffer : List Nat) (k : Nat)
    (hs : s.failed = false) :
    (s.write pos buffer).contents.getD k 0 =
      if pos ≤ k ∧ k < pos + buffer.length then buffer.getD (k - pos) 0
      else s.contents.getD k 0 := by
  unfold FStream.write
  simp only [hs, Bool.false_eq_true, if_false]
  by_cases hb : buffer.isEmpty = true
  · have : buffer.length = 0 := by simpa using hb
    simp only [hb, if_true, this]
    rw [if_neg (by omega)]
  · simp only [hb, Bool.false_eq_true, if_false]
    rw [getD_splice _ _ _ _ (by simp only [List.length_append, List.length_replicate]; omega),
      getD_append_zeros]

theorem FStream.write_length (s : FStream) (pos : Nat) (buffer : List Nat)
    (hs : s.failed = false) (hb : buffer ≠ []) :
    (s.write pos buffer).contents.length = max s.contents.length (pos + buffer.length) := by
  unfold FStream.write
  have hb' : buffer.isEmpty = false := by
    cases buffer <;> simp_all
  simp only [hs, hb', Bool.false_eq_true, if_false, List.length_append, List.length_take,
    List.length_drop, List.length_replicate]
  omega

theorem FStream.read_of_available (s : FStream) (pos n : Nat) (buffer : List Nat)
    (hs : s.failed = false) (h : pos + n ≤ s.contents.length) :
    s.read pos n buffer = (s, (s.contents.drop pos).take n ++ buffer.drop n) := by
  unfold FStream.read
  have hl : ((s.contents.drop pos).take n).length = n := by
    simp only [List.length_take, List.length_drop]; omega
  cases s
  simp_all

/-! ## Moving one sample between a vector and a buffer -/

theorem getD_set (l : List Nat) (i k a : Nat) :
    (l.set i a).getD k 0 = if i = k ∧ k < l.length then a else l.getD k 0 := by
  simp only [List.getD_eq_getElem?_getD, List.getElem?_set]
  by_cases h : i = k
  · subst h
    by_cases h2 : i < l.length
    · simp [h2]
    · simp [h2, List.getElem?_eq_none (Nat.le_of_not_lt h2)]
  · simp [h]

theorem WavFile.storeSample_length (bps i : Nat) (buffer : List Nat) (cnt : Nat)
    (bytes : List Nat) : (WavFile.storeSample bps i buffer cnt bytes).length = bytes.length := by
  induction cnt with
  | zero => rfl
  | succ j ih => simp only [WavFile.storeSample, List.length_set, ih]

theorem WavFile.storeSample_getD (bps i : Nat) (buffer : List Nat) (cnt : Nat)
    (bytes : List Nat) (k : Nat) (hw : i * bps + cnt ≤ U32) :
    (WavFile.storeSample bps i buffer cnt bytes).getD k 0 =
      if i * bps ≤ k ∧ k < i * bps + cnt ∧ k < bytes.length then buffer.getD (k - i * bps) 0
      else bytes.getD k 0 := by
  induction cnt with
  | zero =>
    simp only [WavFile.storeSample]
    rw [if_neg (by omega)]
  | succ j ih =>
    have hidx : ((i * bps) % U32 + j) % U32 = i * bps + j := by
      simp only [U32] at hw ⊢
      omega
    simp only [WavFile.storeSample, hidx, getD_set, WavFile.storeSample_length]
    rw [ih (by omega)]
    by_cases h1 : i * bps + j = k
    · subst h1
      by_cases h2 : i * bps + j < bytes.length
      · rw [if_pos ⟨rfl, h2⟩, if_pos ⟨by omega, by omega, h2⟩]
        congr 1
        omega
      · rw [if_neg (by omega), if_neg (by omega), if_neg (by omega)]
    · rw [if_neg (by omega)]
      by_cases h3 : i * bps ≤ k ∧ k < i * bps + j ∧ k < bytes.length
      · rw [if_pos h3, if_pos ⟨h3.1, by omega, h3.2.2⟩]
      · rw [if_neg h3, if_neg (by omega)]

theorem WavFile.loadSample_length (bps i : Nat) (bytes : List Nat) :
    (WavFile.loadSample bps i bytes).length = bps := by
  simp [WavFile.loadSample]

theorem WavFile.loadSample_getD (bps i : Nat) (bytes : List Nat) (j : Nat) (hj : j < bps)
    (hw : i * bps + bps ≤ U32) :
    (WavFile.loadSample bps i bytes).getD j 0 = bytes.getD (i * bps + j) 0 := by
  have hidx : ((i * bps) % U32 + j) % U32 = i * bps + j := by
    simp only [U32] at hw ⊢
    omega
  simp only [WavFile.loadSample, List.getD_eq_getElem?_getD, List.getElem?_map,
    List.getElem?_range hj, Option.map_some', Option.getD_some, hidx]

theorem newChars_length (junk : Nat → Nat) (n : Nat) : (newChars junk n).length = n := by
  simp [newChars]

/-! ## The two channel loops -/

theorem FStream.read_getD (s : FStream) (pos n : Nat) (buffer : List Nat) (j : Nat)
    (hs : s.failed = false) (h : pos + n ≤ s.contents.length) (hj : j < n) :
    (s.read pos n buffer).2.getD j 0 = s.contents.getD (pos + j) 0 := by
  rw [FStream.read_of_available s pos n buffer hs h]
  have hl : ((s.contents.drop pos).take n).length = n := by
    simp only [List.length_take, List.length_drop]; omega
  simp only [getD_append, hl, hj, if_true, getD_take, getD_drop]

/-- While every sample asked for lies inside the file, the reading loop leaves the
stream as it was and stores sample `i` of the channel at `bytes[i * bytesPerSample ..]`. -/
theorem WavFile.GetDataFromChannel.loop_reads (junk : Nat → Nat → Nat) (f : WavFile)
    (c : Int) : ∀ (remaining i₀ : Nat) (s : FStream) (bytes : List Nat),
    s.failed = false →
    (∀ i, i₀ ≤ i → i < i₀ + remaining →
      f.samplePos c i + f.GetBytesPerSample ≤ s.contents.length) →
    (i₀ + remaining) * f.GetBytesPerSample ≤ bytes.length →
    bytes.length ≤ U32 →
    (WavFile.GetDataFromChannel.loop junk f c remaining i₀ s bytes).1 = s ∧
    (WavFile.GetDataFromChannel.loop junk f c remaining i₀ s bytes).2.length = bytes.length ∧
    (∀ i j, i₀ ≤ i → i < i₀ + remaining → j < f.GetBytesPerSample →
      (WavFile.GetDataFromChannel.loop junk f c remaining i₀ s bytes).2.getD
        (i * f.GetBytesPerSample + j) 0 = s.contents.getD (f.samplePos c i + j) 0) ∧
    (∀ k, (k < i₀ * f.GetBytesPerSample ∨ (i₀ + remaining) * f.GetBytesPerSample ≤ k) →
      (WavFile.GetDataFromChannel.loop junk f c remaining i₀ s bytes).2.getD k 0 =
        bytes.getD k 0) := by
  intro remaining
  induction remaining with
  | zero =>
    intro i₀ s bytes _ _ _ _
    refine ⟨rfl, rfl, ?_, fun _ _ => rfl⟩
    intro i j h1 h2
    omega
  | succ r ih =>
    intro i₀ s bytes hs hav hlen hU
    have hpos := hav i₀ (Nat.le_refl _) (by omega)
    have hread := FStream.read_of_available s (f.samplePos c i₀) f.GetBytesPerSample
      (newChars (junk i₀) f.GetBytesPerSample) hs hpos
    have hmul : (i₀ + (r + 1)) * f.GetBytesPerSample =
        i₀ * f.GetBytesPerSample + r * f.GetBytesPerSample + f.GetBytesPerSample := by ring
    have hmul' : (i₀ + 1 + r) * f.GetBytesPerSample =
        i₀ * f.GetBytesPerSample + r * f.GetBytesPerSample + f.GetBytesPerSample := by ring
    have hmul1 : (i₀ + 1) * f.GetBytesPerSample =
        i₀ * f.GetBytesPerSample + f.GetBytesPerSample := by ring
    have hw : i₀ * f.GetBytesPerSample + f.GetBytesPerSample ≤ U32 := by omega
    have hstep : WavFile.GetDataFromChannel.loop junk f c (r + 1) i₀ s bytes =
        WavFile.GetDataFromChannel.loop junk f c r (i₀ + 1) s
          (WavFile.storeSample f.GetBytesPerSample i₀
            (s.read (f.samplePos c i₀) f.GetBytesPerSample
              (newChars (junk i₀) f.GetBytesPerSample)).2 f.GetBytesPerSample bytes) := by
      rw [WavFile.GetDataFromChannel.loop]
      simp only [hs, Bool.false_eq_true, if_false]
      rw [hread]
    rw [hstep]
    have ih' := ih (i₀ + 1) s
      (WavFile.storeSample f.GetBytesPerSample i₀
        (s.read (f.samplePos c i₀) f.GetBytesPerSample
          (newChars (junk i₀) f.GetBytesPerSample)).2 f.GetBytesPerSample bytes) hs
      (fun i h1 h2 => hav i (by omega) (by omega))
      (by rw [WavFile.storeSample_length]; omega)
      (by rw [WavFile.storeSample_length]; exact hU)
    obtain ⟨ih1, ih2, ih3, ih4⟩ := ih'
    refine ⟨ih1, by rw [ih2, WavFile.storeSample_length], ?_, ?_⟩
    · intro i j h1 h2 hj
      by_cases hi : i = i₀
      · subst hi
        rw [ih4 _ (Or.inl (by omega)), WavFile.storeSample_getD _ _ _ _ _ _ hw,
          if_pos ⟨by omega, by omega, by omega⟩]
        rw [show i * f.GetBytesPerSample + j - i * f.GetBytesPerSample = j by omega]
        exact FStream.read_getD s _ _ _ j hs hpos hj
      · exact ih3 i j (by omega) (by omega) hj
    · intro k hk
      rw [ih4 k (by omega), WavFile.storeSample_getD _ _ _ _ _ _ hw, if_neg (by omega)]

/-- On a stream that has not failed the writing loop never stops early: it keeps
the stream good, never shrinks the file, leaves every byte outside the written
slots alone, makes the file cover every written slot, and a slot that no later
iteration overwrites holds its sample. -/
theorem WavFile.SetDataOnChannel.loop_writes (f : WavFile) (c : Int) (bytes : List Nat) :
    ∀ (remaining i₀ : Nat) (s : FStream), s.failed = false →
    (WavFile.SetDataOnChannel.loop f c bytes remaining i₀ s).failed = false ∧
    s.contents.length ≤ (WavFile.SetDataOnChannel.loop f c bytes remaining i₀ s).contents.length ∧
    (∀ k, (∀ i, i₀ ≤ i → i < i₀ + remaining →
        k < f.samplePos c i ∨ f.samplePos c i + f.GetBytesPerSample ≤ k) →
      (WavFile.SetDataOnChannel.loop f c bytes remaining i₀ s).contents.getD k 0 =
        s.contents.getD k 0) ∧
    (f.GetBytesPerSample ≠ 0 → ∀ i, i₀ ≤ i → i < i₀ + remaining →
      f.samplePos c i + f.GetBytesPerSample ≤
        (WavFile.SetDataOnChannel.loop f c bytes remaining i₀ s).contents.length) ∧
    (∀ i j, i₀ ≤ i → i < i₀ + remaining → j < f.GetBytesPerSample →
      (∀ i', i < i' → i' < i₀ + remaining →
        f.samplePos c i + j < f.samplePos c i' ∨
          f.samplePos c i' + f.GetBytesPerSample ≤ f.samplePos c i + j) →
      (WavFile.SetDataOnChannel.loop f c bytes remaining i₀ s).contents.getD
        (f.samplePos c i + j) 0 = (WavFile.loadSample f.GetBytesPerSample i bytes).getD j 0) ∧
    (∀ L, s.contents.length ≤ L →
      (∀ i, i₀ ≤ i → i < i₀ + remaining → f.samplePos c i + f.GetBytesPerSample ≤ L) →
      (WavFile.SetDataOnChannel.loop f c bytes remaining i₀ s).contents.length ≤ L) := by
  intro remaining
  induction remaining with
  | zero =>
    intro i₀ s hs
    refine ⟨hs, Nat.le_refl _, fun _ _ => rfl, ?_, ?_, fun L hL _ => hL⟩
    · intro _ i h1 h2; omega
    · intro i j h1 h2; omega
  | succ r ih =>
    intro i₀ s hs
    have hstep : WavFile.SetDataOnChannel.loop f c bytes (r + 1) i₀ s =
        WavFile.SetDataOnChannel.loop f c bytes r (i₀ + 1)
          (s.write (f.samplePos c i₀) (WavFile.loadSample f.GetBytesPerSample i₀ bytes)) := by
      rw [WavFile.SetDataOnChannel.loop]
      simp only [hs, Bool.false_eq_true, if_false]
    rw [hstep]
    have hs' : (s.write (f.samplePos c i₀)
        (WavFile.loadSample f.GetBytesPerSample i₀ bytes)).failed = false := by
      rw [FStream.write_failed]; exact hs
    obtain ⟨ih1, ih2, ih3, ih4, ih5, ih6⟩ := ih (i₀ + 1) _ hs'
    have hlen : f.GetBytesPerSample ≠ 0 →
        (s.write (f.samplePos c i₀) (WavFile.loadSample f.GetBytesPerSample i₀ bytes)).contents.length =
          max s.contents.length (f.samplePos c i₀ + f.GetBytesPerSample) := by
      intro hb
      rw [FStream.write_length _ _ _ hs, WavFile.loadSample_length]
      intro h0
      have := WavFile.loadSample_length f.GetBytesPerSample i₀ bytes
      rw [h0] at this
      exact hb this.symm
    have hmono : s.contents.length ≤
        (s.write (f.samplePos c i₀) (WavFile.loadSample f.GetBytesPerSample i₀ bytes)).contents.length := by
      by_cases hb : f.GetBytesPerSample = 0
      · have h0 : WavFile.loadSample f.GetBytesPerSample i₀ bytes = [] := by
          apply List.eq_nil_of_length_eq_zero
          rw [WavFile.loadSample_length]; exact hb
        rw [h0]
        simp [FStream.write, hs]
      · rw [hlen hb]; omega
    refine ⟨ih1, Nat.le_trans hmono ih2, ?_, ?_, ?_, ?_⟩
    · intro k hk
      rw [ih3 k (fun i h1 h2 => hk i (by omega) (by omega)), FStream.write_getD _ _ _ _ hs,
        WavFile.loadSample_length]
      have := hk i₀ (Nat.le_refl _) (by omega)
      rw [if_neg (by omega)]
    · intro hb i h1 h2
      by_cases hi : i = i₀
      · subst hi
        have := hlen hb
        omega
      · exact ih4 hb i (by omega) (by omega)
    · intro i j h1 h2 hj hfree
      by_cases hi : i = i₀
      · subst hi
        rw [ih3 _ (fun i' h1' h2' => hfree i' (by omega) (by omega)),
          FStream.write_getD _ _ _ _ hs, WavFile.loadSample_length,
          if_pos ⟨by omega, by omega⟩]
        congr 1
        omega
      · exact ih5 i j (by omega) (by omega) hj (fun i' h1' h2' => hfree i' h1' (by omega))
    · intro L hL hslots
      apply ih6 L
      · by_cases hb : f.GetBytesPerSample = 0
        · have h0 : WavFile.loadSample f.GetBytesPerSample i₀ bytes = [] := by
            apply List.eq_nil_of_length_eq_zero
            rw [WavFile.loadSample_length]; exact hb
          rw [h0]
          simpa [FStream.write, hs] using hL
        · rw [hlen hb]
          have := hslots i₀ (Nat.le_refl _) (by omega)
          omega
      · intro i h1 h2
        exact hslots i (by omega) (by omega)

/-! ## Whole calls -/

theorem toU32_natCast (c : Nat) : toU32 (c : Int) = c % U32 := by
  simp only [toU32, U32]
  omega

/-- A channel number below 32768 is not changed by the conversion to `short`. -/
theorem toShort_natCast (c : Nat) (h : c < 32768) : toShort (c : Int) = c := by
  simp only [toShort]
  omega

theorem toU32_toShort_natCast (c : Nat) (h : c < 32768) : toU32 (toShort (c : Int)) = c := by
  rw [toShort_natCast c h, toU32_natCast]
  exact Nat.mod_eq_of_lt (by simp only [U32]; omega)

theorem frame_step (b ch i n : Nat) (h : i < n) : b * i * ch + b * ch ≤ b * n * ch := by
  have := Nat.mul_le_mul_left b (Nat.mul_le_mul_right ch (Nat.succ_le_of_lt h))
  calc b * i * ch + b * ch = b * ((i + 1) * ch) := by ring
    _ ≤ b * (n * ch) := this
    _ = b * n * ch := by ring

theorem slot_bound (bps c ch i n : Nat) (hi : i < n) (hc : c < ch) :
    bps * c + bps * i * ch + bps ≤ bps * n * ch := by
  have h1 : i * ch + c + 1 ≤ n * ch := by
    have := Nat.mul_le_mul_right ch (Nat.succ_le_of_lt hi)
    rw [Nat.succ_mul] at this
    omega
  have h2 := Nat.mul_le_mul_left bps h1
  calc bps * c + bps * i * ch + bps = bps * (i * ch + c + 1) := by ring
    _ ≤ bps * (n * ch) := h2
    _ = bps * n * ch := by ring

/-- The slot of sample `i` of channel `c`, a channel number that fits a `short`, when
the unsigned arithmetic does not wrap. -/
theorem WavFile.samplePos_eq (f : WavFile) (c i n : Nat) (hi : i < n)
    (hc : c < f.header.channels) (hshort : c < 32768)
    (hw : wavHeaderLength + f.GetBytesPerSample * n * f.header.channels ≤ U32) :
    f.samplePos (c : Int) i =
      wavHeaderLength + f.GetBytesPerSample * c + f.GetBytesPerSample * i * f.header.channels := by
  have hb := slot_bound f.GetBytesPerSample c f.header.channels i n hi hc
  rw [WavFile.samplePos, toU32_toShort_natCast c hshort]
  apply Nat.mod_eq_of_lt
  by_cases h0 : f.GetBytesPerSample = 0
  · rw [h0]
    simp [U32, wavHeaderLength]
  · have := Nat.pos_of_ne_zero h0
    simp only [U32, wavHeaderLength] at hw ⊢
    omega

theorem WavFile.GetDataFromChannel.loop_keeps_length (junk : Nat → Nat → Nat) (f : WavFile) (c : Int) :
    ∀ (remaining i₀ : Nat) (s : FStream) (bytes : List Nat),
    (WavFile.GetDataFromChannel.loop junk f c remaining i₀ s bytes).2.length = bytes.length := by
  intro remaining
  induction remaining with
  | zero => intro _ _ _; rfl
  | succ r ih =>
    intro i₀ s bytes
    rw [WavFile.GetDataFromChannel.loop]
    split
    · rfl
    · simp only [ih, WavFile.storeSample_length]

theorem WavFile.GetDataFromChannel_length (junk : Nat → Nat → Nat) (f : WavFile) (c : Int)
    (n : Nat) :
    (f.GetDataFromChannel junk c n).2.length = (n * f.GetBytesPerSample) % U32 := by
  simp only [WavFile.GetDataFromChannel, WavFile.GetDataFromChannel.loop_keeps_length,
    List.length_replicate]

/-- Reading `n` samples that all lie inside the file, from a stream that has not
failed: the store is unchanged and the vector holds the samples in order. -/
theorem WavFile.GetDataFromChannel_spec (junk : Nat → Nat → Nat) (f : WavFile) (c : Int)
    (n : Nat) (hs : f.dataStream.failed = false)
    (hsize : n * f.GetBytesPerSample < U32)
    (hav : ∀ i, i < n → f.samplePos c i + f.GetBytesPerSample ≤ f.dataStream.contents.length) :
    (f.GetDataFromChannel junk c n).1 = f ∧
    (f.GetDataFromChannel junk c n).2.length = n * f.GetBytesPerSample ∧
    ∀ i j, i < n → j < f.GetBytesPerSample →
      (f.GetDataFromChannel junk c n).2.getD (i * f.GetBytesPerSample + j) 0 =
        f.dataStream.contents.getD (f.samplePos c i + j) 0 := by
  have hmod : (n * f.GetBytesPerSample) % U32 = n * f.GetBytesPerSample :=
    Nat.mod_eq_of_lt hsize
  obtain ⟨h1, h2, h3, _⟩ := WavFile.GetDataFromChannel.loop_reads junk f c n 0 f.dataStream
    (List.replicate (n * f.GetBytesPerSample) 0) hs
    (fun i _ h => hav i (by omega))
    (by rw [List.length_replicate, Nat.zero_add])
    (by rw [List.length_replicate]; exact Nat.le_of_lt hsize)
  refine ⟨?_, ?_, ?_⟩
  · simp only [WavFile.GetDataFromChannel, hmod, h1]
  · simp only [WavFile.GetDataFromChannel, hmod, h2, List.length_replicate]
  · intro i j hi hj
    simp only [WavFile.GetDataFromChannel, hmod]
    exact h3 i j (Nat.zero_le _) (by omega) hj

/-! ## Reading past the end of the file -/

theorem WavFile.GetDataFromChannel.loop_on_failed (junk : Nat → Nat → Nat) (f : WavFile)
    (c : Int) (remaining i₀ : Nat) (s : FStream) (bytes : List Nat) (hs : s.failed = true) :
    (WavFile.GetDataFromChannel.loop junk f c remaining i₀ s bytes).2 = bytes := by
  cases remaining with
  | zero => rfl
  | succ r => simp only [WavFile.GetDataFromChannel.loop, hs, if_true]

/-- A read that finds fewer bytes than asked for raises the flag, and the buffer holds
the bytes found followed by what it held before. -/
theorem FStream.read_short (s : FStream) (pos n : Nat) (buffer : List Nat)
    (hs : s.failed = false) (hn : 0 < n) (h : s.contents.length < pos + n) :
    (s.read pos n buffer).1.failed = true ∧
    ∀ j, (s.read pos n buffer).2.getD j 0 =
      if pos + j < s.contents.length then s.contents.getD (pos + j) 0 else buffer.getD j 0 := by
  have hl : ((s.contents.drop pos).take n).length = s.contents.length - pos := by
    simp only [List.length_take, List.length_drop]; omega
  unfold FStream.read
  simp only [hs, Bool.false_eq_true, if_false, hl]
  refine ⟨by simp only [decide_eq_true_eq]; omega, ?_⟩
  intro j
  rw [getD_append, hl, getD_take, getD_drop, getD_drop]
  by_cases hj : pos + j < s.contents.length
  · rw [if_pos (by omega), if_pos (by omega), if_pos hj]
  · rw [if_neg (by omega), if_neg hj]
    congr 1
    omega

/-- While the samples asked for lie inside the file the loop does not stop, so the
iterations after them start from the vector the first ones produced. -/
theorem WavFile.GetDataFromChannel.loop_reads_then (junk : Nat → Nat → Nat) (f : WavFile)
    (c : Int) (later : Nat) : ∀ (first i₀ : Nat) (s : FStream) (bytes : List Nat),
    s.failed = false →
    (∀ i, i₀ ≤ i → i < i₀ + first →
      f.samplePos c i + f.GetBytesPerSample ≤ s.contents.length) →
    WavFile.GetDataFromChannel.loop junk f c (first + later) i₀ s bytes =
      WavFile.GetDataFromChannel.loop junk f c later (i₀ + first) s
        (WavFile.GetDataFromChannel.loop junk f c first i₀ s bytes).2 := by
  intro first
  induction first with
  | zero =>
    intro i₀ s bytes _ _
    simp only [Nat.zero_add, Nat.add_zero, WavFile.GetDataFromChannel.loop]
  | succ r ih =>
    intro i₀ s bytes hs hav
    have hpos := hav i₀ (Nat.le_refl _) (by omega)
    have hread := FStream.read_of_available s (f.samplePos c i₀) f.GetBytesPerSample
      (newChars (junk i₀) f.GetBytesPerSample) hs hpos
    have e : r + 1 + later = (r + later) + 1 := by omega
    rw [e, WavFile.GetDataFromChannel.loop, WavFile.GetDataFromChannel.loop]
    simp only [hs, Bool.false_eq_true, if_false, hread]
    rw [ih (i₀ + 1) s _ hs (fun i h1 h2 => hav i (by omega) (by omega))]
    rw [show i₀ + 1 + r = i₀ + (r + 1) by omega]

/-- Reading `n` samples from a stream that has not failed when the file holds only
the first `k < n` of them in full.  The vector still has `n` samples: the first
`k` from the file, then the bytes that were left of sample `k` followed by the
content of the read buffer, then zeros. -/
theorem WavFile.GetDataFromChannel_short (junk : Nat → Nat → Nat) (f : WavFile) (c : Int)
    (n k : Nat) (hs : f.dataStream.failed = false) (hbps : 0 < f.GetBytesPerSample)
    (hsize : n * f.GetBytesPerSample < U32) (hk : k < n)
    (hav : ∀ i, i < k → f.samplePos c i + f.GetBytesPerSample ≤ f.dataStream.contents.length)
    (hshort : f.dataStream.contents.length < f.samplePos c k + f.GetBytesPerSample) :
    (f.GetDataFromChannel junk c n).2.length = n * f.GetBytesPerSample ∧
    (∀ i j, i < k → j < f.GetBytesPerSample →
      (f.GetDataFromChannel junk c n).2.getD (i * f.GetBytesPerSample + j) 0 =
        f.dataStream.contents.getD (f.samplePos c i + j) 0) ∧
    (∀ j, j < f.GetBytesPerSample →
      (f.GetDataFromChannel junk c n).2.getD (k * f.GetBytesPerSample + j) 0 =
        if f.samplePos c k + j < f.dataStream.contents.length then
          f.dataStream.contents.getD (f.samplePos c k + j) 0
        else junk k j) ∧
    (∀ t, (k + 1) * f.GetBytesPerSample ≤ t →
      (f.GetDataFromChannel junk c n).2.getD t 0 = 0) := by
  have hmod : (n * f.GetBytesPerSample) % U32 = n * f.GetBytesPerSample :=
    Nat.mod_eq_of_lt hsize
  have hkn : (k + 1) * f.GetBytesPerSample ≤ n * f.GetBytesPerSample :=
    Nat.mul_le_mul_right _ hk
  have hk1 : (k + 1) * f.GetBytesPerSample = k * f.GetBytesPerSample + f.GetBytesPerSample := by
    ring
  have hsplit : n = k + (1 + (n - k - 1)) := by omega
  obtain ⟨_, g2, g3, g4⟩ := WavFile.GetDataFromChannel.loop_reads junk f c k 0 f.dataStream
    (List.replicate (n * f.GetBytesPerSample) 0) hs
    (fun i _ h => hav i (by omega))
    (by rw [List.length_replicate, Nat.zero_add]; omega)
    (by rw [List.length_replicate]; exact Nat.le_of_lt hsize)
  obtain ⟨r1, r2⟩ := FStream.read_short f.dataStream (f.samplePos c k) f.GetBytesPerSample
    (newChars (junk k) f.GetBytesPerSample) hs hbps hshort
  have hval : (f.GetDataFromChannel junk c n).2 =
      WavFile.storeSample f.GetBytesPerSample k
        (f.dataStream.read (f.samplePos c k) f.GetBytesPerSample
          (newChars (junk k) f.GetBytesPerSample)).2 f.GetBytesPerSample
        (WavFile.GetDataFromChannel.loop junk f c k 0 f.dataStream
          (List.replicate (n * f.GetBytesPerSample) 0)).2 := by
    have haux : ∀ (m : Nat) (bytes : List Nat),
        (WavFile.GetDataFromChannel.loop junk f c (k + (1 + m)) 0 f.dataStream bytes).2 =
          WavFile.storeSample f.GetBytesPerSample k
            (f.dataStream.read (f.samplePos c k) f.GetBytesPerSample
              (newChars (junk k) f.GetBytesPerSample)).2 f.GetBytesPerSample
            (WavFile.GetDataFromChannel.loop junk f c k 0 f.dataStream bytes).2 := by
      intro m bytes
      rw [WavFile.GetDataFromChannel.loop_reads_then junk f c _ k 0 f.dataStream _ hs
        (fun i _ h => hav i (by omega)), Nat.zero_add, Nat.add_comm 1,
        WavFile.GetDataFromChannel.loop]
      simp only [hs, Bool.false_eq_true, if_false]
      rw [WavFile.GetDataFromChannel.loop_on_failed _ _ _ _ _ _ _ r1]
    simp only [WavFile.GetDataFromChannel, hmod]
    rw [← haux (n - k - 1), ← hsplit]
  have hw : k * f.GetBytesPerSample + f.GetBytesPerSample ≤ U32 := by omega
  rw [List.length_replicate] at g2
  refine ⟨?_, ?_, ?_, ?_⟩
  · rw [hval, WavFile.storeSample_length, g2]
  · intro i j hi hj
    have hij : (i + 1) * f.GetBytesPerSample ≤ k * f.GetBytesPerSample :=
      Nat.mul_le_mul_right _ hi
    rw [Nat.succ_mul] at hij
    rw [hval, WavFile.storeSample_getD _ _ _ _ _ _ hw, if_neg (by omega)]
    exact g3 i j (Nat.zero_le _) (by omega) hj
  · intro j hj
    rw [hval, WavFile.storeSample_getD _ _ _ _ _ _ hw, if_pos ⟨by omega, by omega, by
      rw [g2]; omega⟩]
    rw [show k * f.GetBytesPerSample + j - k * f.GetBytesPerSample = j by omega, r2 j]
    have hjunk : (newChars (junk k) f.GetBytesPerSample).getD j 0 = junk k j := by
      simp only [newChars, List.getD_eq_getElem?_getD, List.getElem?_map,
        List.getElem?_range hj, Option.map_some', Option.getD_some]
    rw [hjunk]
  · intro t ht
    rw [hval, WavFile.storeSample_getD _ _ _ _ _ _ hw, if_neg (by omega),
      g4 t (Or.inr (by rw [Nat.zero_add]; omega)), getD_replicate_zero]

theorem checkField_eq (a : Nat) (name : String) : CheckField a a name = .ok true := by
  simp [CheckField]

theorem checkField_ne (a b : Nat) (name : String) (h : a ≠ b) :
    CheckField a b name = .error (.invalidArgument
      ("WAVE PCM " ++ name ++ " not validated: expected \x7b" ++ toString b ++
        "\x7d, was \x7b" ++ toString a ++ "\x7d!")) := by
  simp [CheckField, h]

theorem validate_of_supported (file : WavFile) (h : file.header.Supported) :
    Validate file = .ok true := by
  obtain ⟨h1, h2, h3, h4, h5, h6⟩ := h
  simp [Validate, checks, CheckField, h1, h2, h3, h4, h5, h6]

theorem validate_of_not_supported (file : WavFile) (h : ¬ file.header.Supported) :
    ∃ what, Validate file = .error (.invalidArgument what) := by
  unfold Validate checks
  by_cases h1 : file.header.riff = 1179011410
  · by_cases h2 : file.header.riffType = 1163280727
    · by_cases h3 : file.header.wavType = 1
      · by_cases h4 : file.header.channels = 1
        · by_cases h5 : file.header.sampleRate = 8000
          · by_cases h6 : file.header.bitsPerSample = 16
            · exact absurd ⟨h1, h2, h3, h4, h5, h6⟩ h
            · simp [CheckField, h1, h2, h3, h4, h5, h6]
          · simp [CheckField, h1, h2, h3, h4, h5]
        · simp [CheckField, h1, h2, h3, h4]
      · simp [CheckField, h1, h2, h3]
    · simp [CheckField, h1, h2]
  · simp [CheckField, h1]

theorem validate_ok_iff (file : WavFile) :
    Validate file = .ok true ↔ file.header.Supported := by
  constructor
  · intro h
    by_contra hn
    obtain ⟨what, hw⟩ := validate_of_not_supported file hn
    rw [hw] at h
    cases h
  · exact validate_of_supported file

/-- C5: `Validate` returns `true` exactly when the six compared fields (riff,
riffType, wavType, channels, sampleRate, bitsPerSample) hold the supported
values, throws otherwise, never returns `false`, and its outcome does not change
when the seven other header fields are replaced by arbitrary values. -/
theorem C5_validate_supported_profile (file : WavFile)
    (offRiffSize fmt fmtSize byteRate blockAlign dataBlock dataBlockSize : Nat) :
    (Validate file = .ok true ↔
      (file.header.riff = 1179011410 ∧ file.header.riffType = 1163280727 ∧
        file.header.wavType = 1 ∧ file.header.channels = 1 ∧
        file.header.sampleRate = 8000 ∧ file.header.bitsPerSample = 16)) ∧
    (Validate file ≠ .ok true → ∃ what, Validate file = .error (.invalidArgument what)) ∧
    Validate file ≠ .ok false ∧
    Validate { file with header := { file.header with
      offRiffSize := offRiffSize, fmt := fmt, fmtSize := fmtSize, byteRate := byteRate,
      blockAlign := blockAlign, dataBlock := dataBlock, dataBlockSize := dataBlockSize } } =
      Validate file := by
  refine ⟨validate_ok_iff file, ?_, ?_, ?_⟩
  · intro h
    exact validate_of_not_supported file (fun hs => h (validate_of_supported file hs))
  · by_cases hs : file.header.Supported
    · rw [validate_of_supported file hs]
      simp
    · obtain ⟨what, hw⟩ := validate_of_not_supported file hs
      rw [hw]
      simp
  · simp only [Validate, checks, GetFilePath]

theorem C5_validate_supported_profile_witness :
    Validate (WavFile.new "in.wav" (some (monoFile 208 (List.replicate 200 0)))) = .ok true :=
  (C5_validate_supported_profile
    (WavFile.new "in.wav" (some (monoFile 208 (List.replicate 200 0)))) 0 0 0 0 0 0 0).1.mpr
    (by decide)

/-- C6: when only the sample rate differs from the supported profile, `Validate`
throws, and the text it throws names the field "sample rate", the expected value
8000 and the actual value `v`. -/
theorem C6_sample_rate_diagnostic (file : WavFile) (v : Nat)
    (hriff : file.header.riff = 1179011410) (hriffType : file.header.riffType = 1163280727)
    (hwavType : file.header.wavType = 1) (hchannels : file.header.channels = 1)
    (_hbits : file.header.bitsPerSample = 16)
    (hrate : file.header.sampleRate = v) (hv : v ≠ 8000) :
    Validate file = .error (.invalidArgument
      ("In file " ++ file.filePath ++ ":\n" ++
        ("WAVE PCM " ++ "sample rate" ++ " not validated: expected \x7b" ++ "8000" ++
          "\x7d, was \x7b" ++ toString v ++ "\x7d!") ++ "\n")) := by
  have h8000 : toString (8000 : Nat) = "8000" := by decide
  simp only [Validate, checks, hriff, hriffType, hwavType, hchannels, hrate, checkField_eq,
    checkField_ne v 8000 "sample rate" hv, GetFilePath, h8000]

theorem C6_sample_rate_diagnostic_witness :
    Validate (WavFile.new "in.wav" (some ({ sampleRate := 44100 } : WavHeader).toBytes)) =
      .error (.invalidArgument
        "In file in.wav:\nWAVE PCM sample rate not validated: expected \x7b8000\x7d, was \x7b44100\x7d!\n") :=
  (C6_sample_rate_diagnostic
    (WavFile.new "in.wav" (some ({ sampleRate := 44100 } : WavHeader).toBytes)) 44100
    (by decide) (by decide) (by decide) (by decide) (by decide) (by decide) (by decide)).trans
    (by decide)

/-- C9, as stated, fails: with `dataBlockSize = 0 < 8` the unsigned subtraction
wraps and the code returns 2147483644, while `(0 - 8) / 2 = -4`. -/
theorem C9_counterexample :
    emptyPayloadStore.header.channels = 1 ∧ emptyPayloadStore.header.bitsPerSample = 16 ∧
    emptyPayloadStore.header.dataBlockSize = 0 ∧
    emptyPayloadStore.GetChunksPerChannel = .ok 2147483644 ∧
    framesPerChannelSpec emptyPayloadStore.header = -4 := by
  decide

/-- C9 (amended): for a header whose fields are in range and whose `dataBlockSize`
is at least 8, `GetChunksPerChannel` is `(dataBlockSize - 8) / 2` when mono 16-bit,
and `(dataBlockSize - 8) / (channels * (bitsPerSample / 8))` whenever that divisor
is not zero, which is the value the specification's formula denotes; below 8 the
subtraction wraps modulo 2^32. -/
theorem C9_frames_per_channel (f : WavFile) (hr : f.header.InRange) :
    (8 ≤ f.header.dataBlockSize → f.header.channels = 1 → f.header.bitsPerSample = 16 →
      f.GetChunksPerChannel = .ok ((f.header.dataBlockSize - 8) / 2)) ∧
    (8 ≤ f.header.dataBlockSize → f.header.channels * (f.header.bitsPerSample / 8) ≠ 0 →
      f.GetChunksPerChannel =
        .ok ((f.header.dataBlockSize - 8) / (f.header.channels * (f.header.bitsPerSample / 8))) ∧
      (((f.header.dataBlockSize - 8) / (f.header.channels * (f.header.bitsPerSample / 8)) : Nat)
        : Int) = framesPerChannelSpec f.header) ∧
    (f.header.dataBlockSize < 8 → f.header.channels * (f.header.bitsPerSample / 8) ≠ 0 →
      f.GetChunksPerChannel =
        .ok ((f.header.dataBlockSize + 4294967296 - 8) /
          (f.header.channels * (f.header.bitsPerSample / 8)))) := by
  obtain ⟨_, _, _, _, _, _, hch, _, _, _, hbits, _, hd⟩ := hr
  have hprod : f.header.channels * (f.header.bitsPerSample / 8) < 4294967296 := by
    have h1 : f.header.bitsPerSample / 8 ≤ 8191 := by omega
    have h2 : f.header.channels ≤ 65535 := by omega
    calc f.header.channels * (f.header.bitsPerSample / 8) ≤ 65535 * 8191 :=
          Nat.mul_le_mul h2 h1
      _ < 4294967296 := by norm_num
  have hmod : (f.header.channels * (f.header.bitsPerSample / 8)) % 4294967296 =
      f.header.channels * (f.header.bitsPerSample / 8) := Nat.mod_eq_of_lt hprod
  have hunf : f.GetChunksPerChannel =
      if (f.header.channels * (f.header.bitsPerSample / 8)) % 4294967296 = 0 then
        .error .divisionByZero
      else .ok (((f.header.dataBlockSize + 4294967296 - 8) % 4294967296) /
        ((f.header.channels * (f.header.bitsPerSample / 8)) % 4294967296)) := rfl
  refine ⟨?_, ?_, ?_⟩
  · intro h8 h1 h16
    have hsub : (f.header.dataBlockSize + 4294967296 - 8) % 4294967296 =
        f.header.dataBlockSize - 8 := by omega
    have h2 : f.header.channels * (f.header.bitsPerSample / 8) = 2 := by rw [h1, h16]
    rw [hunf, hsub, h2]
    rfl
  · intro h8 hne
    have hsub : (f.header.dataBlockSize + 4294967296 - 8) % 4294967296 =
        f.header.dataBlockSize - 8 := by omega
    constructor
    · rw [hunf, hmod, if_neg hne, hsub]
    · simp only [framesPerChannelSpec]
      push_cast [Nat.cast_sub h8]
      rfl
  · intro h8 hne
    have hsub : (f.header.dataBlockSize + 4294967296 - 8) % 4294967296 =
        f.header.dataBlockSize + 4294967296 - 8 := by omega
    rw [hunf, hmod, if_neg hne, hsub]

theorem C9_frames_per_channel_witness :
    (WavFile.new "in.wav" (some (monoFile 208 (List.replicate 200 0)))).GetChunksPerChannel =
      .ok 100 :=
  (C9_frames_per_channel (WavFile.new "in.wav" (some (monoFile 208 (List.replicate 200 0))))
    (by decide)).1 (by decide) (by decide) (by decide)

theorem WavHeader.toBytes_length (h : WavHeader) : h.toBytes.length = 44 := by
  simp [WavHeader.toBytes, le32, le16]

theorem WavHeader.ofBytes_toBytes_append (h : WavHeader) (rest : List Nat) (hr : h.InRange) :
    WavHeader.ofBytes (h.toBytes ++ rest) = h := by
  obtain ⟨h1, h2, h3, h4, h5, h6, h7, h8, h9, h10, h11, h12, h13⟩ := hr
  cases h
  simp only [WavHeader.ofBytes, WavHeader.toBytes, le32, le16, u32At, u16At, List.cons_append,
    List.nil_append, List.getD_cons_zero, List.getD_cons_succ, WavHeader.mk.injEq] at *
  refine ⟨?_, ?_, ?_, ?_, ?_, ?_, ?_, ?_, ?_, ?_, ?_, ?_, ?_⟩ <;> omega

theorem WavFile.SaveHeader_contents (f : WavFile) (hs : f.dataStream.failed = false) :
    f.SaveHeader.dataStream.contents = f.header.toBytes ++ f.dataStream.contents.drop 44 := by
  have hne : f.header.toBytes.isEmpty = false := by
    simp [WavHeader.toBytes, le32, le16]
  simp only [WavFile.SaveHeader, FStream.write, hs, hne, Bool.false_eq_true, if_false,
    Nat.zero_sub, List.replicate_zero, List.append_nil, List.take_zero, List.nil_append,
    Nat.zero_add, WavHeader.toBytes_length]

theorem WavFile.new_of_header_bytes (path : String) (h : WavHeader) (rest : List Nat)
    (hr : h.InRange) :
    WavFile.new path (some (h.toBytes ++ rest)) =
      { filePath := path, header := h, dataStream := ⟨h.toBytes ++ rest, false⟩ } := by
  have hread := FStream.read_of_available ⟨h.toBytes ++ rest, false⟩ 0 wavHeaderLength
    ({} : WavHeader).toBytes rfl
    (by simp only [List.length_append, WavHeader.toBytes_length, wavHeaderLength]; omega)
  have htake : ((h.toBytes ++ rest).drop 0).take wavHeaderLength = h.toBytes := by
    rw [List.drop_zero, wavHeaderLength, List.take_append_of_le_length (by
      rw [WavHeader.toBytes_length])]
    exact List.take_of_length_le (by rw [WavHeader.toBytes_length])
  have hdrop : ({} : WavHeader).toBytes.drop wavHeaderLength = [] := by decide
  simp only [WavFile.new, hread, htake, hdrop, List.append_nil]
  have := WavHeader.ofBytes_toBytes_append h [] hr
  rw [List.append_nil] at this
  rw [this]

/-- C10, as stated, fails on a store whose stream has failed: opened on an existing
empty file, the stream is in the failed state, `SaveHeader` writes nothing, and
reopening the path gives the default header, not the one that was saved. -/
theorem C10_counterexample :
    staleStore.header.InRange ∧
    staleStore.SaveHeader.dataStream.contents = [] ∧
    (WavFile.new "out.wav" (some staleStore.SaveHeader.dataStream.contents)).header ≠
      staleStore.header := by
  decide

/-- C10 (amended): for every store whose stream has not failed and whose header
fields are in the range of their types, `SaveHeader` puts exactly the 44 bytes of
the header at offsets [0,44) and leaves the rest of the file alone, and a store
opened on the resulting file has a header equal to the saved one. -/
theorem C10_save_header_roundtrip (f : WavFile) (path : String) (hr : f.header.InRange)
    (hs : f.dataStream.failed = false) :
    f.header.toBytes.length = 44 ∧
    f.SaveHeader.dataStream.contents = f.header.toBytes ++ f.dataStream.contents.drop 44 ∧
    (WavFile.new path (some f.SaveHeader.dataStream.contents)).header = f.header := by
  refine ⟨WavHeader.toBytes_length _, WavFile.SaveHeader_contents f hs, ?_⟩
  rw [WavFile.SaveHeader_contents f hs, WavFile.new_of_header_bytes path f.header _ hr]

theorem C10_save_header_roundtrip_witness :
    (WavFile.new "out.wav" (some freshStereoStore.SaveHeader.dataStream.contents)).header =
      { channels := 2, dataBlockSize := 416 } :=
  (C10_save_header_roundtrip freshStereoStore "out.wav" (by decide) (by decide)).2.2

/-! ## The header that `Combine` writes -/

theorem WavFile.SetDataOnChannel_ok (f : WavFile) (c : Int) (bytes : List Nat)
    (hb : f.GetBytesPerSample ≠ 0) :
    f.SetDataOnChannel c bytes = .ok { f with dataStream :=
      (WavFile.SetDataOnChannel.loop f c bytes
        ((bytes.length / f.GetBytesPerSample) % U32) 0 f.dataStream) } := by
  simp only [WavFile.SetDataOnChannel, hb, if_false]

theorem WavFile.SetDataOnChannel_error (f : WavFile) (c : Int) (bytes : List Nat)
    (hb : f.GetBytesPerSample = 0) :
    f.SetDataOnChannel c bytes = .error .divisionByZero := by
  simp only [WavFile.SetDataOnChannel, hb, if_true]

theorem WavFile.GetChunksPerChannel_ok (f : WavFile)
    (h : (f.header.channels * (f.header.bitsPerSample / 8)) % 4294967296 ≠ 0) :
    f.GetChunksPerChannel = .ok (((f.header.dataBlockSize + 4294967296 - 8) % 4294967296) /
      ((f.header.channels * (f.header.bitsPerSample / 8)) % 4294967296)) := by
  simp only [GetChunksPerChannel, GetBytesPerSample, U32, h, if_false]

theorem WavFile.GetChunksPerChannel_error (f : WavFile)
    (h : (f.header.channels * (f.header.bitsPerSample / 8)) % 4294967296 = 0) :
    f.GetChunksPerChannel = .error .divisionByZero := by
  simp only [GetChunksPerChannel, GetBytesPerSample, U32, h, if_true]

/-- When no frame count divides by zero, the body of `Combine` returns, and its
`result` is the prepared store after the two channel writes. -/
theorem WavEditor.Combine.body_ok (junkFirst junkSecond : Nat → Nat → Nat)
    (P S result : WavFile) (n₁ n₂ : Nat)
    (h₁ : P.GetChunksPerChannel = .ok n₁) (h₂ : S.GetChunksPerChannel = .ok n₂)
    (hb : P.header.bitsPerSample / 8 ≠ 0) :
    ∃ R₁ R₂,
      (Combine.prepared P result).SetDataOnChannel 0 (P.GetDataFromChannel junkFirst 0 n₁).2 =
        .ok R₁ ∧
      R₁.SetDataOnChannel 1 (S.GetDataFromChannel junkSecond 0 n₂).2 = .ok R₂ ∧
      R₁.header = Combine.resultHeader P.header result.header ∧
      R₂.header = Combine.resultHeader P.header result.header ∧
      Combine.body junkFirst junkSecond P S result =
        .ok ((P.GetDataFromChannel junkFirst 0 n₁).1, (S.GetDataFromChannel junkSecond 0 n₂).1, R₂) := by
  have hb0 : (Combine.prepared P result).GetBytesPerSample ≠ 0 := by
    simpa [GetBytesPerSample, SaveHeader, Combine.prepared, Combine.resultHeader] using hb
  have e₁ := WavFile.SetDataOnChannel_ok (Combine.prepared P result) 0
    (P.GetDataFromChannel junkFirst 0 n₁).2 hb0
  refine ⟨_, _, e₁, WavFile.SetDataOnChannel_ok _ 1 _ hb0, rfl, rfl, ?_⟩
  have e₂ := WavFile.SetDataOnChannel_ok
    { Combine.prepared P result with dataStream :=
      (WavFile.SetDataOnChannel.loop (Combine.prepared P result) 0
        (P.GetDataFromChannel junkFirst 0 n₁).2
        (((P.GetDataFromChannel junkFirst 0 n₁).2.length /
          (Combine.prepared P result).GetBytesPerSample) % U32) 0
        (Combine.prepared P result).dataStream) } 1
    (S.GetDataFromChannel junkSecond 0 n₂).2 hb0
  simp only [Combine.prepared] at e₁ e₂
  simp only [Combine.body, h₁, h₂, e₁, e₂, Combine.prepared]

/-- C3: `Combine` takes as primary the input with the larger `dataBlockSize` (the
first argument on a tie).  The call returns unless one of the two frame counts
divides by zero, and the header of `result` is then its old header with
`channels = 2`, `sampleRate` and `bitsPerSample` of the primary, and
`offRiffSize`, `dataBlockSize` twice the primary's modulo 2^32; the eight other
fields are as they were. -/
theorem C3_combine_result_header (junkFirst junkSecond : Nat → Nat → Nat)
    (a b result : WavFile) :
    (Combine junkFirst junkSecond a b result).toOption.map (fun out => out.2.2.header) =
      if ((if b.header.dataBlockSize > a.header.dataBlockSize then b else a).header.channels *
            ((if b.header.dataBlockSize > a.header.dataBlockSize then b else a).header.bitsPerSample
              / 8)) % 4294967296 = 0 ∨
          ((if b.header.dataBlockSize > a.header.dataBlockSize then a else b).header.channels *
            ((if b.header.dataBlockSize > a.header.dataBlockSize then a else b).header.bitsPerSample
              / 8)) % 4294967296 = 0
      then none
      else some
        { riff := result.header.riff
          offRiffSize :=
            (2 * (if b.header.dataBlockSize > a.header.dataBlockSize then b else a).header.offRiffSize)
              % 4294967296
          riffType := result.header.riffType
          fmt := result.header.fmt
          fmtSize := result.header.fmtSize
          wavType := result.header.wavType
          channels := 2
          sampleRate :=
            (if b.header.dataBlockSize > a.header.dataBlockSize then b else a).header.sampleRate
          byteRate := result.header.byteRate
          blockAlign := result.header.blockAlign
          bitsPerSample :=
            (if b.header.dataBlockSize > a.header.dataBlockSize then b else a).header.bitsPerSample
          dataBlock := result.header.dataBlock
          dataBlockSize :=
            (2 * (if b.header.dataBlockSize > a.header.dataBlockSize then b else a).header.dataBlockSize)
              % 4294967296 } := by
  have key : ∀ (P S : WavFile),
      (Combine.body junkFirst junkSecond P S result).toOption.map (fun out => out.2.2.header) =
        if (P.header.channels * (P.header.bitsPerSample / 8)) % 4294967296 = 0 ∨
            (S.header.channels * (S.header.bitsPerSample / 8)) % 4294967296 = 0
        then none
        else some (Combine.resultHeader P.header result.header) := by
    intro P S
    by_cases hP : (P.header.channels * (P.header.bitsPerSample / 8)) % 4294967296 = 0
    · simp only [Combine.body, WavFile.GetChunksPerChannel_error P hP, hP, true_or, if_true]
      rfl
    · by_cases hS : (S.header.channels * (S.header.bitsPerSample / 8)) % 4294967296 = 0
      · simp only [Combine.body, WavFile.GetChunksPerChannel_ok P hP,
          WavFile.GetChunksPerChannel_error S hS, hS, or_true, if_true]
        rfl
      · have hbps : P.header.bitsPerSample / 8 ≠ 0 := by
          intro h0
          rw [h0] at hP
          simp at hP
        obtain ⟨R₁, R₂, _, _, _, hR₂, hbody⟩ := Combine.body_ok junkFirst junkSecond P S result
          _ _ (WavFile.GetChunksPerChannel_ok P hP) (WavFile.GetChunksPerChannel_ok S hS) hbps
        rw [hbody]
        simp only [hP, hS, or_self, if_false, Except.toOption, Option.map_some', hR₂]
  unfold Combine
  by_cases hswap : b.header.dataBlockSize > a.header.dataBlockSize
  · simp only [hswap, if_true, key]
    simp only [Combine.resultHeader, Nat.mul_comm]
  · simp only [hswap, if_false, key]
    simp only [Combine.resultHeader, Nat.mul_comm]

/-- C2, as stated, fails: two validated mono inputs of 100 frames each give a
result header with two channels and `dataBlockSize = 416`, for which
`GetChunksPerChannel` is `(416 - 8) / 4 = 102`, not 100. -/
theorem C2_counterexample :
    Validate hundredFrames = .ok true ∧
    hundredFrames.GetChunksPerChannel = .ok 100 ∧
    (Combine (fun _ _ => 0) (fun _ _ => 0) hundredFrames hundredFrames
        (WavFile.new "out.wav" none)).toOption.map
      (fun out => (out.2.2.header.channels, out.2.2.header.dataBlockSize,
        out.2.2.GetChunksPerChannel)) = some (2, 416, .ok 102) := by
  decide

theorem frames_of_validated (f : WavFile) (n : Nat) (hv : Validate f = .ok true)
    (hn : f.GetChunksPerChannel = .ok n) :
    f.header.channels = 1 ∧ f.header.bitsPerSample = 16 ∧ f.GetBytesPerSample = 2 ∧
    ((f.header.dataBlockSize + 4294967296 - 8) % 4294967296) / 2 = n := by
  obtain ⟨_, _, _, hc, _, hb⟩ := (validate_ok_iff f).mp hv
  refine ⟨hc, hb, by simp [GetBytesPerSample, hb], ?_⟩
  have h := WavFile.GetChunksPerChannel_ok f (by rw [hc, hb]; decide)
  rw [h, hc, hb] at hn
  simpa using hn

theorem frames_after_doubling (d n : Nat)
    (h : ((d + 4294967296 - 8) % 4294967296) / 2 = n) :
    (((d * 2) % 4294967296 + 4294967296 - 8) % 4294967296) / 4 = (n + 2) % 1073741824 := by
  omega

/-- C2 (amended): for validated mono 16-bit inputs with `GetChunksPerChannel = n`
each, `Combine` returns and its result header has channel count 2 and a frame
count, computed as (dataBlockSize - 8) / (channels * bytesPerSample) in unsigned
arithmetic, of `n + 2` modulo 2^30 (the eight bytes that the frame count
subtracts were doubled along with the payload). -/
theorem C2_combine_frames (junkFirst junkSecond : Nat → Nat → Nat) (a b result : WavFile)
    (n : Nat) (ha : Validate a = .ok true) (hb : Validate b = .ok true)
    (hna : a.GetChunksPerChannel = .ok n) (hnb : b.GetChunksPerChannel = .ok n) :
    ∃ out, Combine junkFirst junkSecond a b result = .ok out ∧
      out.2.2.header.channels = 2 ∧
      out.2.2.GetChunksPerChannel = .ok ((n + 2) % 1073741824) := by
  have key : ∀ (P S : WavFile), Validate P = .ok true → P.GetChunksPerChannel = .ok n →
      S.GetChunksPerChannel = .ok n →
      ∃ out, Combine.body junkFirst junkSecond P S result = .ok out ∧
        out.2.2.header.channels = 2 ∧
        out.2.2.GetChunksPerChannel = .ok ((n + 2) % 1073741824) := by
    intro P S hP hnP hnS
    obtain ⟨hc, hbits, _, hfr⟩ := frames_of_validated P n hP hnP
    obtain ⟨R₁, R₂, _, _, _, hR₂, hbody⟩ := Combine.body_ok junkFirst junkSecond P S result
      n n hnP hnS (by rw [hbits]; decide)
    refine ⟨_, hbody, ?_, ?_⟩
    · simp only [hR₂, Combine.resultHeader]
    · have hd := frames_after_doubling _ _ hfr
      have hform := WavFile.GetChunksPerChannel_ok R₂
        (by simp only [hR₂, Combine.resultHeader, hbits]; decide)
      rw [hform]
      simp only [hR₂, Combine.resultHeader, hbits, U32] at hd ⊢
      rw [← hd]
  unfold Combine
  by_cases hswap : b.header.dataBlockSize > a.header.dataBlockSize
  · simp only [hswap, if_true]
    exact key b a hb hnb hna
  · simp only [hswap, if_false]
    exact key a b ha hna hnb

theorem C2_combine_frames_witness :
    ∃ out, Combine (fun _ _ => 0) (fun _ _ => 0) hundredFrames hundredFrames
        (WavFile.new "out.wav" none) = .ok out ∧
      out.2.2.header.channels = 2 ∧
      out.2.2.GetChunksPerChannel = .ok ((100 + 2) % 1073741824) :=
  C2_combine_frames (fun _ _ => 0) (fun _ _ => 0) hundredFrames hundredFrames
    (WavFile.new "out.wav" none) 100 (by decide) (by decide) (by decide) (by decide)

theorem wideStore_length :
    wideStore.dataStream.contents.length = 44 + 2 * 32769 * 65535 := by
  simp only [wideStore, List.length_append, WavHeader.toBytes_length, List.length_replicate]

theorem wideStore_wrapped_read (junk : Nat → Nat → Nat) :
    (wideStore.GetDataFromChannel junk 32767 32769).2.length = 2 * 32769 ∧
    (wideStore.GetDataFromChannel junk 32767 32769).2.getD (2 * 32768) 0 = 0 := by
  have hb : wideStore.GetBytesPerSample = 2 := by decide
  obtain ⟨_, hlen, hget⟩ := WavFile.GetDataFromChannel_spec junk wideStore 32767 32769 rfl
    (by rw [hb]; decide)
    (by
      intro i _
      have h : wideStore.samplePos 32767 i < 4294967296 := Nat.mod_lt _ (by decide)
      rw [wideStore_length, hb]
      omega)
  have hp : wideStore.samplePos 32767 32768 = 42 := by decide
  have h := hget 32768 0 (by decide) (by decide)
  rw [hb, hp] at h
  rw [hb] at hlen
  refine ⟨by rw [hlen], ?_⟩
  rw [show 2 * 32768 = 32768 * 2 + 0 by decide, h]
  simp only [wideStore, getD_append, WavHeader.toBytes_length]
  decide

theorem wideTwoFrames_length :
    wideTwoFrames.dataStream.contents.length = 44 + 2 * 2 * 65535 := by
  simp only [wideTwoFrames, List.length_append, WavHeader.toBytes_length, List.length_replicate]

theorem wideTwoFrames_payload (k : Nat) (h1 : 44 ≤ k) (h2 : k < 44 + 2 * 2 * 65535) :
    wideTwoFrames.dataStream.contents.getD k 0 = 1 := by
  simp only [wideTwoFrames, getD_append, WavHeader.toBytes_length]
  rw [if_neg (by omega)]
  simp only [List.getD_eq_getElem?_getD, List.getElem?_replicate]
  rw [if_pos (by omega)]
  rfl

/-- C7, as stated, fails in three ways.  On a store whose stream is in the failed
state: the file holds one complete frame, bytes 1 and 2 at offsets 44 and 45, yet
reading one frame of channel 0 stops at once and returns the two zero bytes of
the fresh vector.  On a file larger than 4 GiB: the offset of frame 32768 of
channel 32767 of `wideStore` is 4294967338, which is 42 modulo 2^32, so the frame
read is taken from the header (byte 0) and not from offset 4294967338 (byte 1).
And for a channel number that does not fit the `short` parameter: channel 40000
of `wideTwoFrames` arrives as -25536, the first read is at offset 4294916268,
past the end of the file, and what comes back for frame 0 is the content of the
read buffer (9), not the file byte at offset `44 + 2 * 40000` (1). -/
theorem C7_counterexample :
    (oneFrameAfterLongRead.GetBytesPerSample = 2 ∧
      oneFrameAfterLongRead.header.channels = 1 ∧
      oneFrameAfterLongRead.dataStream.contents.length = 44 + 2 * 1 * 1 ∧
      oneFrameAfterLongRead.dataStream.contents[44 + 2 * 0 + 2 * 0 * 1]? = some 1 ∧
      oneFrameAfterLongRead.dataStream.contents[44 + 2 * 0 + 2 * 0 * 1 + 1]? = some 2 ∧
      (oneFrameAfterLongRead.GetDataFromChannel (fun _ _ => 0) 0 1).2 = [0, 0]) ∧
    (wideStore.dataStream.failed = false ∧ wideStore.GetBytesPerSample = 2 ∧
      wideStore.header.channels = 65535 ∧
      wideStore.dataStream.contents.length = 44 + 2 * 32769 * 65535 ∧
      wideStore.dataStream.contents[44 + 2 * 32767 + 2 * 32768 * 65535]? = some 1 ∧
      (wideStore.GetDataFromChannel (fun _ _ => 0) 32767 32769).2[2 * 32768]? = some 0) ∧
    (wideTwoFrames.dataStream.failed = false ∧ wideTwoFrames.GetBytesPerSample = 2 ∧
      wideTwoFrames.header.channels = 65535 ∧
      wideTwoFrames.dataStream.contents.length = 44 + 2 * 2 * 65535 ∧
      wideTwoFrames.dataStream.contents[44 + 2 * 40000 + 2 * 0 * 65535]? = some 1 ∧
      (wideTwoFrames.GetDataFromChannel (fun _ _ => 9) 40000 2).2[2 * 0]? = some 9) := by
  refine ⟨⟨by decide, rfl, by decide, rfl, rfl, by decide⟩,
    ⟨rfl, by decide, rfl, wideStore_length, ?_, ?_⟩,
    ⟨rfl, by decide, rfl, wideTwoFrames_length, ?_, ?_⟩⟩
  · rw [getElem?_eq_some_getD _ _ (by rw [wideStore_length]; decide)]
    simp only [wideStore, getD_append, WavHeader.toBytes_length]
    rw [if_neg (by decide)]
    simp only [List.getD_eq_getElem?_getD, List.getElem?_replicate]
    rw [if_pos (by decide)]
    rfl
  · obtain ⟨hl, hz⟩ := wideStore_wrapped_read (fun _ _ => 0)
    rw [getElem?_eq_some_getD _ _ (by rw [hl]; decide), hz]
  · rw [getElem?_eq_some_getD _ _ (by rw [wideTwoFrames_length]; decide),
      wideTwoFrames_payload _ (by decide) (by decide)]
  · have hb : wideTwoFrames.GetBytesPerSample = 2 := by decide
    have hp : wideTwoFrames.samplePos 40000 0 = 4294916268 := by decide
    obtain ⟨hl, _, h3, _⟩ := WavFile.GetDataFromChannel_short (fun _ _ => 9) wideTwoFrames
      40000 2 0 rfl (by rw [hb]; decide) (by rw [hb]; decide) (by decide)
      (fun i hi => absurd hi (Nat.not_lt_zero i))
      (by rw [wideTwoFrames_length, hp, hb]; decide)
    have h := h3 0 (by rw [hb]; decide)
    rw [hp, wideTwoFrames_length, if_neg (by decide)] at h
    rw [getElem?_eq_some_getD _ _ (by rw [hl, hb]; decide)]
    rw [hb] at h
    exact congrArg some h

/-- C7 (amended): on a store whose stream has not failed, with two bytes per
sample, whose file holds at least `n` complete frames that all end below offset
2^32, reading `n` frames of a channel `c < channels` whose number fits the `short`
parameter (`c ≤ 32767`) returns exactly `2 * n` bytes, and the bytes of frame `i`
are the file bytes at offset `44 + 2 * c + 2 * i * channels` and the next one. -/
theorem C7_read_channel (junk : Nat → Nat → Nat) (f : WavFile) (c n : Nat)
    (hs : f.dataStream.failed = false) (hbps : f.GetBytesPerSample = 2)
    (hc : c < f.header.channels) (hshort : c ≤ 32767)
    (hfile : 44 + 2 * n * f.header.channels ≤ f.dataStream.contents.length)
    (hw : 44 + 2 * n * f.header.channels ≤ 4294967296) :
    (f.GetDataFromChannel junk c n).2.length = 2 * n ∧
    ∀ i, i < n →
      (f.GetDataFromChannel junk c n).2[2 * i]? =
        f.dataStream.contents[44 + 2 * c + 2 * i * f.header.channels]? ∧
      (f.GetDataFromChannel junk c n).2[2 * i + 1]? =
        f.dataStream.contents[44 + 2 * c + 2 * i * f.header.channels + 1]? := by
  have hw' : wavHeaderLength + f.GetBytesPerSample * n * f.header.channels ≤ U32 := by
    rw [hbps]; exact hw
  have hpos : ∀ i, i < n → f.samplePos (c : Int) i = 44 + 2 * c + 2 * i * f.header.channels := by
    intro i hi
    rw [WavFile.samplePos_eq f c i n hi hc (by omega) hw', hbps]
    rfl
  have hslot : ∀ i, i < n → 2 * c + 2 * i * f.header.channels + 2 ≤ 2 * n * f.header.channels :=
    fun i hi => slot_bound 2 c f.header.channels i n hi hc
  have hn : 2 * n ≤ 2 * n * f.header.channels :=
    Nat.le_mul_of_pos_right _ (by omega)
  obtain ⟨_, hlen, hget⟩ := WavFile.GetDataFromChannel_spec junk f (c : Int) n hs
    (by rw [hbps]; simp only [U32]; omega)
    (by
      intro i hi
      have := hslot i hi
      rw [hpos i hi, hbps]
      omega)
  rw [hbps] at hlen hget
  refine ⟨by omega, ?_⟩
  intro i hi
  have h0 := hget i 0 hi (by omega)
  have h1 := hget i 1 hi (by omega)
  have hsl := hslot i hi
  rw [hpos i hi] at h0 h1
  rw [show i * 2 + 0 = 2 * i by omega, Nat.add_zero] at h0
  rw [show i * 2 + 1 = 2 * i + 1 by omega] at h1
  constructor
  · rw [getElem?_eq_some_getD _ _ (by omega), getElem?_eq_some_getD _ _ (by omega), h0]
  · rw [getElem?_eq_some_getD _ _ (by omega), getElem?_eq_some_getD _ _ (by omega), h1]

theorem C7_read_channel_witness :
    (stereoFrames.GetDataFromChannel (fun _ _ => 7) (1 : Nat) 3).2.length = 2 * 3 ∧
    ∀ i, i < 3 →
      (stereoFrames.GetDataFromChannel (fun _ _ => 7) (1 : Nat) 3).2[2 * i]? =
        stereoFrames.dataStream.contents[44 + 2 * 1 + 2 * i * stereoFrames.header.channels]? ∧
      (stereoFrames.GetDataFromChannel (fun _ _ => 7) (1 : Nat) 3).2[2 * i + 1]? =
        stereoFrames.dataStream.contents[44 + 2 * 1 + 2 * i * stereoFrames.header.channels + 1]? :=
  C7_read_channel (fun _ _ => 7) stereoFrames 1 3 (by decide) (by decide) (by decide)
    (by decide) (by decide) (by decide)

/-- When every sample written is a copy of the bytes that a memory `G` holds at the
sample's own slot, the file agrees with `G` on every slot after the writing loop,
also where slots overlap. -/
theorem WavFile.SetDataOnChannel.loop_agrees (f : WavFile) (c : Int) (bytes : List Nat)
    (G : Nat → Nat) : ∀ (remaining i₀ : Nat) (s : FStream), s.failed = false →
    (∀ i j, i₀ ≤ i → i < i₀ + remaining → j < f.GetBytesPerSample →
      (WavFile.loadSample f.GetBytesPerSample i bytes).getD j 0 = G (f.samplePos c i + j)) →
    ∀ a, (∃ i, i₀ ≤ i ∧ i < i₀ + remaining ∧ f.samplePos c i ≤ a ∧
        a < f.samplePos c i + f.GetBytesPerSample) →
      (WavFile.SetDataOnChannel.loop f c bytes remaining i₀ s).contents.getD a 0 = G a := by
  intro remaining
  induction remaining with
  | zero =>
    intro i₀ s _ _ a h
    obtain ⟨i, h1, h2, _⟩ := h
    omega
  | succ r ih =>
    intro i₀ s hs hG a ha
    have hstep : WavFile.SetDataOnChannel.loop f c bytes (r + 1) i₀ s =
        WavFile.SetDataOnChannel.loop f c bytes r (i₀ + 1)
          (s.write (f.samplePos c i₀) (WavFile.loadSample f.GetBytesPerSample i₀ bytes)) := by
      rw [WavFile.SetDataOnChannel.loop]
      simp only [hs, Bool.false_eq_true, if_false]
    rw [hstep]
    have hs' : (s.write (f.samplePos c i₀)
        (WavFile.loadSample f.GetBytesPerSample i₀ bytes)).failed = false := by
      rw [FStream.write_failed]; exact hs
    by_cases hlater : ∃ i, i₀ + 1 ≤ i ∧ i < i₀ + 1 + r ∧ f.samplePos c i ≤ a ∧
        a < f.samplePos c i + f.GetBytesPerSample
    · exact ih (i₀ + 1) _ hs' (fun i j h1 h2 hj => hG i j (by omega) (by omega) hj) a hlater
    · obtain ⟨i, h1, h2, h3, h4⟩ := ha
      have hi : i = i₀ := by
        by_contra hne
        exact hlater ⟨i, by omega, by omega, h3, h4⟩
      subst hi
      obtain ⟨_, _, l3, _⟩ :=
        WavFile.SetDataOnChannel.loop_writes f c bytes r (i + 1) _ hs'
      rw [l3 a (by
        intro i' h1' h2'
        by_contra hcov
        exact hlater ⟨i', h1', h2', by omega, by omega⟩)]
      rw [FStream.write_getD _ _ _ _ hs, WavFile.loadSample_length, if_pos ⟨h3, h4⟩,
        hG i (a - f.samplePos c i) (Nat.le_refl _) (by omega) (by omega)]
      congr 1
      omega

/-- On a store whose stream is in the failed state the reading loop stops at once:
the vector comes back as it was created, all zeros. -/
theorem WavFile.GetDataFromChannel_failed (junk : Nat → Nat → Nat) (f : WavFile) (c : Int)
    (n : Nat) (hs : f.dataStream.failed = true) :
    (f.GetDataFromChannel junk c n).2 =
      List.replicate ((n * f.GetBytesPerSample) % U32) 0 := by
  cases n with
  | zero => rfl
  | succ k => simp only [WavFile.GetDataFromChannel, WavFile.GetDataFromChannel.loop, hs, if_true]

/-- Writing to channel `c` of a store whose stream has not failed a vector of `n`
samples that are copies of what a memory `G` holds at their slots, then reading
`n` samples of that channel back, returns the vector. -/
theorem WavFile.write_then_read (junk : Nat → Nat → Nat) (T : WavFile) (c : Int) (n : Nat)
    (bytes : List Nat) (G : Nat → Nat) (hT : T.dataStream.failed = false)
    (hbps : 1 ≤ T.GetBytesPerSample)
    (hlen : bytes.length = n * T.GetBytesPerSample)
    (hn : n * T.GetBytesPerSample < U32)
    (hG : ∀ i j, i < n → j < T.GetBytesPerSample →
      bytes.getD (i * T.GetBytesPerSample + j) 0 = G (T.samplePos c i + j)) :
    ∃ T', T.SetDataOnChannel c bytes = .ok T' ∧ T'.header = T.header ∧
      T'.dataStream.failed = false ∧
      (T'.GetDataFromChannel junk c n).2 = bytes := by
  have hb0 : T.GetBytesPerSample ≠ 0 := by omega
  have hcount : (bytes.length / T.GetBytesPerSample) % U32 = n := by
    rw [hlen, Nat.mul_div_cancel _ (by omega)]
    apply Nat.mod_eq_of_lt
    have : n ≤ n * T.GetBytesPerSample := Nat.le_mul_of_pos_right _ (by omega)
    omega
  have hok := WavFile.SetDataOnChannel_ok T c bytes hb0
  rw [hcount] at hok
  obtain ⟨l1, _, _, l4, _, _⟩ :=
    WavFile.SetDataOnChannel.loop_writes T c bytes n 0 T.dataStream hT
  have hframe : ∀ i, i < n → i * T.GetBytesPerSample + T.GetBytesPerSample ≤ U32 := by
    intro i hi
    have h := Nat.mul_le_mul_right T.GetBytesPerSample (Nat.succ_le_of_lt hi)
    rw [Nat.succ_mul] at h
    omega
  have hagree := WavFile.SetDataOnChannel.loop_agrees T c bytes G n 0 T.dataStream hT
    (by
      intro i j _ hi hj
      rw [WavFile.loadSample_getD _ _ _ _ hj (hframe i (by omega))]
      exact hG i j (by omega) hj)
  refine ⟨_, hok, rfl, l1, ?_⟩
  generalize hT' : ({ T with dataStream :=
    (WavFile.SetDataOnChannel.loop T c bytes n 0 T.dataStream) } : WavFile) = T'
  have hbT : T'.GetBytesPerSample = T.GetBytesPerSample := by rw [← hT']; rfl
  have hpT : ∀ i, T'.samplePos c i = T.samplePos c i := by
    intro i; rw [← hT']; rfl
  have hdT : T'.dataStream = WavFile.SetDataOnChannel.loop T c bytes n 0 T.dataStream := by
    rw [← hT']
  obtain ⟨_, rlen, rget⟩ := WavFile.GetDataFromChannel_spec junk T' c n
    (by rw [hdT]; exact l1) (by rw [hbT]; exact hn)
    (by
      intro i hi
      rw [hpT, hbT, hdT]
      exact l4 hb0 i (Nat.zero_le _) (by omega))
  rw [hbT] at rlen
  simp only [hbT, hpT, hdT] at rget
  apply ext_getD
  · rw [rlen, hlen]
  · intro k hk
    rw [rlen] at hk
    have hdiv : k / T.GetBytesPerSample < n :=
      Nat.div_lt_of_lt_mul (by rw [Nat.mul_comm]; exact hk)
    have hmod : k % T.GetBytesPerSample < T.GetBytesPerSample := Nat.mod_lt _ (by omega)
    have hsplit : k / T.GetBytesPerSample * T.GetBytesPerSample + k % T.GetBytesPerSample = k :=
      Nat.div_add_mod' k T.GetBytesPerSample
    have hr := rget (k / T.GetBytesPerSample) (k % T.GetBytesPerSample) hdiv hmod
    have hw := hagree (T.samplePos c (k / T.GetBytesPerSample) + k % T.GetBytesPerSample)
      ⟨k / T.GetBytesPerSample, Nat.zero_le _, by omega, by omega, by omega⟩
    have hg := hG (k / T.GetBytesPerSample) (k % T.GetBytesPerSample) hdiv hmod
    rw [hsplit] at hr hg
    rw [hr, hw, hg]

/-- Writing to channel `c` of a store whose stream has not failed a vector of `n`
samples whose slots share no byte, then reading `n` samples of that channel
back, returns the vector. -/
theorem WavFile.write_then_read_disjoint (junk : Nat → Nat → Nat) (T : WavFile) (c : Int)
    (n : Nat) (bytes : List Nat) (hT : T.dataStream.failed = false)
    (hbps : 1 ≤ T.GetBytesPerSample)
    (hlen : bytes.length = n * T.GetBytesPerSample)
    (hn : n * T.GetBytesPerSample < U32)
    (hdis : ∀ i i', i < i' → i' < n →
      T.samplePos c i + T.GetBytesPerSample ≤ T.samplePos c i' ∨
        T.samplePos c i' + T.GetBytesPerSample ≤ T.samplePos c i) :
    ∃ T', T.SetDataOnChannel c bytes = .ok T' ∧
      (T'.GetDataFromChannel junk c n).2 = bytes := by
  have hb0 : T.GetBytesPerSample ≠ 0 := by omega
  have hcount : (bytes.length / T.GetBytesPerSample) % U32 = n := by
    rw [hlen, Nat.mul_div_cancel _ (by omega)]
    apply Nat.mod_eq_of_lt
    have : n ≤ n * T.GetBytesPerSample := Nat.le_mul_of_pos_right _ (by omega)
    omega
  have hok := WavFile.SetDataOnChannel_ok T c bytes hb0
  rw [hcount] at hok
  obtain ⟨l1, _, _, l4, l5, _⟩ :=
    WavFile.SetDataOnChannel.loop_writes T c bytes n 0 T.dataStream hT
  have hframe : ∀ i, i < n → i * T.GetBytesPerSample + T.GetBytesPerSample ≤ U32 := by
    intro i hi
    have h := Nat.mul_le_mul_right T.GetBytesPerSample (Nat.succ_le_of_lt hi)
    rw [Nat.succ_mul] at h
    omega
  refine ⟨_, hok, ?_⟩
  generalize hT' : ({ T with dataStream :=
    (WavFile.SetDataOnChannel.loop T c bytes n 0 T.dataStream) } : WavFile) = T'
  have hbT : T'.GetBytesPerSample = T.GetBytesPerSample := by rw [← hT']; rfl
  have hpT : ∀ i, T'.samplePos c i = T.samplePos c i := by
    intro i; rw [← hT']; rfl
  have hdT : T'.dataStream = WavFile.SetDataOnChannel.loop T c bytes n 0 T.dataStream := by
    rw [← hT']
  obtain ⟨_, rlen, rget⟩ := WavFile.GetDataFromChannel_spec junk T' c n
    (by rw [hdT]; exact l1) (by rw [hbT]; exact hn)
    (by
      intro i hi
      rw [hpT, hbT, hdT]
      exact l4 hb0 i (Nat.zero_le _) (by omega))
  rw [hbT] at rlen
  simp only [hbT, hpT, hdT] at rget
  apply ext_getD
  · rw [rlen, hlen]
  · intro k hk
    rw [rlen] at hk
    have hdiv : k / T.GetBytesPerSample < n :=
      Nat.div_lt_of_lt_mul (by rw [Nat.mul_comm]; exact hk)
    have hmod : k % T.GetBytesPerSample < T.GetBytesPerSample := Nat.mod_lt _ (by omega)
    have hsplit : k / T.GetBytesPerSample * T.GetBytesPerSample + k % T.GetBytesPerSample = k :=
      Nat.div_add_mod' k T.GetBytesPerSample
    have hr := rget (k / T.GetBytesPerSample) (k % T.GetBytesPerSample) hdiv hmod
    have hw := l5 (k / T.GetBytesPerSample) (k % T.GetBytesPerSample) (Nat.zero_le _)
      (by omega) hmod
      (by
        intro i' h1 h2
        rcases hdis (k / T.GetBytesPerSample) i' h1 (by omega) with h | h
        · exact Or.inl (by omega)
        · exact Or.inr (by omega))
    rw [hsplit] at hr
    rw [hr, hw, WavFile.loadSample_getD _ _ _ _ hmod (hframe _ hdiv), hsplit]

/-- C8, as stated, fails for a store with less than eight bits per sample: the
sample width is 0 bytes, the vector read is empty, and `SetDataOnChannel`
divides its length by the sample width, so writing it never returns. -/
theorem C8_counterexample :
    (0 : Nat) < nibbleStore.header.channels ∧
    nibbleTarget.header.channels = nibbleStore.header.channels ∧
    nibbleTarget.GetBytesPerSample = nibbleStore.GetBytesPerSample ∧
    nibbleTarget.dataStream = ⟨({} : WavHeader).toBytes, false⟩ ∧
    wavHeaderLength + nibbleStore.GetBytesPerSample * 1 * nibbleStore.header.channels ≤
      nibbleStore.dataStream.contents.length ∧
    nibbleTarget.SetDataOnChannel 0 (nibbleStore.GetDataFromChannel (fun _ _ => 0) 0 1).2 =
      .error .divisionByZero := by
  decide

/-- C8 (amended): let `S` be a store with a sample width of at least one byte
whose file holds at least `n` frames, `n` samples fitting a vector
(`n * bytesPerSample < 2^32`), and let `bytes` be what reading `n` frames of a
channel `c < channels` of `S` returns.  Writing `bytes` to channel `c` of a store
`T` with the same channel count and sample width whose stream has not failed (a
freshly created store is one) returns, and reading `n` frames of channel `c` of
`T` afterwards gives a vector identical to `bytes`. -/
theorem C8_read_write_roundtrip (junkS junkT : Nat → Nat → Nat) (S T : WavFile) (c n : Nat)
    (hT : T.dataStream.failed = false)
    (hch : T.header.channels = S.header.channels)
    (hbits : T.header.bitsPerSample = S.header.bitsPerSample)
    (hbps : 1 ≤ S.GetBytesPerSample) (hc : c < S.header.channels)
    (hS : 44 + S.GetBytesPerSample * n * S.header.channels ≤ S.dataStream.contents.length)
    (hn : n * S.GetBytesPerSample < 4294967296) :
    ∃ T', T.SetDataOnChannel c (S.GetDataFromChannel junkS c n).2 = .ok T' ∧
      (T'.GetDataFromChannel junkT c n).2 = (S.GetDataFromChannel junkS c n).2 := by
  have hb : T.GetBytesPerSample = S.GetBytesPerSample := by
    simp only [GetBytesPerSample, hbits]
  have hpos : ∀ i, T.samplePos (c : Int) i = S.samplePos (c : Int) i := by
    intro i
    simp only [samplePos, GetBytesPerSample, hbits, hch]
  have hlen : (S.GetDataFromChannel junkS c n).2.length = n * T.GetBytesPerSample := by
    rw [WavFile.GetDataFromChannel_length, hb]
    exact Nat.mod_eq_of_lt hn
  by_cases hall : ∀ i, i < n →
      S.samplePos (c : Int) i + S.GetBytesPerSample ≤ S.dataStream.contents.length
  · have hsource : ∃ G : Nat → Nat, ∀ i j, i < n → j < T.GetBytesPerSample →
        (S.GetDataFromChannel junkS c n).2.getD (i * T.GetBytesPerSample + j) 0 =
          G (T.samplePos (c : Int) i + j) := by
      cases hf : S.dataStream.failed with
      | true =>
        refine ⟨fun _ => 0, ?_⟩
        intro i j _ _
        rw [WavFile.GetDataFromChannel_failed junkS S c n hf, getD_replicate_zero]
      | false =>
        refine ⟨fun a => S.dataStream.contents.getD a 0, ?_⟩
        obtain ⟨_, _, hget⟩ := WavFile.GetDataFromChannel_spec junkS S (c : Int) n hf hn hall
        intro i j hi hj
        rw [hb, hpos]
        exact hget i j hi (by rw [← hb]; exact hj)
    obtain ⟨G, hG⟩ := hsource
    obtain ⟨T', h1, _, _, h4⟩ := WavFile.write_then_read junkT T (c : Int) n
      (S.GetDataFromChannel junkS c n).2 G hT (by rw [hb]; exact hbps) hlen
      (by rw [hb]; exact hn) hG
    exact ⟨T', h1, h4⟩
  · have hch2 : 2 ≤ S.header.channels := by
      by_contra hlt
      apply hall
      intro i hi
      have hc0 : c = 0 := by omega
      have hch1 : S.header.channels = 1 := by omega
      subst hc0
      have h0 : toU32 (toShort ((0 : Nat) : Int)) = 0 := by decide
      have h1 : S.samplePos ((0 : Nat) : Int) i ≤ wavHeaderLength +
          S.GetBytesPerSample * toU32 (toShort ((0 : Nat) : Int)) +
          S.GetBytesPerSample * i * S.header.channels := Nat.mod_le _ _
      have h2 := frame_step S.GetBytesPerSample S.header.channels i n hi
      rw [h0] at h1
      rw [hch1] at h1 h2 hS
      simp only [wavHeaderLength, Nat.mul_one, Nat.mul_zero] at h1 h2 hS
      omega
    rw [not_forall] at hall
    obtain ⟨k, hk⟩ := hall
    rw [Classical.not_imp] at hk
    obtain ⟨hkn, hkshort⟩ := hk
    have hpk : S.samplePos (c : Int) k < 4294967296 := Nat.mod_lt _ (by decide)
    have hD : 2 * S.GetBytesPerSample ≤ S.GetBytesPerSample * S.header.channels := by
      rw [Nat.mul_comm 2]
      exact Nat.mul_le_mul_left _ hch2
    exact WavFile.write_then_read_disjoint junkT T (c : Int) n
      (S.GetDataFromChannel junkS c n).2 hT (by rw [hb]; exact hbps) hlen
      (by rw [hb]; exact hn)
      (by
        intro i i' hii' hi'
        rw [hpos, hpos, hb]
        have s1 := frame_step S.GetBytesPerSample S.header.channels i i' hii'
        have s2 := frame_step S.GetBytesPerSample S.header.channels i' n hi'
        simp only [WavFile.samplePos, U32, wavHeaderLength] at hkshort hpk ⊢
        generalize S.GetBytesPerSample * toU32 (toShort (c : Int)) = A at hkshort hpk ⊢
        generalize S.GetBytesPerSample * i * S.header.channels = X at s1 ⊢
        generalize S.GetBytesPerSample * i' * S.header.channels = X' at s1 s2 ⊢
        generalize S.GetBytesPerSample * k * S.header.channels = Xk at hkshort hpk
        generalize S.GetBytesPerSample * n * S.header.channels = Nn at s2 hS
        generalize S.GetBytesPerSample * S.header.channels = D at hD s1 s2
        omega)

theorem C8_read_write_roundtrip_witness :
    ∃ T', (WavFile.new "copy.wav" none).SetDataOnChannel (0 : Nat)
        (oneFrame.GetDataFromChannel (fun _ _ => 0) (0 : Nat) 1).2 = .ok T' ∧
      (T'.GetDataFromChannel (fun _ _ => 9) (0 : Nat) 1).2 =
        (oneFrame.GetDataFromChannel (fun _ _ => 0) (0 : Nat) 1).2 :=
  C8_read_write_roundtrip (fun _ _ => 0) (fun _ _ => 9) oneFrame (WavFile.new "copy.wav" none)
    0 1 (by decide) (by decide) (by decide) (by decide) (by decide) (by decide) (by decide)

/-! ## Mono inputs and the stereo result -/

theorem WavFile.samplePos_mono (f : WavFile) (i : Nat) (hc : f.header.channels = 1)
    (hb : f.GetBytesPerSample = 2) (h : 44 + 2 * i < 4294967296) :
    f.samplePos 0 i = 44 + 2 * i := by
  have h0 : toU32 (toShort 0) = 0 := by decide
  simp only [WavFile.samplePos, hb, hc, h0, wavHeaderLength, U32]
  omega

theorem WavFile.samplePos_stereo (f : WavFile) (c i : Nat) (hc : f.header.channels = 2)
    (hb : f.GetBytesPerSample = 2) (hlt : c < 2) (h : 44 + 2 * c + 4 * i < 4294967296) :
    f.samplePos (c : Int) i = 44 + 2 * c + 4 * i := by
  simp only [WavFile.samplePos, hb, hc, toU32_toShort_natCast c (by omega), wavHeaderLength,
    U32]
  omega

/-- Reading all `k` frames of a mono 16-bit store whose stream has not failed and
whose file holds them: the vector is the payload, the first `2 * k` bytes after
the header. -/
theorem WavFile.read_mono (junk : Nat → Nat → Nat) (f : WavFile) (k : Nat)
    (hc : f.header.channels = 1) (hb : f.GetBytesPerSample = 2)
    (hs : f.dataStream.failed = false)
    (hl : 44 + 2 * k ≤ f.dataStream.contents.length) (hw : 44 + 2 * k ≤ 4294967296) :
    (f.GetDataFromChannel junk 0 k).2 = (f.dataStream.contents.drop 44).take (2 * k) := by
  have hpos : ∀ i, i < k → f.samplePos 0 i = 44 + 2 * i :=
    fun i hi => WavFile.samplePos_mono f i hc hb (by omega)
  obtain ⟨_, hlen, hget⟩ := WavFile.GetDataFromChannel_spec junk f 0 k hs
    (by rw [hb]; simp only [U32]; omega)
    (by intro i hi; rw [hpos i hi, hb]; omega)
  rw [hb] at hlen hget
  apply ext_getD
  · rw [hlen, List.length_take, List.length_drop]
    omega
  · intro t ht
    rw [hlen] at ht
    have h := hget (t / 2) (t % 2) (by omega) (by omega)
    rw [hpos (t / 2) (by omega)] at h
    rw [show t / 2 * 2 + t % 2 = t by omega] at h
    rw [h, getD_take, getD_drop, if_pos (by omega)]
    congr 1
    omega

/-- Writing a vector of `k` samples to channel `c` of a stereo 16-bit store whose
stream has not failed: sample `i` lands at offset `44 + 2 * c + 4 * i`, the bytes
outside these slots are as before, and the file ends where it did or at the end of
the last slot, whichever is later. -/
theorem WavFile.write_stereo (f : WavFile) (c k : Nat) (bytes : List Nat) (s : FStream)
    (hc : f.header.channels = 2) (hb : f.GetBytesPerSample = 2) (hlt : c < 2)
    (hs : s.failed = false) (hw : 44 + 4 * k ≤ 4294967296) :
    (WavFile.SetDataOnChannel.loop f (c : Int) bytes k 0 s).failed = false ∧
    (∀ i j, i < k → j < 2 →
      (WavFile.SetDataOnChannel.loop f (c : Int) bytes k 0 s).contents.getD
        (44 + 2 * c + 4 * i + j) 0 = bytes.getD (2 * i + j) 0) ∧
    (∀ t, (t < 44 + 2 * c ∨ 2 ≤ (t - (44 + 2 * c)) % 4 ∨ k ≤ (t - (44 + 2 * c)) / 4) →
      (WavFile.SetDataOnChannel.loop f (c : Int) bytes k 0 s).contents.getD t 0 =
        s.contents.getD t 0) ∧
    (WavFile.SetDataOnChannel.loop f (c : Int) bytes k 0 s).contents.length =
      if k = 0 then s.contents.length else max s.contents.length (42 + 2 * c + 4 * k) := by
  have hpos : ∀ i, i < k → f.samplePos (c : Int) i = 44 + 2 * c + 4 * i :=
    fun i hi => WavFile.samplePos_stereo f c i hc hb hlt (by omega)
  obtain ⟨l1, l2, l3, l4, l5, l6⟩ := WavFile.SetDataOnChannel.loop_writes f (c : Int) bytes k 0 s hs
  refine ⟨l1, ?_, ?_, ?_⟩
  · intro i j hi hj
    have h := l5 i j (Nat.zero_le _) (by omega) (by omega) (by
      intro i' h1 h2
      rw [hpos i hi, hpos i' (by omega)]
      omega)
    rw [hpos i hi] at h
    rw [h, hb, WavFile.loadSample_getD _ _ _ _ hj (by simp only [U32]; omega)]
    congr 1
    omega
  · intro t ht
    apply l3
    intro i _ hi
    rw [hpos i (by omega), hb]
    omega
  · by_cases hk : k = 0
    · subst hk
      rw [if_pos rfl]
      rfl
    · rw [if_neg hk]
      apply Nat.le_antisymm
      · apply l6
        · omega
        · intro i _ hi
          rw [hpos i (by omega), hb]
          omega
      · have h := l4 (by omega) (k - 1) (Nat.zero_le _) (by omega)
        rw [hpos (k - 1) (by omega), hb] at h
        omega

/-- Reading `k` frames of channel `c` of a stereo 16-bit store whose stream has not
failed and whose file reaches the end of the last slot asked for. -/
theorem WavFile.read_stereo (junk : Nat → Nat → Nat) (f : WavFile) (c k : Nat)
    (hc : f.header.channels = 2) (hb : f.GetBytesPerSample = 2) (hlt : c < 2)
    (hs : f.dataStream.failed = false)
    (hl : k = 0 ∨ 42 + 2 * c + 4 * k ≤ f.dataStream.contents.length)
    (hw : 44 + 4 * k ≤ 4294967296) :
    (f.GetDataFromChannel junk (c : Int) k).2.length = 2 * k ∧
    ∀ t, t < 2 * k →
      (f.GetDataFromChannel junk (c : Int) k).2.getD t 0 =
        f.dataStream.contents.getD (44 + 2 * c + 4 * (t / 2) + t % 2) 0 := by
  have hpos : ∀ i, i < k → f.samplePos (c : Int) i = 44 + 2 * c + 4 * i :=
    fun i hi => WavFile.samplePos_stereo f c i hc hb hlt (by omega)
  obtain ⟨_, hlen, hget⟩ := WavFile.GetDataFromChannel_spec junk f (c : Int) k hs
    (by rw [hb]; simp only [U32]; omega)
    (by intro i hi; rw [hpos i hi, hb]; omega)
  rw [hb] at hlen hget
  refine ⟨by omega, ?_⟩
  intro t ht
  have h := hget (t / 2) (t % 2) (by omega) (by omega)
  rw [hpos (t / 2) (by omega), show t / 2 * 2 + t % 2 = t by omega] at h
  exact h

theorem WavEditor.Combine.prepared_facts (P R : WavFile) (hbits : P.header.bitsPerSample = 16)
    (hRs : R.dataStream.failed = false) (hRl : R.dataStream.contents.length ≤ 44) :
    (Combine.prepared P R).header = Combine.resultHeader P.header R.header ∧
    (Combine.prepared P R).header.channels = 2 ∧
    (Combine.prepared P R).GetBytesPerSample = 2 ∧
    (Combine.prepared P R).dataStream.failed = false ∧
    (Combine.prepared P R).dataStream.contents.length = 44 := by
  refine ⟨rfl, rfl, ?_, ?_, ?_⟩
  · simp [Combine.prepared, SaveHeader, GetBytesPerSample, Combine.resultHeader, hbits]
  · simp only [Combine.prepared, SaveHeader, FStream.write_failed, hRs]
  · have h := WavFile.SaveHeader_contents
      { R with header := Combine.resultHeader P.header R.header } hRs
    have hRl' : ({ R with header := Combine.resultHeader P.header R.header } :
        WavFile).dataStream.contents.length ≤ 44 := hRl
    simp only [Combine.prepared]
    rw [h, List.length_append, WavHeader.toBytes_length, List.length_drop]
    omega

/-- The file that the body of `Combine` leaves behind `result`, for a validated
mono primary with `n` frames and a validated mono secondary with `m ≤ n` frames,
both with good streams and complete files, and a destination whose stream is
good and whose file has at most its 44 header bytes. -/
theorem WavEditor.Combine.body_mono (junkFirst junkSecond : Nat → Nat → Nat)
    (P S R : WavFile) (n m : Nat)
    (hPv : Validate P = .ok true) (hSv : Validate S = .ok true)
    (hPn : P.GetChunksPerChannel = .ok n) (hSn : S.GetChunksPerChannel = .ok m)
    (hPs : P.dataStream.failed = false) (hSs : S.dataStream.failed = false)
    (hPl : 44 + 2 * n ≤ P.dataStream.contents.length)
    (hSl : 44 + 2 * m ≤ S.dataStream.contents.length)
    (hmn : m ≤ n) (hRs : R.dataStream.failed = false)
    (hRl : R.dataStream.contents.length ≤ 44) (hw : 44 + 4 * n ≤ 4294967296) :
    ∃ out, Combine.body junkFirst junkSecond P S R = .ok out ∧
      out.2.2.header.channels = 2 ∧ out.2.2.GetBytesPerSample = 2 ∧
      out.2.2.dataStream.failed = false ∧
      out.2.2.dataStream.contents.length =
        (if n = 0 then 44 else if m = n then 44 + 4 * n else 42 + 4 * n) ∧
      (∀ t, t < 2 * n → out.2.2.dataStream.contents.getD (44 + 4 * (t / 2) + t % 2) 0 =
        P.dataStream.contents.getD (44 + t) 0) ∧
      (∀ t, t < 2 * m → out.2.2.dataStream.contents.getD (46 + 4 * (t / 2) + t % 2) 0 =
        S.dataStream.contents.getD (44 + t) 0) ∧
      (∀ i j, m ≤ i → j < 2 → out.2.2.dataStream.contents.getD (46 + 4 * i + j) 0 = 0) := by
  obtain ⟨hPc, hPbits, hPb, _⟩ := frames_of_validated P n hPv hPn
  obtain ⟨hSc, _, hSb, _⟩ := frames_of_validated S m hSv hSn
  obtain ⟨R₁, R₂, e₁, e₂, hR₁, hR₂, hbody⟩ := Combine.body_ok junkFirst junkSecond P S R n m
    hPn hSn (by rw [hPbits]; decide)
  obtain ⟨_, p2, p3, p4, p5⟩ := Combine.prepared_facts P R hPbits hRs hRl
  have hdP := WavFile.read_mono junkFirst P n hPc hPb hPs hPl (by omega)
  have hdS := WavFile.read_mono junkSecond S m hSc hSb hSs hSl (by omega)
  have hlenP : (P.GetDataFromChannel junkFirst 0 n).2.length = 2 * n := by
    rw [hdP, List.length_take, List.length_drop]; omega
  have hlenS : (S.GetDataFromChannel junkSecond 0 m).2.length = 2 * m := by
    rw [hdS, List.length_take, List.length_drop]; omega
  -- the first write
  have hc₁ : ((P.GetDataFromChannel junkFirst 0 n).2.length /
      (Combine.prepared P R).GetBytesPerSample) % U32 = n := by
    rw [hlenP, p3]; simp only [U32]; omega
  have e₁' := WavFile.SetDataOnChannel_ok (Combine.prepared P R) 0
    (P.GetDataFromChannel junkFirst 0 n).2 (by rw [p3]; decide)
  rw [hc₁, e₁] at e₁'
  have hR₁eq := Except.ok.inj e₁'
  obtain ⟨a1, a2, a3, a4⟩ := WavFile.write_stereo (Combine.prepared P R) 0 n
    (P.GetDataFromChannel junkFirst 0 n).2 (Combine.prepared P R).dataStream p2 p3 (by decide)
    p4 hw
  simp only [Nat.cast_zero, Nat.mul_zero, Nat.add_zero] at a1 a2 a3 a4
  have hR₁c : R₁.header.channels = 2 := by rw [hR₁]; rfl
  have hR₁b : R₁.GetBytesPerSample = 2 := by rw [hR₁eq]; exact p3
  have hR₁d : R₁.dataStream = WavFile.SetDataOnChannel.loop (Combine.prepared P R) 0
      (P.GetDataFromChannel junkFirst 0 n).2 n 0 (Combine.prepared P R).dataStream := by
    rw [hR₁eq]
  -- the second write
  have hc₂ : ((S.GetDataFromChannel junkSecond 0 m).2.length / R₁.GetBytesPerSample) % U32 = m := by
    rw [hlenS, hR₁b]; simp only [U32]; omega
  have e₂' := WavFile.SetDataOnChannel_ok R₁ 1 (S.GetDataFromChannel junkSecond 0 m).2
    (by rw [hR₁b]; decide)
  rw [hc₂, e₂] at e₂'
  have hR₂eq := Except.ok.inj e₂'
  obtain ⟨b1, b2, b3, b4⟩ := WavFile.write_stereo R₁ 1 m
    (S.GetDataFromChannel junkSecond 0 m).2 R₁.dataStream hR₁c hR₁b (by decide)
    (by rw [hR₁d]; exact a1) (by omega)
  simp only [Nat.cast_one, Nat.mul_one] at b1 b2 b3 b4
  have hR₂d : R₂.dataStream = WavFile.SetDataOnChannel.loop R₁ 1
      (S.GetDataFromChannel junkSecond 0 m).2 m 0 R₁.dataStream := by
    rw [hR₂eq]
  refine ⟨_, hbody, ?_, ?_, ?_, ?_, ?_, ?_, ?_⟩
  · show R₂.header.channels = 2
    rw [hR₂]; rfl
  · show R₂.GetBytesPerSample = 2
    rw [hR₂eq]; exact hR₁b
  · show R₂.dataStream.failed = false
    rw [hR₂d]; exact b1
  · show R₂.dataStream.contents.length = _
    rw [hR₂d, b4, hR₁d, a4, p5]
    split_ifs <;> omega
  · intro t ht
    show R₂.dataStream.contents.getD _ 0 = _
    rw [hR₂d, b3 _ (by omega), hR₁d, a2 (t / 2) (t % 2) (by omega) (by omega),
      show 2 * (t / 2) + t % 2 = t by omega, hdP, getD_take, getD_drop, if_pos ht]
  · intro t ht
    show R₂.dataStream.contents.getD _ 0 = _
    have := b2 (t / 2) (t % 2) (by omega) (by omega)
    rw [show 44 + 2 + 4 * (t / 2) + t % 2 = 46 + 4 * (t / 2) + t % 2 by omega] at this
    rw [hR₂d, this, show 2 * (t / 2) + t % 2 = t by omega, hdS, getD_take, getD_drop, if_pos ht]
  · intro i j hi hj
    show R₂.dataStream.contents.getD _ 0 = _
    rw [hR₂d, b3 _ (by omega), hR₁d, a3 _ (by omega)]
    exact getD_of_length_le _ _ (by omega)

theorem WavFile.new_dataStream (path : String) (file : List Nat) (h : 44 ≤ file.length) :
    (WavFile.new path (some file)).dataStream = ⟨file, false⟩ := by
  have hread := FStream.read_of_available ⟨file, false⟩ 0 wavHeaderLength
    ({} : WavHeader).toBytes rfl (by simp only [wavHeaderLength]; omega)
  simp only [WavFile.new, hread]

theorem WavFile.new_none_dataStream (path : String) :
    (WavFile.new path none).dataStream = ⟨({} : WavHeader).toBytes, false⟩ := by
  have hne : ({} : WavHeader).toBytes.isEmpty = false := by decide
  simp only [WavFile.new, WavFile.SaveHeader, FStream.write, hne, Bool.false_eq_true, if_false,
    List.length_nil, Nat.sub_self, List.replicate_zero, List.append_nil, List.take_nil,
    List.drop_nil, List.nil_append]

/-- C1, as stated, fails: both inputs are validated, have `GetChunksPerChannel = 1`
and files with exactly that frame, but the second one has the larger
`dataBlockSize` (11 against 10), so `Combine` makes it the primary and channel 0 of
the result holds its samples, channel 1 those of the first input. -/
theorem C1_counterexample :
    Validate leftInput = .ok true ∧ Validate rightInput = .ok true ∧
    leftInput.GetChunksPerChannel = .ok 1 ∧ rightInput.GetChunksPerChannel = .ok 1 ∧
    leftInput.dataStream.contents.drop 44 = [1, 0] ∧
    rightInput.dataStream.contents.drop 44 = [2, 0] ∧
    (Combine (fun _ _ => 0) (fun _ _ => 0) leftInput rightInput
        (WavFile.new "out.wav" none)).toOption.map
      (fun out => ((out.2.2.GetDataFromChannel (fun _ _ => 0) 0 1).2,
        (out.2.2.GetDataFromChannel (fun _ _ => 0) 1 1).2)) = some ([2, 0], [1, 0]) := by
  decide

/-- C1 (amended): let A and B be the stores opened on two files, both validated
mono 16-bit 8000 Hz with `GetChunksPerChannel = n` and files that contain those
`n` frames, let B's `dataBlockSize` be no larger than A's, and let the `4 * n`
payload bytes of the result end below offset 2^32.  After `Combine(A, B, result)`
on a freshly created `result`, reading `n` frames of channel 0 of `result` returns
A's `2 * n` sample bytes and reading `n` frames of channel 1 returns B's. -/
theorem C1_combine_channels (junkFirst junkSecond junkLeft junkRight : Nat → Nat → Nat)
    (pathA pathB pathR : String) (fileA fileB : List Nat) (n : Nat)
    (hA : Validate (WavFile.new pathA (some fileA)) = .ok true)
    (hB : Validate (WavFile.new pathB (some fileB)) = .ok true)
    (hnA : (WavFile.new pathA (some fileA)).GetChunksPerChannel = .ok n)
    (hnB : (WavFile.new pathB (some fileB)).GetChunksPerChannel = .ok n)
    (hfA : 44 + 2 * n ≤ fileA.length) (hfB : 44 + 2 * n ≤ fileB.length)
    (hd : (WavFile.new pathB (some fileB)).header.dataBlockSize ≤
      (WavFile.new pathA (some fileA)).header.dataBlockSize)
    (hw : 44 + 4 * n ≤ 4294967296) :
    ∃ out, Combine junkFirst junkSecond (WavFile.new pathA (some fileA))
        (WavFile.new pathB (some fileB)) (WavFile.new pathR none) = .ok out ∧
      (out.2.2.GetDataFromChannel junkLeft 0 n).2 = (fileA.drop 44).take (2 * n) ∧
      (out.2.2.GetDataFromChannel junkRight 1 n).2 = (fileB.drop 44).take (2 * n) := by
  have hsA := WavFile.new_dataStream pathA fileA (by omega)
  have hsB := WavFile.new_dataStream pathB fileB (by omega)
  have hsR := WavFile.new_none_dataStream pathR
  obtain ⟨out, hout, oc, ob, os, ol, oP, oS, _⟩ := Combine.body_mono junkFirst junkSecond
    (WavFile.new pathA (some fileA)) (WavFile.new pathB (some fileB)) (WavFile.new pathR none)
    n n hA hB hnA hnB (by rw [hsA]) (by rw [hsB]) (by rw [hsA]; exact hfA)
    (by rw [hsB]; exact hfB) (Nat.le_refl _) (by rw [hsR]) (by rw [hsR]; decide) hw
  rw [hsA] at oP
  rw [hsB] at oS
  simp only [if_true] at ol
  refine ⟨out, ?_, ?_, ?_⟩
  · unfold Combine
    rw [if_neg (by omega)]
    exact hout
  · obtain ⟨rl, rg⟩ := WavFile.read_stereo junkLeft out.2.2 0 n oc ob (by decide) os
      (by rw [ol]; split_ifs <;> omega) hw
    simp only [Nat.cast_zero, Nat.mul_zero, Nat.add_zero] at rl rg
    apply ext_getD
    · rw [rl, List.length_take, List.length_drop]; omega
    · intro t ht
      rw [rl] at ht
      rw [rg t ht, oP t ht, getD_take, getD_drop, if_pos ht]
  · obtain ⟨rl, rg⟩ := WavFile.read_stereo junkRight out.2.2 1 n oc ob (by decide) os
      (by rw [ol]; split_ifs <;> omega) hw
    simp only [Nat.cast_one, Nat.mul_one] at rl rg
    apply ext_getD
    · rw [rl, List.length_take, List.length_drop]; omega
    · intro t ht
      rw [rl] at ht
      rw [rg t ht, show 44 + 2 + 4 * (t / 2) + t % 2 = 46 + 4 * (t / 2) + t % 2 by omega,
        oS t ht, getD_take, getD_drop, if_pos ht]

theorem C1_combine_channels_witness :
    ∃ out, Combine (fun _ _ => 5) (fun _ _ => 6) (WavFile.new "left.wav" (some (monoFile 10 [1, 0])))
        (WavFile.new "right.wav" (some (monoFile 10 [2, 0]))) (WavFile.new "out.wav" none) = .ok out ∧
      (out.2.2.GetDataFromChannel (fun _ _ => 7) 0 1).2 = ((monoFile 10 [1, 0]).drop 44).take (2 * 1) ∧
      (out.2.2.GetDataFromChannel (fun _ _ => 8) 1 1).2 = ((monoFile 10 [2, 0]).drop 44).take (2 * 1) :=
  C1_combine_channels (fun _ _ => 5) (fun _ _ => 6) (fun _ _ => 7) (fun _ _ => 8)
    "left.wav" "right.wav" "out.wav" (monoFile 10 [1, 0]) (monoFile 10 [2, 0]) 1
    (by decide) (by decide) (by decide) (by decide) (by decide) (by decide) (by decide)
    (by decide)

set_option maxRecDepth 100000 in
/-- C4, as stated, fails at the last frame: with a 4-frame primary and a 2-frame
secondary the result file is 58 bytes long and ends right after frame 3 of
channel 0, so frame 3 of channel 1 (offsets 58 and 59) is not in the file;
reading 4 frames of channel 1 returns the secondary's two frames, one frame of
zeros, and for frame 3 whatever the read buffer held (255 here), not zeros. -/
theorem C4_counterexample :
    Validate longInput = .ok true ∧ Validate shortInput = .ok true ∧
    longInput.GetChunksPerChannel = .ok 4 ∧ shortInput.GetChunksPerChannel = .ok 2 ∧
    (Combine (fun _ _ => 0) (fun _ _ => 0) longInput shortInput
        (WavFile.new "out.wav" none)).toOption.map
      (fun out => (out.2.2.dataStream.contents.length,
        out.2.2.dataStream.contents[46 + 4 * 3]?,
        (out.2.2.GetDataFromChannel (fun _ _ => 255) 1 4).2)) =
      some (58, none, [5, 0, 6, 0, 0, 0, 255, 255]) := by
  decide

/-- C4 (amended): let A (the primary, `dataBlockSize` no smaller than B's) and B be
the stores opened on two files, both validated mono 16-bit, with `n` and `m < n`
frames that their files contain, the result's payload ending below offset 2^32.
After `Combine` of the two, in either order, into a freshly created `result`,
channel 0 of `result` holds A's `n` frames, the first `m` frames of channel 1
hold B's samples, frames `m .. n - 2` of channel 1 read as zero bytes, and the
file ends at offset `44 + 4 * n - 2`, before the slot of frame `n - 1` of
channel 1. -/
theorem C4_combine_shorter_secondary
    (junkFirst junkSecond junkLeft junkRight : Nat → Nat → Nat)
    (pathA pathB pathR : String) (fileA fileB : List Nat) (n m : Nat) (secondaryFirst : Bool)
    (hA : Validate (WavFile.new pathA (some fileA)) = .ok true)
    (hB : Validate (WavFile.new pathB (some fileB)) = .ok true)
    (hnA : (WavFile.new pathA (some fileA)).GetChunksPerChannel = .ok n)
    (hnB : (WavFile.new pathB (some fileB)).GetChunksPerChannel = .ok m)
    (hmn : m < n)
    (hfA : 44 + 2 * n ≤ fileA.length) (hfB : 44 + 2 * m ≤ fileB.length)
    (hd : (WavFile.new pathB (some fileB)).header.dataBlockSize ≤
      (WavFile.new pathA (some fileA)).header.dataBlockSize)
    (hw : 44 + 4 * n ≤ 4294967296) :
    ∃ out,
      Combine junkFirst junkSecond
        (if secondaryFirst then WavFile.new pathB (some fileB) else WavFile.new pathA (some fileA))
        (if secondaryFirst then WavFile.new pathA (some fileA) else WavFile.new pathB (some fileB))
        (WavFile.new pathR none) = .ok out ∧
      (out.2.2.GetDataFromChannel junkLeft 0 n).2 = (fileA.drop 44).take (2 * n) ∧
      (out.2.2.GetDataFromChannel junkRight 1 (n - 1)).2 =
        (fileB.drop 44).take (2 * m) ++ List.replicate (2 * (n - 1 - m)) 0 ∧
      out.2.2.dataStream.contents.length = 44 + 4 * n - 2 := by
  have hsA := WavFile.new_dataStream pathA fileA (by omega)
  have hsB := WavFile.new_dataStream pathB fileB (by omega)
  have hsR := WavFile.new_none_dataStream pathR
  obtain ⟨out, hout, oc, ob, os, ol, oP, oS, oZ⟩ := Combine.body_mono junkFirst junkSecond
    (WavFile.new pathA (some fileA)) (WavFile.new pathB (some fileB)) (WavFile.new pathR none)
    n m hA hB hnA hnB (by rw [hsA]) (by rw [hsB]) (by rw [hsA]; exact hfA)
    (by rw [hsB]; exact hfB) (Nat.le_of_lt hmn) (by rw [hsR]) (by rw [hsR]; decide) hw
  rw [hsA] at oP
  rw [hsB] at oS
  rw [if_neg (by omega), if_neg (by omega)] at ol
  have hstrict : (WavFile.new pathB (some fileB)).header.dataBlockSize <
      (WavFile.new pathA (some fileA)).header.dataBlockSize := by
    obtain ⟨_, _, _, fA⟩ := frames_of_validated _ n hA hnA
    obtain ⟨_, _, _, fB⟩ := frames_of_validated _ m hB hnB
    omega
  refine ⟨out, ?_, ?_, ?_, by omega⟩
  · unfold Combine
    cases secondaryFirst
    · simp only [Bool.false_eq_true, if_false]
      rw [if_neg (by omega)]
      exact hout
    · simp only [if_true]
      rw [if_pos hstrict]
      exact hout
  · obtain ⟨rl, rg⟩ := WavFile.read_stereo junkLeft out.2.2 0 n oc ob (by decide) os
      (by rw [ol]; omega) hw
    simp only [Nat.cast_zero, Nat.mul_zero, Nat.add_zero] at rl rg
    apply ext_getD
    · rw [rl, List.length_take, List.length_drop]; omega
    · intro t ht
      rw [rl] at ht
      rw [rg t ht, oP t ht, getD_take, getD_drop, if_pos ht]
  · obtain ⟨rl, rg⟩ := WavFile.read_stereo junkRight out.2.2 1 (n - 1) oc ob (by decide) os
      (by rw [ol]; omega) (by omega)
    simp only [Nat.cast_one, Nat.mul_one] at rl rg
    have hlt : ((fileB.drop 44).take (2 * m)).length = 2 * m := by
      rw [List.length_take, List.length_drop]; omega
    apply ext_getD
    · rw [rl, List.length_append, hlt, List.length_replicate]; omega
    · intro t ht
      rw [rl] at ht
      rw [rg t ht, show 44 + 2 + 4 * (t / 2) + t % 2 = 46 + 4 * (t / 2) + t % 2 by omega,
        getD_append, hlt]
      by_cases h : t < 2 * m
      · rw [if_pos h, oS t h, getD_take, getD_drop, if_pos h]
      · rw [if_neg h, getD_replicate_zero]
        exact oZ (t / 2) (t % 2) (by omega) (by omega)

theorem C4_combine_shorter_secondary_witness :
    ∃ out, Combine (fun _ _ => 5) (fun _ _ => 6)
        (if true then WavFile.new "short.wav" (some (monoFile 10 [9, 0]))
          else WavFile.new "long.wav" (some (monoFile 14 [1, 0, 2, 0, 3, 0])))
        (if true then WavFile.new "long.wav" (some (monoFile 14 [1, 0, 2, 0, 3, 0]))
          else WavFile.new "short.wav" (some (monoFile 10 [9, 0])))
        (WavFile.new "out.wav" none) = .ok out ∧
      (out.2.2.GetDataFromChannel (fun _ _ => 7) 0 3).2 =
        ((monoFile 14 [1, 0, 2, 0, 3, 0]).drop 44).take (2 * 3) ∧
      (out.2.2.GetDataFromChannel (fun _ _ => 8) 1 (3 - 1)).2 =
        ((monoFile 10 [9, 0]).drop 44).take (2 * 1) ++ List.replicate (2 * (3 - 1 - 1)) 0 ∧
      out.2.2.dataStream.contents.length = 44 + 4 * 3 - 2 :=
  C4_combine_shorter_secondary (fun _ _ => 5) (fun _ _ => 6) (fun _ _ => 7) (fun _ _ => 8)
    "long.wav" "short.wav" "out.wav" (monoFile 14 [1, 0, 2, 0, 3, 0]) (monoFile 10 [9, 0]) 3 1
    true (by decide) (by decide) (by decide) (by decide) (by decide) (by decide) (by decide)
    (by decide) (by decide)

/-! ## Divisors, the header invariants and the order of the inputs -/

theorem WavFile.GetDuration_ok (f : WavFile) (n : Nat) (h : f.GetChunksPerChannel = .ok n)
    (hr : f.header.sampleRate ≠ 0) : f.GetDuration = .ok (n / f.header.sampleRate) := by
  simp only [WavFile.GetDuration, h, hr, if_false]

/-- What the body of `Combine` returns for a validated primary: its result header
is the one derived from the primary, a stereo 16-bit 8000 Hz header. -/
theorem WavEditor.Combine.body_validated (junkFirst junkSecond : Nat → Nat → Nat)
    (P S result : WavFile) (hP : Validate P = .ok true) (hS : Validate S = .ok true) :
    ∃ out, Combine.body junkFirst junkSecond P S result = .ok out ∧
      out.2.2.header = Combine.resultHeader P.header result.header ∧
      out.2.2.header.channels = 2 ∧ out.2.2.header.bitsPerSample = 16 ∧
      out.2.2.header.sampleRate = 8000 := by
  obtain ⟨_, _, _, hPc, hPr, hPb⟩ := (validate_ok_iff P).mp hP
  obtain ⟨_, _, _, hSc, _, hSb⟩ := (validate_ok_iff S).mp hS
  obtain ⟨R₁, R₂, _, _, _, hR₂, hbody⟩ := Combine.body_ok junkFirst junkSecond P S result _ _
    (WavFile.GetChunksPerChannel_ok P (by rw [hPc, hPb]; decide))
    (WavFile.GetChunksPerChannel_ok S (by rw [hSc, hSb]; decide)) (by rw [hPb]; decide)
  refine ⟨_, hbody, hR₂, ?_, ?_, ?_⟩
  · simp only [hR₂, Combine.resultHeader]
  · simp only [hR₂, Combine.resultHeader, hPb]
  · simp only [hR₂, Combine.resultHeader, hPr]

theorem WavEditor.Combine.of_validated (junkFirst junkSecond : Nat → Nat → Nat)
    (a b result : WavFile) (ha : Validate a = .ok true) (hb : Validate b = .ok true) :
    ∃ out, Combine junkFirst junkSecond a b result = .ok out ∧
      out.2.2.header.channels = 2 ∧ out.2.2.header.bitsPerSample = 16 ∧
      out.2.2.header.sampleRate = 8000 ∧
      out.2.2.header.byteRate = result.header.byteRate ∧
      out.2.2.header.blockAlign = result.header.blockAlign := by
  unfold Combine
  by_cases hswap : b.header.dataBlockSize > a.header.dataBlockSize
  · obtain ⟨out, h1, h2, h3, h4, h5⟩ :=
      Combine.body_validated junkFirst junkSecond b a result hb ha
    refine ⟨out, by rw [if_pos hswap]; exact h1, h3, h4, h5, ?_, ?_⟩ <;>
      simp only [h2, Combine.resultHeader]
  · obtain ⟨out, h1, h2, h3, h4, h5⟩ :=
      Combine.body_validated junkFirst junkSecond a b result ha hb
    refine ⟨out, by rw [if_neg hswap]; exact h1, h3, h4, h5, ?_, ?_⟩ <;>
      simp only [h2, Combine.resultHeader]

theorem frames_and_duration_ok (f : WavFile) (c : Nat) (hc : c = 1 ∨ c = 2)
    (hch : f.header.channels = c) (hb : f.header.bitsPerSample = 16)
    (hr : f.header.sampleRate = 8000) :
    f.GetBytesPerSample = 2 ∧ f.header.channels * f.GetBytesPerSample = 2 * c ∧
    (∃ n, f.GetChunksPerChannel = .ok n) ∧ (∃ d, f.GetDuration = .ok d) := by
  have hbps : f.GetBytesPerSample = 2 := by simp [GetBytesPerSample, hb]
  have hok := WavFile.GetChunksPerChannel_ok f (by
    rw [hch, hb]
    rcases hc with h | h <;> subst h <;> decide)
  exact ⟨hbps, by rw [hch, hbps, Nat.mul_comm], ⟨_, hok⟩,
    ⟨_, WavFile.GetDuration_ok f _ hok (by rw [hr]; decide)⟩⟩

/-- C20: a header that passes `Validate` has `bytesPerSample = 2`,
`channels * bytesPerSample = 2` and `sampleRate = 8000`, and the result header
that `Combine` derives from validated inputs has `bytesPerSample = 2`,
`channels * bytesPerSample = 4` and `sampleRate = 8000`; for both,
`GetChunksPerChannel` and `GetDuration` return a value.  Without validation,
`bitsPerSample < 8` or `channels = 0` makes `GetChunksPerChannel` (and with it
`GetDuration`) divide by zero, and `sampleRate = 0` makes `GetDuration` divide by
zero. -/
theorem C20_divisors_nonzero (junkFirst junkSecond : Nat → Nat → Nat)
    (f a b result : WavFile) :
    (Validate f = .ok true →
      f.GetBytesPerSample = 2 ∧ f.header.channels * f.GetBytesPerSample = 2 ∧
      f.header.sampleRate = 8000 ∧
      (∃ n, f.GetChunksPerChannel = .ok n) ∧ (∃ d, f.GetDuration = .ok d)) ∧
    (Validate a = .ok true → Validate b = .ok true →
      ∃ out, Combine junkFirst junkSecond a b result = .ok out ∧
        out.2.2.GetBytesPerSample = 2 ∧
        out.2.2.header.channels * out.2.2.GetBytesPerSample = 4 ∧
        out.2.2.header.sampleRate = 8000 ∧
        (∃ n, out.2.2.GetChunksPerChannel = .ok n) ∧ (∃ d, out.2.2.GetDuration = .ok d)) ∧
    ((f.header.bitsPerSample < 8 ∨ f.header.channels = 0) →
      f.GetChunksPerChannel = .error .divisionByZero ∧
      f.GetDuration = .error .divisionByZero) ∧
    (f.header.sampleRate = 0 → f.GetDuration = .error .divisionByZero) := by
  refine ⟨?_, ?_, ?_, ?_⟩
  · intro hv
    obtain ⟨_, _, _, hc, hr, hb⟩ := (validate_ok_iff f).mp hv
    obtain ⟨h1, h2, h3, h4⟩ := frames_and_duration_ok f 1 (Or.inl rfl) hc hb hr
    exact ⟨h1, h2, hr, h3, h4⟩
  · intro ha hb
    obtain ⟨out, h1, hc, hbits, hr, _, _⟩ :=
      Combine.of_validated junkFirst junkSecond a b result ha hb
    obtain ⟨g1, g2, g3, g4⟩ := frames_and_duration_ok out.2.2 2 (Or.inr rfl) hc hbits hr
    exact ⟨out, h1, g1, g2, hr, g3, g4⟩
  · intro h
    have hz : (f.header.channels * (f.header.bitsPerSample / 8)) % 4294967296 = 0 := by
      rcases h with h | h
      · have : f.header.bitsPerSample / 8 = 0 := by omega
        rw [this, Nat.mul_zero]
      · rw [h, Nat.zero_mul]
    have he := WavFile.GetChunksPerChannel_error f hz
    refine ⟨he, ?_⟩
    simp only [WavFile.GetDuration, he]
  · intro h
    by_cases hz : (f.header.channels * (f.header.bitsPerSample / 8)) % 4294967296 = 0
    · simp only [WavFile.GetDuration, WavFile.GetChunksPerChannel_error f hz]
    · simp only [WavFile.GetDuration, WavFile.GetChunksPerChannel_ok f hz, h, if_true]

theorem C20_divisors_nonzero_witness :
    (hundredFrames.GetBytesPerSample = 2 ∧
      hundredFrames.header.channels * hundredFrames.GetBytesPerSample = 2 ∧
      hundredFrames.header.sampleRate = 8000 ∧
      (∃ n, hundredFrames.GetChunksPerChannel = .ok n) ∧
      (∃ d, hundredFrames.GetDuration = .ok d)) ∧
    (fourBitStore.GetChunksPerChannel = .error .divisionByZero ∧
      fourBitStore.GetDuration = .error .divisionByZero) :=
  ⟨(C20_divisors_nonzero (fun _ _ => 0) (fun _ _ => 0) hundredFrames hundredFrames
      hundredFrames (WavFile.new "out.wav" none)).1 (by decide),
    (C20_divisors_nonzero (fun _ _ => 0) (fun _ _ => 0) fourBitStore hundredFrames
      hundredFrames (WavFile.new "out.wav" none)).2.2.1 (Or.inl (by decide))⟩

/-- C17, as stated, fails for the header that `Combine` writes: from two validated
mono inputs and a freshly created destination the result header has 2 channels,
16 bits, 8000 Hz, and still `byteRate = 16000` and `blockAlign = 2`, where
`sampleRate * channels * bytesPerSample = 32000` and
`channels * bytesPerSample = 4`. -/
theorem C17_counterexample :
    Validate hundredFrames = .ok true ∧
    (Combine (fun _ _ => 0) (fun _ _ => 0) hundredFrames hundredFrames
        (WavFile.new "out.wav" none)).toOption.map
      (fun out => (out.2.2.header.byteRate,
        out.2.2.header.sampleRate * out.2.2.header.channels * out.2.2.GetBytesPerSample,
        out.2.2.header.blockAlign,
        out.2.2.header.channels * out.2.2.GetBytesPerSample)) =
      some (16000, 32000, 2, 4) := by
  decide

/-- C17 (amended): the default header of a freshly created store satisfies
`byteRate = sampleRate * channels * bytesPerSample` and
`blockAlign = channels * bytesPerSample`.  `Combine` leaves `byteRate` and
`blockAlign` of the destination as they were while it sets the channel count to
2: for validated inputs and a freshly created destination the result header has
`byteRate = 16000` and `blockAlign = 2`, half of
`sampleRate * channels * bytesPerSample = 32000` and of
`channels * bytesPerSample = 4`. -/
theorem C17_header_rates (junkFirst junkSecond : Nat → Nat → Nat) (a b : WavFile)
    (path : String) (ha : Validate a = .ok true) (hb : Validate b = .ok true) :
    ((WavFile.new path none).header.byteRate =
        (WavFile.new path none).header.sampleRate * (WavFile.new path none).header.channels *
          (WavFile.new path none).GetBytesPerSample ∧
      (WavFile.new path none).header.blockAlign =
        (WavFile.new path none).header.channels * (WavFile.new path none).GetBytesPerSample) ∧
    ∃ out, Combine junkFirst junkSecond a b (WavFile.new path none) = .ok out ∧
      out.2.2.header.byteRate = 16000 ∧
      out.2.2.header.sampleRate * out.2.2.header.channels * out.2.2.GetBytesPerSample = 32000 ∧
      out.2.2.header.blockAlign = 2 ∧
      out.2.2.header.channels * out.2.2.GetBytesPerSample = 4 := by
  have hh : (WavFile.new path none).header = {} := rfl
  have hbp : (WavFile.new path none).GetBytesPerSample = 2 := by
    simp only [GetBytesPerSample, hh]
  refine ⟨⟨by rw [hbp, hh]; decide, by rw [hbp, hh]; decide⟩, ?_⟩
  obtain ⟨out, h1, hc, hbits, hr, hbr, hba⟩ :=
    Combine.of_validated junkFirst junkSecond a b (WavFile.new path none) ha hb
  have hbps : out.2.2.GetBytesPerSample = 2 := by simp [GetBytesPerSample, hbits]
  refine ⟨out, h1, ?_, ?_, ?_, ?_⟩
  · rw [hbr]; rfl
  · rw [hr, hc, hbps]
  · rw [hba]; rfl
  · rw [hc, hbps]

theorem C17_header_rates_witness :
    ∃ out, Combine (fun _ _ => 0) (fun _ _ => 0) leftInput rightInput
        (WavFile.new "out.wav" none) = .ok out ∧
      out.2.2.header.byteRate = 16000 ∧
      out.2.2.header.sampleRate * out.2.2.header.channels * out.2.2.GetBytesPerSample = 32000 ∧
      out.2.2.header.blockAlign = 2 ∧
      out.2.2.header.channels * out.2.2.GetBytesPerSample = 4 :=
  (C17_header_rates (fun _ _ => 0) (fun _ _ => 0) leftInput rightInput "out.wav"
    (by decide) (by decide)).2

theorem WavFile.GetChunksPerChannel_fault (f : WavFile) (e : Fault)
    (h : f.GetChunksPerChannel = .error e) : e = .divisionByZero := by
  unfold WavFile.GetChunksPerChannel at h
  split at h
  · exact (Except.error.inj h).symm
  · cases h

theorem WavFile.SetDataOnChannel_fault (f : WavFile) (c : Int) (bytes : List Nat) (e : Fault)
    (h : f.SetDataOnChannel c bytes = .error e) : e = .divisionByZero := by
  unfold WavFile.SetDataOnChannel at h
  split at h
  · exact (Except.error.inj h).symm
  · cases h

/-- Once the range check has passed, `MultiplyVolume` throws nothing: it returns, or
ends in a division by zero. -/
theorem WavEditor.MultiplyVolume_in_range (junkLeft junkRight pastLeft pastRight : Nat → Nat → Nat)
    (outOfRange : CFloat → Int) (file : WavFile) (factor : CFloat)
    (h : (factor.lt 0 || factor.gt 2) = false) :
    (MultiplyVolume junkLeft junkRight pastLeft pastRight outOfRange file factor).2 = .ok () ∨
    (MultiplyVolume junkLeft junkRight pastLeft pastRight outOfRange file factor).2 = .error .divisionByZero := by
  unfold MultiplyVolume
  rw [h]
  simp only [Bool.false_eq_true, if_false]
  split
  · exact Or.inl rfl
  · split
    · rename_i e he
      right
      rw [WavFile.GetChunksPerChannel_fault file e he]
    · split
      · rename_i e he
        right
        rw [WavFile.SetDataOnChannel_fault _ _ _ e he]
      · split
        · rename_i e he
          right
          rw [WavFile.SetDataOnChannel_fault _ _ _ e he]
        · exact Or.inl rfl

/-- C11: `MultiplyVolume` throws `invalid_argument` exactly when `factor < 0` or
`factor > 2`, and the store is then exactly as it was before the call.  The
`float`s nearest to -0.1 and 2.1 are rejected; 0.0 and 2.0 are not. -/
theorem C11_multiply_volume_range (junkLeft junkRight pastLeft pastRight : Nat → Nat → Nat)
    (outOfRange : CFloat → Int) (file : WavFile) (factor : CFloat) :
    ((∃ what, (MultiplyVolume junkLeft junkRight pastLeft pastRight outOfRange file factor).2 =
        .error (.invalidArgument what)) ↔
      (factor.lt 0 = true ∨ factor.gt 2 = true)) ∧
    (∀ what, (MultiplyVolume junkLeft junkRight pastLeft pastRight outOfRange file factor).2 =
        .error (.invalidArgument what) →
      MultiplyVolume junkLeft junkRight pastLeft pastRight outOfRange file factor =
        (file, .error (.invalidArgument "Multiply factor must be in range from 0 to 2!"))) ∧
    MultiplyVolume junkLeft junkRight pastLeft pastRight outOfRange file (.finite (-13421773) 27) =
      (file, .error (.invalidArgument "Multiply factor must be in range from 0 to 2!")) ∧
    MultiplyVolume junkLeft junkRight pastLeft pastRight outOfRange file (.finite 4404019 21) =
      (file, .error (.invalidArgument "Multiply factor must be in range from 0 to 2!")) ∧
    (∀ what, (MultiplyVolume junkLeft junkRight pastLeft pastRight outOfRange file (.finite 0 0)).2 ≠
      .error (.invalidArgument what)) ∧
    (∀ what, (MultiplyVolume junkLeft junkRight pastLeft pastRight outOfRange file (.finite 2 0)).2 ≠
      .error (.invalidArgument what)) := by
  have hrej : ∀ x : CFloat, (x.lt 0 || x.gt 2) = true →
      MultiplyVolume junkLeft junkRight pastLeft pastRight outOfRange file x =
        (file, .error (.invalidArgument "Multiply factor must be in range from 0 to 2!")) := by
    intro x hx
    unfold MultiplyVolume
    rw [hx]
    simp only [if_true]
  have hacc : ∀ x : CFloat, (x.lt 0 || x.gt 2) = false →
      ∀ what, (MultiplyVolume junkLeft junkRight pastLeft pastRight outOfRange file x).2 ≠
        .error (.invalidArgument what) := by
    intro x hx what hw
    rcases MultiplyVolume_in_range junkLeft junkRight pastLeft pastRight outOfRange file x hx with h | h <;>
      rw [h] at hw <;> cases hw
  refine ⟨⟨?_, ?_⟩, ?_, hrej _ (by decide), hrej _ (by decide), hacc _ (by decide),
    hacc _ (by decide)⟩
  · rintro ⟨what, hw⟩
    cases hg : (factor.lt 0 || factor.gt 2) with
    | true => simpa using hg
    | false => exact absurd hw (hacc factor hg what)
  · intro h
    exact ⟨"Multiply factor must be in range from 0 to 2!", by
      rw [hrej factor (by simpa using h)]⟩
  · intro what hw
    cases hg : (factor.lt 0 || factor.gt 2) with
    | true => exact hrej factor hg
    | false => exact absurd hw (hacc factor hg what)

/-- C14: `MultiplyVolume(store, 1.0)` returns at once: the store (header, file bytes,
stream) is exactly as it was, for every store, whatever representation
`2 ^ scale / 2 ^ scale` the factor 1.0 is given in. -/
theorem C14_multiply_volume_one (junkLeft junkRight pastLeft pastRight : Nat → Nat → Nat)
    (outOfRange : CFloat → Int) (file : WavFile) (scale : Nat) :
    MultiplyVolume junkLeft junkRight pastLeft pastRight outOfRange file (.finite (2 ^ scale) scale) =
      (file, .ok ()) := by
  have hpos : (0 : Int) < 2 ^ scale := by positivity
  have h1 : (CFloat.finite (2 ^ scale) scale).lt 0 = false := by
    simp only [CFloat.lt, Int.zero_mul, decide_eq_false_iff_not, not_lt]
    omega
  have h2 : (CFloat.finite (2 ^ scale) scale).gt 2 = false := by
    simp only [CFloat.gt, decide_eq_false_iff_not, not_lt, gt_iff_lt]
    omega
  have h3 : (CFloat.finite (2 ^ scale) scale).eq 1 = true := by
    simp only [CFloat.eq, Int.one_mul, decide_True]
  unfold MultiplyVolume
  simp only [h1, h2, h3, Bool.or_self, Bool.false_eq_true, if_false, if_true]

theorem C11_multiply_volume_range_witness :
    MultiplyVolume (fun _ _ => 0) (fun _ _ => 0) (fun _ _ => 0) (fun _ _ => 0) (fun _ => 0) hundredFrames
        (.finite (-13421773) 27) =
      (hundredFrames, .error (.invalidArgument "Multiply factor must be in range from 0 to 2!")) :=
  (C11_multiply_volume_range (fun _ _ => 0) (fun _ _ => 0) (fun _ _ => 0) (fun _ _ => 0) (fun _ => 0)
    hundredFrames (.finite (-13421773) 27)).2.2.1

/-- C15, as stated, fails on `oneFrame`: the file holds one complete frame of
channel 0 (offsets 44 and 45; frame 1 would start at offset 46, the end of the
file), and two frames are asked for.  The result is not shorter than `2 * 2`
bytes: it has all four, the two bytes of frame 0 followed by what the read buffer
of the failed read held (here 9, 9). -/
theorem C15_counterexample :
    oneFrame.dataStream.failed = false ∧ oneFrame.GetBytesPerSample = 2 ∧
    oneFrame.dataStream.contents.length = 46 ∧
    oneFrame.samplePos 0 0 + 2 ≤ 46 ∧ 46 < oneFrame.samplePos 0 1 + 2 ∧
    (oneFrame.GetDataFromChannel (fun _ _ => 9) 0 2).2 = [1, 2, 9, 9] ∧
    ¬ ((oneFrame.GetDataFromChannel (fun _ _ => 9) 0 2).2.length <
        2 * oneFrame.GetBytesPerSample) := by
  decide

/-- C15 (amended): `GetDataFromChannel` is a total function returning a vector, so
it raises no error, and on a store whose stream has not failed, with at least one
byte per sample, whose file holds only the first `k < n` of the `n` frames asked
for in full, the vector returned has all `n * bytesPerSample` bytes: the frames
before `k` are the file bytes, frame `k` is what the file still had of it followed
by the bytes the read buffer held before the read, and every later byte is zero.
The frames are those at the offsets the call seeks to, `samplePos c i`: the
channel argument `c` converted to `short`, the sum taken in `unsigned int`
arithmetic (`44 + bytesPerSample * c + bytesPerSample * i * channels` where
`c ≤ 32767` and nothing wraps). -/
theorem C15_short_file_read (junk : Nat → Nat → Nat) (f : WavFile) (c : Int)
    (n k : Nat) (hs : f.dataStream.failed = false) (hbps : 0 < f.GetBytesPerSample)
    (hsize : n * f.GetBytesPerSample < U32) (hk : k < n)
    (hav : ∀ i, i < k → f.samplePos c i + f.GetBytesPerSample ≤ f.dataStream.contents.length)
    (hshort : f.dataStream.contents.length < f.samplePos c k + f.GetBytesPerSample) :
    (f.GetDataFromChannel junk c n).2.length = n * f.GetBytesPerSample ∧
    (∀ i j, i < k → j < f.GetBytesPerSample →
      (f.GetDataFromChannel junk c n).2.getD (i * f.GetBytesPerSample + j) 0 =
        f.dataStream.contents.getD (f.samplePos c i + j) 0) ∧
    (∀ j, j < f.GetBytesPerSample →
      (f.GetDataFromChannel junk c n).2.getD (k * f.GetBytesPerSample + j) 0 =
        if f.samplePos c k + j < f.dataStream.contents.length then
          f.dataStream.contents.getD (f.samplePos c k + j) 0
        else junk k j) ∧
    (∀ t, (k + 1) * f.GetBytesPerSample ≤ t →
      (f.GetDataFromChannel junk c n).2.getD t 0 = 0) :=
  WavFile.GetDataFromChannel_short junk f c n k hs hbps hsize hk hav hshort

theorem C15_short_file_read_witness :
    (oneFrame.GetDataFromChannel (fun _ _ => 9) 0 3).2.length = 3 * oneFrame.GetBytesPerSample ∧
    (∀ i j, i < 1 → j < oneFrame.GetBytesPerSample →
      (oneFrame.GetDataFromChannel (fun _ _ => 9) 0 3).2.getD
          (i * oneFrame.GetBytesPerSample + j) 0 =
        oneFrame.dataStream.contents.getD (oneFrame.samplePos 0 i + j) 0) ∧
    (∀ j, j < oneFrame.GetBytesPerSample →
      (oneFrame.GetDataFromChannel (fun _ _ => 9) 0 3).2.getD
          (1 * oneFrame.GetBytesPerSample + j) 0 =
        if oneFrame.samplePos 0 1 + j < oneFrame.dataStream.contents.length then
          oneFrame.dataStream.contents.getD (oneFrame.samplePos 0 1 + j) 0
        else (fun _ _ => 9) 1 j) ∧
    (∀ t, (1 + 1) * oneFrame.GetBytesPerSample ≤ t →
      (oneFrame.GetDataFromChannel (fun _ _ => 9) 0 3).2.getD t 0 = 0) :=
  C15_short_file_read (fun _ _ => 9) oneFrame 0 3 1 (by decide) (by decide) (by decide)
    (by decide) (by decide) (by decide)

/-! ## Clearing a channel -/

theorem WavFile.loadSample_zeros (bps i m : Nat) :
    WavFile.loadSample bps i (List.replicate m 0) = List.replicate bps 0 := by
  apply ext_getD
  · rw [WavFile.loadSample_length, List.length_replicate]
  · intro k hk
    rw [WavFile.loadSample_length] at hk
    simp only [WavFile.loadSample, List.getD_eq_getElem?_getD, List.getElem?_map,
      List.getElem?_range hk, Option.map_some', Option.getD_some]
    rw [← List.getD_eq_getElem?_getD, ← List.getD_eq_getElem?_getD, getD_replicate_zero,
      getD_replicate_zero]

/-- The loop of `ClearChannel` is the loop of `SetDataOnChannel` on a vector of zeros. -/
theorem WavFile.ClearChannel.loop_eq_write (f : WavFile) (c : Int) (m : Nat) :
    ∀ (remaining i₀ : Nat) (s : FStream),
    WavFile.ClearChannel.loop f c remaining i₀ s =
      WavFile.SetDataOnChannel.loop f c (List.replicate m 0) remaining i₀ s := by
  intro remaining
  induction remaining with
  | zero => intro i₀ s; rfl
  | succ r ih =>
    intro i₀ s
    rw [WavFile.ClearChannel.loop, WavFile.SetDataOnChannel.loop, WavFile.loadSample_zeros, ih]

/-- Two slots of different channels share no byte, as long as the offsets are taken
without wrap. -/
theorem slot_disjoint (ch c c' i i' j : Nat) (hc : c < ch) (hc' : c' < ch) (hne : c' ≠ c)
    (hj : j < 2) :
    44 + 2 * c' + 2 * i' * ch + j < 44 + 2 * c + 2 * i * ch ∨
      44 + 2 * c + 2 * i * ch + 2 ≤ 44 + 2 * c' + 2 * i' * ch + j := by
  rw [Nat.mul_assoc 2 i ch, Nat.mul_assoc 2 i' ch]
  rcases Nat.lt_trichotomy i' i with h | h | h
  · have := Nat.mul_le_mul_right ch (Nat.succ_le_of_lt h)
    rw [Nat.succ_mul] at this
    omega
  · subst h
    omega
  · have := Nat.mul_le_mul_right ch (Nat.succ_le_of_lt h)
    rw [Nat.succ_mul] at this
    omega

/-- C16, as stated, fails in three ways.  On a store whose stream is in the failed
state: `oneFrameAfterLongRead` has one frame per channel, bytes 1 and 2, and
`ClearChannel(0)` stops before its first write, so the frame still reads 1, 2.
On a store whose `dataBlockSize` is below 8: `wrappedSizeStore` has
2147483647 frames per channel, the offset of frame 2147483626 is 2^32, which is 0
as an `unsigned int`, so the first header byte (82, the `R` of `RIFF`) is
overwritten with 0.  And for a channel number that does not fit the `short`
parameter: channel 40000 of `wideTwoFrames` arrives as -25536, frame 1 is
written at offset 80042, the slot of frame 0 of channel 39999, whose byte 1
becomes 0, while the byte 1 at offset `44 + 2 * 40000` of channel 40000 stays. -/
theorem C16_counterexample :
    (oneFrameAfterLongRead.GetBytesPerSample = 2 ∧
      (0 : Nat) < oneFrameAfterLongRead.header.channels ∧
      oneFrameAfterLongRead.GetChunksPerChannel = .ok 1 ∧
      (oneFrameAfterLongRead.ClearChannel 0).toOption.map
        (fun g => (g.GetDataFromChannel (fun _ _ => 0) 0 1).2) = some [1, 2]) ∧
    (wrappedSizeStore.dataStream.failed = false ∧ wrappedSizeStore.GetBytesPerSample = 2 ∧
      (0 : Nat) < wrappedSizeStore.header.channels ∧
      wrappedSizeStore.GetChunksPerChannel = .ok 2147483647 ∧
      wrappedSizeStore.dataStream.contents.getD 0 0 = 82 ∧
      (wrappedSizeStore.ClearChannel 0).toOption.map
        (fun g => g.dataStream.contents.getD 0 0) = some 0) ∧
    (wideTwoFrames.dataStream.failed = false ∧ wideTwoFrames.GetBytesPerSample = 2 ∧
      (40000 : Nat) < wideTwoFrames.header.channels ∧
      wideTwoFrames.GetChunksPerChannel = .ok 2 ∧
      wideTwoFrames.dataStream.contents.getD (44 + 2 * 39999 + 2 * 0 * 65535) 0 = 1 ∧
      wideTwoFrames.dataStream.contents.getD (44 + 2 * 40000 + 2 * 0 * 65535) 0 = 1 ∧
      (wideTwoFrames.ClearChannel 40000).toOption.map
        (fun g => (g.dataStream.contents.getD (44 + 2 * 39999 + 2 * 0 * 65535) 0,
          g.dataStream.contents.getD (44 + 2 * 40000 + 2 * 0 * 65535) 0)) = some (0, 1)) := by
  have hN : wrappedSizeStore.GetChunksPerChannel = .ok 2147483647 := by decide
  have hN2 : wideTwoFrames.GetChunksPerChannel = .ok 2 := by decide
  refine ⟨⟨by decide, by decide, by decide, by decide⟩,
    ⟨by decide, by decide, by decide, hN, by decide, ?_⟩,
    ⟨rfl, by decide, by decide, hN2, wideTwoFrames_payload _ (by decide) (by decide),
      wideTwoFrames_payload _ (by decide) (by decide), ?_⟩⟩
  · have h := WavFile.SetDataOnChannel.loop_agrees wrappedSizeStore 0 (List.replicate 0 0)
      (fun _ => 0) 2147483647 0 wrappedSizeStore.dataStream (by decide)
      (by
        intro i j _ _ _
        rw [WavFile.loadSample_zeros, getD_replicate_zero])
      0 ⟨2147483626, by decide, by decide, by decide, by decide⟩
    simp only [WavFile.ClearChannel, hN, WavFile.ClearChannel.loop_eq_write wrappedSizeStore 0 0,
      Except.toOption, Option.map_some', h]
  · have hp0 : wideTwoFrames.samplePos 40000 0 = 4294916268 := by decide
    have hp1 : wideTwoFrames.samplePos 40000 1 = 80042 := by decide
    have hb : wideTwoFrames.GetBytesPerSample = 2 := by decide
    have h := WavFile.SetDataOnChannel.loop_agrees wideTwoFrames 40000 (List.replicate 0 0)
      (fun _ => 0) 2 0 wideTwoFrames.dataStream rfl
      (by
        intro i j _ _ _
        rw [WavFile.loadSample_zeros, getD_replicate_zero])
      80042 ⟨1, by decide, by decide, by rw [hp1], by rw [hp1, hb]; decide⟩
    obtain ⟨_, _, l3, _⟩ := WavFile.SetDataOnChannel.loop_writes wideTwoFrames 40000
      (List.replicate 0 0) 2 0 wideTwoFrames.dataStream rfl
    have hkeep := l3 80044 (by
      intro i _ hi
      have hi' : i = 0 ∨ i = 1 := by omega
      rcases hi' with h0 | h1
      · rw [h0, hp0]; exact Or.inl (by decide)
      · rw [h1, hp1, hb]; exact Or.inr (by decide))
    rw [wideTwoFrames_payload _ (by decide) (by decide)] at hkeep
    simp only [WavFile.ClearChannel, hN2, WavFile.ClearChannel.loop_eq_write wideTwoFrames 40000 0,
      Except.toOption, Option.map_some']
    rw [show 44 + 2 * 39999 + 2 * 0 * 65535 = 80042 from rfl,
      show 44 + 2 * 40000 + 2 * 0 * 65535 = 80044 from rfl, h, hkeep]

/-- C16 (amended): on a store whose stream has not failed, with two bytes per
sample and `N = GetChunksPerChannel()` frames per channel whose slots all end
below offset 2^32, `ClearChannel(c)` for a channel `c < channels` whose number
fits the `short` parameter (`c ≤ 32767`) returns, leaves the header fields alone,
and afterwards both bytes of every frame `i < N` of channel `c` (offsets
`44 + 2 * c + 2 * i * channels` and the next) are zero in the file and reading
the `N` frames of channel `c` gives `2 * N` zero bytes, while the file has lost
no byte and the 44 header bytes and both bytes of every frame of every other
channel are what they were (a byte the file does not have counting as 0). -/
theorem C16_clear_channel (junk : Nat → Nat → Nat) (f : WavFile) (c N : Nat)
    (hs : f.dataStream.failed = false) (hbps : f.GetBytesPerSample = 2)
    (hc : c < f.header.channels) (hshort : c ≤ 32767) (hN : f.GetChunksPerChannel = .ok N)
    (hw : 44 + 2 * N * f.header.channels ≤ 4294967296) :
    ∃ g, f.ClearChannel c = .ok g ∧ g.header = f.header ∧
      (∀ i j, i < N → j < 2 →
        g.dataStream.contents.getD (44 + 2 * c + 2 * i * f.header.channels + j) 0 = 0) ∧
      (g.GetDataFromChannel junk c N).2 = List.replicate (2 * N) 0 ∧
      f.dataStream.contents.length ≤ g.dataStream.contents.length ∧
      (∀ k, k < 44 → g.dataStream.contents.getD k 0 = f.dataStream.contents.getD k 0) ∧
      (∀ c' i j, c' < f.header.channels → c' ≠ c → j < 2 →
        g.dataStream.contents.getD (44 + 2 * c' + 2 * i * f.header.channels + j) 0 =
          f.dataStream.contents.getD (44 + 2 * c' + 2 * i * f.header.channels + j) 0) := by
  have hw' : wavHeaderLength + f.GetBytesPerSample * N * f.header.channels ≤ U32 := by
    rw [hbps]; exact hw
  have hpos : ∀ i, i < N → f.samplePos (c : Int) i = 44 + 2 * c + 2 * i * f.header.channels := by
    intro i hi
    rw [WavFile.samplePos_eq f c i N hi hc (by omega) hw', hbps]
    rfl
  have hn : 2 * N ≤ 2 * N * f.header.channels := Nat.le_mul_of_pos_right _ (by omega)
  have hclear : f.ClearChannel c = .ok { f with dataStream :=
      (WavFile.SetDataOnChannel.loop f c (List.replicate (N * 2) 0) N 0 f.dataStream) } := by
    simp only [WavFile.ClearChannel, hN, WavFile.ClearChannel.loop_eq_write f c (N * 2)]
  have hwrite := WavFile.SetDataOnChannel_ok f c (List.replicate (N * 2) 0)
    (by rw [hbps]; decide)
  rw [List.length_replicate, hbps, Nat.mul_div_cancel _ (by decide : 0 < 2),
    Nat.mod_eq_of_lt (by simp only [U32]; omega)] at hwrite
  obtain ⟨T, t1, _, _, t4⟩ := WavFile.write_then_read junk f (c : Int) N
    (List.replicate (N * 2) 0) (fun _ => 0) hs (by rw [hbps]; decide)
    (by rw [List.length_replicate, hbps])
    (by rw [hbps]; simp only [U32]; omega)
    (fun i j _ _ => getD_replicate_zero _ _)
  rw [hwrite] at t1
  have hT := Except.ok.inj t1
  obtain ⟨_, l2, l3, _⟩ := WavFile.SetDataOnChannel.loop_writes f c
    (List.replicate (N * 2) 0) N 0 f.dataStream hs
  have hzero := WavFile.SetDataOnChannel.loop_agrees f c (List.replicate (N * 2) 0)
    (fun _ => 0) N 0 f.dataStream hs
    (by
      intro i j _ _ _
      rw [WavFile.loadSample_zeros, getD_replicate_zero])
  refine ⟨_, hclear, rfl, ?_, ?_, l2, ?_, ?_⟩
  · intro i j hi hj
    apply hzero
    refine ⟨i, Nat.zero_le _, by omega, ?_, ?_⟩
    · rw [hpos i hi]; omega
    · rw [hpos i hi, hbps]; omega
  · rw [hT, t4, Nat.mul_comm]
  · intro k hk
    apply l3
    intro i _ hi
    rw [hpos i (by omega)]
    omega
  · intro c' i' j hc' hne hj
    apply l3
    intro i _ hi
    rw [hpos i (by omega), hbps]
    exact slot_disjoint f.header.channels c c' i i' j hc hc' hne hj

theorem C16_clear_channel_witness :
    ∃ g, stereoFrames.ClearChannel (1 : Nat) = .ok g ∧ g.header = stereoFrames.header ∧
      (∀ i j, i < 3 → j < 2 →
        g.dataStream.contents.getD (44 + 2 * 1 + 2 * i * stereoFrames.header.channels + j) 0 =
          0) ∧
      (g.GetDataFromChannel (fun _ _ => 7) (1 : Nat) 3).2 = List.replicate (2 * 3) 0 ∧
      stereoFrames.dataStream.contents.length ≤ g.dataStream.contents.length ∧
      (∀ k, k < 44 →
        g.dataStream.contents.getD k 0 = stereoFrames.dataStream.contents.getD k 0) ∧
      (∀ c' i j, c' < stereoFrames.header.channels → c' ≠ 1 → j < 2 →
        g.dataStream.contents.getD
            (44 + 2 * c' + 2 * i * stereoFrames.header.channels + j) 0 =
          stereoFrames.dataStream.contents.getD
            (44 + 2 * c' + 2 * i * stereoFrames.header.channels + j) 0) :=
  C16_clear_channel (fun _ _ => 7) stereoFrames 1 3 (by decide) (by decide) (by decide)
    (by decide) (by decide) (by decide)

/-! ## The bytes `SetDataOnChannel` leaves alone -/

theorem WavFile.SetDataOnChannel.loop_idle_when_failed (f : WavFile) (c : Int) (bytes : List Nat)
    (remaining i₀ : Nat) (s : FStream) (hs : s.failed = true) :
    (WavFile.SetDataOnChannel.loop f c bytes remaining i₀ s).contents = s.contents := by
  cases remaining with
  | zero => rfl
  | succ r =>
    simp only [WavFile.SetDataOnChannel.loop, hs, if_true]
    rfl

/-- Writing a vector to a channel `c < channels`, `c ≤ 32767`, of a store with two
bytes per sample, when the slots of its `bytes.length / 2` samples end below offset 2^32:
only bytes of those slots change. -/
theorem WavFile.SetDataOnChannel_frame (f : WavFile) (c : Nat) (bytes : List Nat)
    (hbps : f.GetBytesPerSample = 2) (hc : c < f.header.channels) (hshort : c ≤ 32767)
    (hw : 44 + 2 * (bytes.length / 2) * f.header.channels ≤ 4294967296) :
    ∃ g, f.SetDataOnChannel c bytes = .ok g ∧ g.header = f.header ∧
      f.dataStream.contents.length ≤ g.dataStream.contents.length ∧
      (∀ k, (∀ i, i < bytes.length / 2 →
          k < 44 + 2 * c + 2 * i * f.header.channels ∨
            44 + 2 * c + 2 * i * f.header.channels + 2 ≤ k) →
        g.dataStream.contents.getD k 0 = f.dataStream.contents.getD k 0) := by
  have hw' : wavHeaderLength + f.GetBytesPerSample * (bytes.length / 2) * f.header.channels ≤
      U32 := by
    rw [hbps]; exact hw
  have hpos : ∀ i, i < bytes.length / 2 →
      f.samplePos (c : Int) i = 44 + 2 * c + 2 * i * f.header.channels := by
    intro i hi
    rw [WavFile.samplePos_eq f c i (bytes.length / 2) hi hc (by omega) hw', hbps]
    rfl
  have hn : 2 * (bytes.length / 2) ≤ 2 * (bytes.length / 2) * f.header.channels :=
    Nat.le_mul_of_pos_right _ (by omega)
  have hwrite := WavFile.SetDataOnChannel_ok f c bytes (by rw [hbps]; decide)
  rw [hbps, Nat.mod_eq_of_lt (by simp only [U32]; omega)] at hwrite
  refine ⟨_, hwrite, rfl, ?_, ?_⟩
  · cases hf : f.dataStream.failed with
    | true =>
      exact Nat.le_of_eq
        (congrArg List.length (WavFile.SetDataOnChannel.loop_idle_when_failed f c bytes _ 0 _ hf)).symm
    | false =>
      exact (WavFile.SetDataOnChannel.loop_writes f c bytes (bytes.length / 2) 0
        f.dataStream hf).2.1
  · intro k hk
    cases hf : f.dataStream.failed with
    | true =>
      exact congrArg (fun l => List.getD l k 0)
        (WavFile.SetDataOnChannel.loop_idle_when_failed f c bytes _ 0 _ hf)
    | false =>
      apply (WavFile.SetDataOnChannel.loop_writes f c bytes (bytes.length / 2) 0
        f.dataStream hf).2.2.1
      intro i _ hi
      rw [hpos i (by omega), hbps]
      exact hk i (by omega)

/-- C19, as stated, fails in two ways.  On a file larger than 4 GiB: `wideStore`
has 65535 channels of two bytes, and writing 32769 samples (65538 bytes, all 7)
to channel 32767 puts sample 32768 at offset 4294967338, which is 42 as an
`unsigned int`: byte 42 of the header, 0 before the call, is 7 after it.  And
for a channel number that does not fit the `short` parameter: channel 40000 of
`wideTwoFrames` arrives as -25536, so writing the two samples 5 6, 7 8 puts the
second at offset 80042, the slot of frame 0 of channel 39999, whose byte 1
becomes 7. -/
theorem C19_counterexample :
    (wideStore.GetBytesPerSample = 2 ∧ 2 ≤ wideStore.header.channels ∧
      (32767 : Nat) < wideStore.header.channels ∧
      wideStore.dataStream.contents.getD 42 0 = 0 ∧
      (wideStore.SetDataOnChannel 32767 (List.replicate 65538 7)).toOption.map
        (fun g => g.dataStream.contents.getD 42 0) = some 7) ∧
    (wideTwoFrames.GetBytesPerSample = 2 ∧ 2 ≤ wideTwoFrames.header.channels ∧
      (40000 : Nat) < wideTwoFrames.header.channels ∧
      wideTwoFrames.dataStream.contents.getD (44 + 2 * 39999 + 2 * 0 * 65535) 0 = 1 ∧
      (wideTwoFrames.SetDataOnChannel 40000 [5, 6, 7, 8]).toOption.map
        (fun g => g.dataStream.contents.getD (44 + 2 * 39999 + 2 * 0 * 65535) 0) = some 7) := by
  have hb : wideStore.GetBytesPerSample = 2 := by decide
  have hb2 : wideTwoFrames.GetBytesPerSample = 2 := by decide
  refine ⟨⟨hb, by decide, by decide, ?_, ?_⟩,
    ⟨hb2, by decide, by decide, wideTwoFrames_payload _ (by decide) (by decide), ?_⟩⟩
  · simp only [wideStore, getD_append, WavHeader.toBytes_length]
    decide
  · have hwrite := WavFile.SetDataOnChannel_ok wideStore 32767 (List.replicate 65538 7)
      (by rw [hb]; decide)
    rw [List.length_replicate, hb, show (65538 / 2) % U32 = 32769 by decide] at hwrite
    have h := WavFile.SetDataOnChannel.loop_agrees wideStore 32767 (List.replicate 65538 7)
      (fun _ => 7) 32769 0 wideStore.dataStream rfl
      (by
        intro i j _ hi hj
        rw [hb] at hj ⊢
        rw [WavFile.loadSample_getD _ _ _ _ hj (by simp only [U32]; omega)]
        simp only [List.getD_eq_getElem?_getD, List.getElem?_replicate]
        rw [if_pos (by omega)]
        rfl)
      42 ⟨32768, by decide, by decide, by decide, by decide⟩
    rw [hwrite]
    simp only [Except.toOption, Option.map_some', h]
  · have hp1 : wideTwoFrames.samplePos 40000 1 = 80042 := by decide
    have hwrite := WavFile.SetDataOnChannel_ok wideTwoFrames 40000 [5, 6, 7, 8]
      (by rw [hb2]; decide)
    rw [hb2, show ([5, 6, 7, 8] : List Nat).length / 2 % U32 = 2 by decide] at hwrite
    obtain ⟨_, _, _, _, l5, _⟩ := WavFile.SetDataOnChannel.loop_writes wideTwoFrames 40000
      [5, 6, 7, 8] 2 0 wideTwoFrames.dataStream rfl
    have h := l5 1 0 (by decide) (by decide) (by rw [hb2]; decide)
      (fun i' h1 h2 => absurd h2 (by omega))
    rw [hp1, hb2] at h
    rw [hwrite]
    simp only [Except.toOption, Option.map_some']
    exact congrArg some h

/-- C19 (amended): on a store with two bytes per sample, for a channel
`c < channels` whose number fits the `short` parameter (`c ≤ 32767`) and a vector
whose `bytes.length / 2` samples have slots ending below offset 2^32,
`SetDataOnChannel(c, bytes)` returns, leaves the header fields alone, the file
loses no byte, and every byte outside the slots at offsets
`44 + 2 * c + 2 * i * channels`, `i < bytes.length / 2`, is what it was (a byte the
file does not have counting as 0); in particular the 44 header bytes and both
bytes of every frame of every other channel. -/
theorem C19_write_channel_frame (f : WavFile) (c : Nat) (bytes : List Nat)
    (hbps : f.GetBytesPerSample = 2) (hc : c < f.header.channels) (hshort : c ≤ 32767)
    (hw : 44 + 2 * (bytes.length / 2) * f.header.channels ≤ 4294967296) :
    ∃ g, f.SetDataOnChannel c bytes = .ok g ∧ g.header = f.header ∧
      f.dataStream.contents.length ≤ g.dataStream.contents.length ∧
      (∀ k, (∀ i, i < bytes.length / 2 →
          k < 44 + 2 * c + 2 * i * f.header.channels ∨
            44 + 2 * c + 2 * i * f.header.channels + 2 ≤ k) →
        g.dataStream.contents.getD k 0 = f.dataStream.contents.getD k 0) ∧
      (∀ k, k < 44 → g.dataStream.contents.getD k 0 = f.dataStream.contents.getD k 0) ∧
      (∀ c' i j, c' < f.header.channels → c' ≠ c → j < 2 →
        g.dataStream.contents.getD (44 + 2 * c' + 2 * i * f.header.channels + j) 0 =
          f.dataStream.contents.getD (44 + 2 * c' + 2 * i * f.header.channels + j) 0) := by
  obtain ⟨g, h1, h2, h3, h4⟩ := WavFile.SetDataOnChannel_frame f c bytes hbps hc hshort hw
  refine ⟨g, h1, h2, h3, h4, ?_, ?_⟩
  · intro k hk
    exact h4 k (fun i _ => Or.inl (by omega))
  · intro c' i' j hc' hne hj
    exact h4 _ (fun i _ => slot_disjoint f.header.channels c c' i i' j hc hc' hne hj)

theorem C19_write_channel_frame_witness :
    ∃ g, stereoFrames.SetDataOnChannel (1 : Nat) [5, 6, 7, 8] = .ok g ∧
      g.header = stereoFrames.header ∧
      stereoFrames.dataStream.contents.length ≤ g.dataStream.contents.length ∧
      (∀ k, (∀ i, i < [5, 6, 7, 8].length / 2 →
          k < 44 + 2 * 1 + 2 * i * stereoFrames.header.channels ∨
            44 + 2 * 1 + 2 * i * stereoFrames.header.channels + 2 ≤ k) →
        g.dataStream.contents.getD k 0 = stereoFrames.dataStream.contents.getD k 0) ∧
      (∀ k, k < 44 →
        g.dataStream.contents.getD k 0 = stereoFrames.dataStream.contents.getD k 0) ∧
      (∀ c' i j, c' < stereoFrames.header.channels → c' ≠ 1 → j < 2 →
        g.dataStream.contents.getD
            (44 + 2 * c' + 2 * i * stereoFrames.header.channels + j) 0 =
          stereoFrames.dataStream.contents.getD
            (44 + 2 * c' + 2 * i * stereoFrames.header.channels + j) 0) :=
  C19_write_channel_frame stereoFrames 1 [5, 6, 7, 8] (by decide) (by decide) (by decide)
    (by decide)

/-! ## Scaling the samples -/

theorem bitLength_le : ∀ (fuel m k : Nat), m < 2 ^ k → bitLength fuel m ≤ k := by
  intro fuel
  induction fuel with
  | zero => intro m k _; exact Nat.zero_le _
  | succ n ih =>
    intro m k h
    rw [bitLength]
    split
    · exact Nat.zero_le _
    · rename_i hm
      cases k with
      | zero =>
        rw [Nat.pow_zero] at h
        omega
      | succ k =>
        have : m / 2 < 2 ^ k := by
          rw [Nat.pow_succ] at h
          omega
        have := ih (m / 2) k this
        omega

/-- The recursion bound `m` is enough: `bitLength m m` is the number of binary
digits of `m`. -/
theorem bitLength_bounds (m : Nat) (hm : m ≠ 0) :
    2 ^ (bitLength m m - 1) ≤ m ∧ m < 2 ^ bitLength m m := by
  have key : ∀ (fuel n : Nat), n < 2 ^ fuel → n ≠ 0 →
      2 ^ (bitLength fuel n - 1) ≤ n ∧ n < 2 ^ bitLength fuel n := by
    intro fuel
    induction fuel with
    | zero =>
      intro n h hn
      rw [Nat.pow_zero] at h
      omega
    | succ k ih =>
      intro n h hn
      rw [bitLength, if_neg hn, Nat.add_sub_cancel]
      by_cases h2 : n / 2 = 0
      · have h1 : n = 1 := by omega
        subst h1
        cases k <;> simp [bitLength]
      · have hlt : n / 2 < 2 ^ k := by
          rw [Nat.pow_succ] at h
          omega
        obtain ⟨a, b⟩ := ih (n / 2) hlt h2
        have hpos : 1 ≤ bitLength k (n / 2) := by
          cases k with
          | zero => rw [Nat.pow_zero] at hlt; omega
          | succ j => rw [bitLength, if_neg h2]; omega
        have e : bitLength k (n / 2) = (bitLength k (n / 2) - 1) + 1 := by omega
        constructor
        · rw [e, Nat.pow_succ]
          omega
        · rw [Nat.pow_succ]
          omega
  exact key m m (Nat.lt_two_pow m) hm

/-- A value with at most 24 binary digits and a quantum of at least 2^-149 is a
`float`: rounding leaves it as it is. -/
theorem CFloat.round_exact (num : Int) (scale : Nat) (h : num.natAbs < 2 ^ 24)
    (hs : scale ≤ 149) : CFloat.round num scale = .finite num scale := by
  have hb := bitLength_le num.natAbs num.natAbs 24 h
  have hd : max (bitLength num.natAbs num.natAbs - 24) (scale - 149) = 0 := by omega
  have hbig : ¬ (2 ^ (128 + scale) ≤ num.natAbs) := by
    have : 2 ^ 24 ≤ 2 ^ (128 + scale) := Nat.pow_le_pow_right (by decide) (by omega)
    omega
  have hno : ¬ ((1 : Nat) < 0 ∨ False) := by simp
  simp only [CFloat.round, hd, Nat.pow_zero, Nat.div_one, Nat.mod_one, Nat.mul_zero,
    Nat.mul_one, Nat.zero_ne_one, false_and, hno, if_false, hbig, Int.sign_mul_natAbs]

/-- The product of an `int16_t` sample and a factor `num / 2 ^ scale` whose exact
value has at most 24 binary digits is that exact value. -/
theorem CFloat.mul_exact (sample num : Int) (scale : Nat) (h : (sample * num).natAbs < 2 ^ 24)
    (hs : scale ≤ 149) :
    (CFloat.ofInt16 sample).mul (.finite num scale) = .finite (sample * num) scale := by
  simp only [CFloat.ofInt16, CFloat.mul, Nat.zero_add]
  exact CFloat.round_exact _ _ h hs

theorem bytesAt_of_length (object : List Nat) (count : Nat) (past : Nat → Nat)
    (h : object.length = count) : bytesAt object count past = object := by
  apply ext_getD
  · simp only [bytesAt, List.length_map, List.length_range, h]
  · intro k hk
    simp only [bytesAt, List.length_map, List.length_range] at hk
    simp only [bytesAt, List.getD_eq_getElem?_getD, List.getElem?_map, List.getElem?_range hk,
      Option.map_some', Option.getD_some, h, hk, if_true]

/-- An `int16_t` value is what its two bytes in memory read back as. -/
theorem toInt16_of_bytes (z : Int) (h1 : -32768 ≤ z) (h2 : z ≤ 32767) (b0 b1 : Nat)
    (e0 : b0 = (le16 (toU16 z)).getD 0 0) (e1 : b1 = (le16 (toU16 z)).getD 1 0) :
    toInt16 (b0 + 256 * b1) = z := by
  subst e0 e1
  simp only [le16, List.getD_cons_zero, List.getD_cons_succ, toInt16, toU16]
  have hz : (z % 65536).toNat < 65536 := by omega
  generalize hu : (z % 65536).toNat = u at hz ⊢
  have hzu : (u : Int) = z % 65536 := by omega
  have e : (u % 256 + 256 * (u / 256 % 256)) % 65536 = u := by omega
  rw [e]
  split <;> omega

/-- The sample loop of `MultiplyVolume` on a vector of two-byte samples: the
vector keeps its length, sample `i` becomes the two bytes of `resultSample`
computed from the `int16_t` it held, and the bytes outside the samples
`i₀ .. i₀ + remaining - 1` stay. -/
theorem WavEditor.MultiplyVolume.scale_samples (past : Nat → Nat → Nat)
    (outOfRange : CFloat → Int) (factor : CFloat) :
    ∀ (remaining i₀ : Nat) (channelBytes : List Nat),
    (i₀ + remaining) * 2 ≤ channelBytes.length → (i₀ + remaining) * 2 ≤ U32 →
    (MultiplyVolume.scale past outOfRange factor 2 remaining i₀ channelBytes).length =
      channelBytes.length ∧
    (∀ t, t < i₀ * 2 ∨ (i₀ + remaining) * 2 ≤ t →
      (MultiplyVolume.scale past outOfRange factor 2 remaining i₀ channelBytes).getD t 0 =
        channelBytes.getD t 0) ∧
    (∀ i j, i₀ ≤ i → i < i₀ + remaining → j < 2 →
      (MultiplyVolume.scale past outOfRange factor 2 remaining i₀ channelBytes).getD
          (i * 2 + j) 0 =
        (le16 (toU16 (MultiplyVolume.resultSample outOfRange factor
          (toInt16 (u16At channelBytes (i * 2)))))).getD j 0) := by
  intro remaining
  induction remaining with
  | zero =>
    intro i₀ channelBytes _ _
    refine ⟨rfl, fun _ _ => rfl, ?_⟩
    intro i j h1 h2
    omega
  | succ r ih =>
    intro i₀ channelBytes hlen hw
    have hload : bytesAt (WavFile.loadSample 2 i₀ channelBytes) 2 (past i₀) =
        WavFile.loadSample 2 i₀ channelBytes :=
      bytesAt_of_length _ _ _ (WavFile.loadSample_length _ _ _)
    have hsample : u16At (WavFile.loadSample 2 i₀ channelBytes) 0 =
        u16At channelBytes (i₀ * 2) := by
      simp only [u16At]
      rw [WavFile.loadSample_getD 2 i₀ channelBytes 0 (by decide) (by omega),
        WavFile.loadSample_getD 2 i₀ channelBytes (0 + 1) (by decide) (by omega)]
      rfl
    have hraw : ∀ z : Int, bytesAt (le16 (toU16 z)) 2 (past i₀) = le16 (toU16 z) :=
      fun z => bytesAt_of_length _ _ _ rfl
    rw [MultiplyVolume.scale]
    simp only [hload, hsample, hraw]
    generalize hv : MultiplyVolume.resultSample outOfRange factor
      (toInt16 (u16At channelBytes (i₀ * 2))) = value
    have hstore : ∀ t, (WavFile.storeSample 2 i₀ (le16 (toU16 value)) 2 channelBytes).getD t 0 =
        if i₀ * 2 ≤ t ∧ t < i₀ * 2 + 2 ∧ t < channelBytes.length then
          (le16 (toU16 value)).getD (t - i₀ * 2) 0
        else channelBytes.getD t 0 :=
      fun t => WavFile.storeSample_getD 2 i₀ _ 2 channelBytes t (by omega)
    obtain ⟨ih1, ih2, ih3⟩ := ih (i₀ + 1)
      (WavFile.storeSample 2 i₀ (le16 (toU16 value)) 2 channelBytes)
      (by rw [WavFile.storeSample_length]; omega) (by omega)
    rw [WavFile.storeSample_length] at ih1
    refine ⟨ih1, ?_, ?_⟩
    · intro t ht
      rw [ih2 t (by omega), hstore, if_neg (by omega)]
    · intro i j h1 h2 hj
      by_cases hi : i = i₀
      · subst hi
        rw [ih2 (i * 2 + j) (Or.inl (by omega)), hstore, if_pos ⟨by omega, by omega, by omega⟩,
          hv]
        congr 1
        omega
      · rw [ih3 i j (by omega) (by omega) hj]
        have e : u16At (WavFile.storeSample 2 i₀ (le16 (toU16 value)) 2 channelBytes) (i * 2) =
            u16At channelBytes (i * 2) := by
          simp only [u16At]
          rw [hstore, hstore, if_neg (by omega), if_neg (by omega)]
        rw [e]

theorem CFloat.toInt16_range (x : CFloat) (value : Int) (h : x.toInt16 = some value) :
    -32768 ≤ value ∧ value ≤ 32767 := by
  cases x with
  | finite num scale =>
    simp only [CFloat.toInt16] at h
    split at h
    · rename_i hr
      rw [← Option.some.inj h]
      exact hr
    · cases h
  | nan => cases h
  | negInf => cases h
  | posInf => cases h

theorem WavEditor.MultiplyVolume.resultSample_of_some (outOfRange : CFloat → Int)
    (factor : CFloat) (sample value : Int)
    (h : ((CFloat.ofInt16 sample).mul factor).toInt16 = some value) :
    MultiplyVolume.resultSample outOfRange factor sample = value := by
  simp only [MultiplyVolume.resultSample, h]

/-- What `MultiplyVolume` leaves in the file of a store with two channels of two
bytes whose stream has not failed and whose file holds all `N` frames below
offset 2^32, for a factor that passes the guard and is not 1: byte `j` of the
sample of channel `c` at frame `i` is byte `j` of `resultSample` computed from
the sample that was there. -/
theorem WavEditor.MultiplyVolume_stereo (junkLeft junkRight pastLeft pastRight : Nat → Nat → Nat)
    (outOfRange : CFloat → Int) (file : WavFile) (factor : CFloat) (N : Nat)
    (hs : file.dataStream.failed = false) (hch : file.header.channels = 2)
    (hbps : file.GetBytesPerSample = 2) (hN : file.GetChunksPerChannel = .ok N)
    (hfile : 44 + 4 * N ≤ file.dataStream.contents.length) (hw : 44 + 4 * N ≤ 4294967296)
    (hlo : factor.lt 0 = false) (hhi : factor.gt 2 = false) (hne : factor.eq 1 = false) :
    ∃ g, MultiplyVolume junkLeft junkRight pastLeft pastRight outOfRange file factor =
        (g, .ok ()) ∧
      g.header = file.header ∧
      g.dataStream.contents.length = file.dataStream.contents.length ∧
      (∀ t, t < 44 ∨ 44 + 4 * N ≤ t →
        g.dataStream.contents.getD t 0 = file.dataStream.contents.getD t 0) ∧
      ∀ c i j, c < 2 → i < N → j < 2 →
        g.dataStream.contents.getD (44 + 2 * c + 4 * i + j) 0 =
          (le16 (toU16 (MultiplyVolume.resultSample outOfRange factor
            (toInt16 (u16At file.dataStream.contents (44 + 2 * c + 4 * i)))))).getD j 0 := by
  have hb0 : file.GetBytesPerSample ≠ 0 := by rw [hbps]; decide
  have hsize : N * file.GetBytesPerSample < U32 := by rw [hbps]; simp only [U32]; omega
  -- the two reads
  have hread : ∀ (junk : Nat → Nat → Nat) (c : Nat), c < 2 →
      (file.GetDataFromChannel junk (c : Int) N).1 = file ∧
      (file.GetDataFromChannel junk (c : Int) N).2.length = 2 * N ∧
      ∀ i, i < N → u16At (file.GetDataFromChannel junk (c : Int) N).2 (i * 2) =
        u16At file.dataStream.contents (44 + 2 * c + 4 * i) := by
    intro junk c hc
    obtain ⟨r1, _, _⟩ := WavFile.GetDataFromChannel_spec junk file (c : Int) N hs hsize
      (by
        intro i hi
        rw [WavFile.samplePos_stereo file c i hch hbps hc (by omega), hbps]
        omega)
    obtain ⟨r2, r3⟩ := WavFile.read_stereo junk file c N hch hbps hc hs (Or.inr (by omega)) hw
    refine ⟨r1, r2, ?_⟩
    intro i hi
    simp only [u16At]
    rw [r3 (i * 2) (by omega), r3 (i * 2 + 1) (by omega)]
    rw [show 44 + 2 * c + 4 * (i * 2 / 2) + i * 2 % 2 = 44 + 2 * c + 4 * i by omega,
      show 44 + 2 * c + 4 * ((i * 2 + 1) / 2) + (i * 2 + 1) % 2 = 44 + 2 * c + 4 * i + 1 by
        omega]
  obtain ⟨a1, a2, a3⟩ := hread junkLeft 0 (by decide)
  obtain ⟨b1, b2, b3⟩ := hread junkRight 1 (by decide)
  -- the two scaled vectors
  obtain ⟨sa1, _, sa3⟩ := MultiplyVolume.scale_samples pastLeft outOfRange factor N 0
    (file.GetDataFromChannel junkLeft ((0 : Nat) : Int) N).2 (by omega)
    (by simp only [U32]; omega)
  obtain ⟨sb1, _, sb3⟩ := MultiplyVolume.scale_samples pastRight outOfRange factor N 0
    (file.GetDataFromChannel junkRight ((1 : Nat) : Int) N).2 (by omega)
    (by simp only [U32]; omega)
  generalize hA : MultiplyVolume.scale pastLeft outOfRange factor 2 N 0
    (file.GetDataFromChannel junkLeft ((0 : Nat) : Int) N).2 = A at sa1 sa3
  generalize hB : MultiplyVolume.scale pastRight outOfRange factor 2 N 0
    (file.GetDataFromChannel junkRight ((1 : Nat) : Int) N).2 = B at sb1 sb3
  have hcount : ∀ (V : List Nat), V.length = 2 * N →
      (V.length / file.GetBytesPerSample) % U32 = N := by
    intro V hV
    rw [hV, hbps, Nat.mul_div_cancel_left _ (by decide : 0 < 2)]
    exact Nat.mod_eq_of_lt (by simp only [U32]; omega)
  -- the two writes
  have e3 := WavFile.SetDataOnChannel_ok file ((0 : Nat) : Int) A hb0
  rw [hcount A (by omega)] at e3
  obtain ⟨w1, w2, w3, w4⟩ := WavFile.write_stereo file 0 N A file.dataStream hch hbps
    (by decide) hs hw
  generalize hg1 : ({ file with dataStream :=
    (WavFile.SetDataOnChannel.loop file ((0 : Nat) : Int) A N 0 file.dataStream) } : WavFile) =
    g1 at e3
  have hg1s : g1.dataStream =
      WavFile.SetDataOnChannel.loop file ((0 : Nat) : Int) A N 0 file.dataStream := by
    rw [← hg1]
  have hg1h : g1.header = file.header := by rw [← hg1]
  have hg1b : g1.GetBytesPerSample = 2 := by rw [← hbps, ← hg1]; rfl
  have e4 := WavFile.SetDataOnChannel_ok g1 ((1 : Nat) : Int) B (by rw [hg1b]; decide)
  rw [hg1b] at e4
  rw [hbps] at hcount
  rw [hcount B (by omega)] at e4
  obtain ⟨v1, v2, v3, v4⟩ := WavFile.write_stereo g1 1 N B g1.dataStream
    (by rw [hg1h]; exact hch) hg1b (by decide) (by rw [hg1s]; exact w1) hw
  rw [← hg1s] at w2 w3 w4
  refine ⟨{ g1 with dataStream :=
    (WavFile.SetDataOnChannel.loop g1 ((1 : Nat) : Int) B N 0 g1.dataStream) }, ?_, hg1h, ?_, ?_, ?_⟩
  · have hguard : (factor.lt 0 || factor.gt 2) = false := by rw [hlo, hhi]; rfl
    have a1' : (file.GetDataFromChannel junkLeft 0 N).1 = file := a1
    have b1' : (file.GetDataFromChannel junkRight 1 N).1 = file := b1
    have hA' : MultiplyVolume.scale pastLeft outOfRange factor 2 N 0
        (file.GetDataFromChannel junkLeft 0 N).2 = A := hA
    have hB' : MultiplyVolume.scale pastRight outOfRange factor 2 N 0
        (file.GetDataFromChannel junkRight 1 N).2 = B := hB
    have e3' : file.SetDataOnChannel 0 A = .ok g1 := e3
    have e4' : g1.SetDataOnChannel 1 B = .ok _ := e4
    simp only [MultiplyVolume, hguard, hne, hN, a1', b1', hbps, hA', hB', e3', e4',
      Bool.false_eq_true, if_false]
  · show (WavFile.SetDataOnChannel.loop g1 ((1 : Nat) : Int) B N 0 g1.dataStream).contents.length =
      file.dataStream.contents.length
    rw [v4, w4]
    by_cases hN0 : N = 0
    · simp only [hN0, if_true]
    · simp only [hN0, if_false]
      omega
  · intro t ht
    show (WavFile.SetDataOnChannel.loop g1 ((1 : Nat) : Int) B N 0 g1.dataStream).contents.getD
      t 0 = file.dataStream.contents.getD t 0
    rw [v3 t (by omega), w3 t (by omega)]
  · intro c i j hc hi hj
    show (WavFile.SetDataOnChannel.loop g1 ((1 : Nat) : Int) B N 0 g1.dataStream).contents.getD
      (44 + 2 * c + 4 * i + j) 0 = _
    have hcases : c = 0 ∨ c = 1 := by omega
    rcases hcases with h0 | h1
    · subst h0
      rw [v3 _ (by omega), w2 i j hi hj, show 2 * i + j = i * 2 + j by omega,
        sa3 i j (Nat.zero_le _) (by omega) hj, a3 i hi]
    · subst h1
      rw [v2 i j hi hj, show 2 * i + j = i * 2 + j by omega,
        sb3 i j (Nat.zero_le _) (by omega) hj, b3 i hi]

set_option maxRecDepth 100000 in
/-- C12, as stated, fails in two ways.  For the factor 0.04f, the `float`
5368709 / 2^27, on `quietStereo`: the sample 25 of channel 0 times the factor is
0.99999998, which truncates to 0 and lies within the `int16_t` range, but the
`float` product is 1.0 and the sample stored is 1; likewise the sample 100 of
channel 1 becomes 4 where the exact product 3.9999999 truncates to 3.  And on a
store whose stream is in the failed state, for the factor 0.5: the read of
channel 0 stops at once and returns zeros, so the sample 25 becomes 0 and not
12. -/
theorem C12_counterexample :
    (quietStereo.header.channels = 2 ∧ quietStereo.header.bitsPerSample = 16 ∧
      quietStereo.dataStream.failed = false ∧ quietStereo.GetChunksPerChannel = .ok 2 ∧
      quietStereo.dataStream.contents.length = 44 + 4 * 2 ∧
      (CFloat.finite 5368709 27).lt 0 = false ∧ (CFloat.finite 5368709 27).gt 2 = false ∧
      (CFloat.finite 5368709 27).eq 1 = false ∧
      toInt16 (u16At quietStereo.dataStream.contents 44) = 25 ∧
      toInt16 (u16At quietStereo.dataStream.contents 46) = 100 ∧
      Int.tdiv (25 * 5368709) (2 ^ 27) = 0 ∧ Int.tdiv (100 * 5368709) (2 ^ 27) = 3 ∧
      (CFloat.ofInt16 25).mul (.finite 5368709 27) = .finite (2 ^ 27) 27 ∧
      (MultiplyVolume (fun _ _ => 0) (fun _ _ => 0) (fun _ _ => 0) (fun _ _ => 0) (fun _ => 0)
        quietStereo (.finite 5368709 27)).2 = .ok () ∧
      toInt16 (u16At (MultiplyVolume (fun _ _ => 0) (fun _ _ => 0) (fun _ _ => 0) (fun _ _ => 0)
        (fun _ => 0) quietStereo (.finite 5368709 27)).1.dataStream.contents 44) = 1 ∧
      toInt16 (u16At (MultiplyVolume (fun _ _ => 0) (fun _ _ => 0) (fun _ _ => 0) (fun _ _ => 0)
        (fun _ => 0) quietStereo (.finite 5368709 27)).1.dataStream.contents 46) = 4) ∧
    (quietStereoAfterLongRead.header = quietStereo.header ∧
      quietStereoAfterLongRead.dataStream.contents = quietStereo.dataStream.contents ∧
      quietStereoAfterLongRead.dataStream.failed = true ∧
      (CFloat.finite 1 1).lt 0 = false ∧ (CFloat.finite 1 1).gt 2 = false ∧
      (CFloat.finite 1 1).eq 1 = false ∧
      Int.tdiv (25 * 1) (2 ^ 1) = 12 ∧
      (MultiplyVolume (fun _ _ => 0) (fun _ _ => 0) (fun _ _ => 0) (fun _ _ => 0) (fun _ => 0)
        quietStereoAfterLongRead (.finite 1 1)).2 = .ok () ∧
      toInt16 (u16At (MultiplyVolume (fun _ _ => 0) (fun _ _ => 0) (fun _ _ => 0) (fun _ _ => 0)
        (fun _ => 0) quietStereoAfterLongRead (.finite 1 1)).1.dataStream.contents 44) = 0) := by
  decide

/-- C12 (amended): on a store with two channels of two bytes whose stream has not
failed and whose file holds all `N = GetChunksPerChannel()` frames below offset
2^32, for a factor that passes the guard and is not 1, `MultiplyVolume` returns,
leaves the header fields alone, and each sample of channels 0 and 1 at a frame
`i < N`, read as a little-endian `int16_t`, is the `float` product of the
original sample and the factor (the exact product rounded to the nearest
`float`, ties to even) truncated toward zero, whenever that is an `int16_t`.
Where the exact product has at most 24 binary digits (a factor `num / 2 ^ scale`
with `|s * num| < 2^24`, as for the factors 0, 0.5 and 2) no rounding takes place
and the sample is the exact product truncated toward zero. -/
theorem C12_multiply_volume_samples (junkLeft junkRight pastLeft pastRight : Nat → Nat → Nat)
    (outOfRange : CFloat → Int) (file : WavFile) (factor : CFloat) (N : Nat)
    (hs : file.dataStream.failed = false) (hch : file.header.channels = 2)
    (hbps : file.GetBytesPerSample = 2) (hN : file.GetChunksPerChannel = .ok N)
    (hfile : 44 + 4 * N ≤ file.dataStream.contents.length) (hw : 44 + 4 * N ≤ 4294967296)
    (hlo : factor.lt 0 = false) (hhi : factor.gt 2 = false) (hne : factor.eq 1 = false) :
    ∃ g, MultiplyVolume junkLeft junkRight pastLeft pastRight outOfRange file factor =
        (g, .ok ()) ∧
      g.header = file.header ∧
      ∀ c i, c < 2 → i < N →
        (∀ value,
          ((CFloat.ofInt16 (toInt16 (u16At file.dataStream.contents (44 + 2 * c + 4 * i)))).mul
            factor).toInt16 = some value →
          toInt16 (u16At g.dataStream.contents (44 + 2 * c + 4 * i)) = value) ∧
        (∀ num scale, factor = .finite num scale → scale ≤ 149 →
          (toInt16 (u16At file.dataStream.contents (44 + 2 * c + 4 * i)) * num).natAbs < 2 ^ 24 →
          -32768 ≤ Int.tdiv
            (toInt16 (u16At file.dataStream.contents (44 + 2 * c + 4 * i)) * num) (2 ^ scale) →
          Int.tdiv
            (toInt16 (u16At file.dataStream.contents (44 + 2 * c + 4 * i)) * num) (2 ^ scale) ≤
              32767 →
          toInt16 (u16At g.dataStream.contents (44 + 2 * c + 4 * i)) =
            Int.tdiv
              (toInt16 (u16At file.dataStream.contents (44 + 2 * c + 4 * i)) * num)
              (2 ^ scale)) := by
  obtain ⟨g, h1, h2, _, _, h5⟩ := MultiplyVolume_stereo junkLeft junkRight pastLeft pastRight
    outOfRange file factor N hs hch hbps hN hfile hw hlo hhi hne
  refine ⟨g, h1, h2, ?_⟩
  intro c i hc hi
  have hconv : ∀ value,
      ((CFloat.ofInt16 (toInt16 (u16At file.dataStream.contents (44 + 2 * c + 4 * i)))).mul
        factor).toInt16 = some value →
      toInt16 (u16At g.dataStream.contents (44 + 2 * c + 4 * i)) = value := by
    intro value hv
    obtain ⟨r1, r2⟩ := CFloat.toInt16_range _ _ hv
    have e0 := h5 c i 0 hc hi (by decide)
    have e1 := h5 c i 1 hc hi (by decide)
    rw [MultiplyVolume.resultSample_of_some outOfRange factor _ value hv] at e0 e1
    exact toInt16_of_bytes value r1 r2 _ _ e0 e1
  refine ⟨hconv, ?_⟩
  intro num scale hf hscale hsmall hlow hhigh
  apply hconv
  rw [hf, CFloat.mul_exact _ num scale hsmall hscale]
  simp only [CFloat.toInt16, hlow, hhigh, and_self, if_true]

theorem C12_multiply_volume_samples_witness :
    ∃ g, MultiplyVolume (fun _ _ => 0) (fun _ _ => 0) (fun _ _ => 0) (fun _ _ => 0) (fun _ => 0)
        quietStereo (.finite 5368709 27) = (g, .ok ()) ∧
      g.header = quietStereo.header ∧
      ∀ c i, c < 2 → i < 2 →
        (∀ value,
          ((CFloat.ofInt16
            (toInt16 (u16At quietStereo.dataStream.contents (44 + 2 * c + 4 * i)))).mul
              (.finite 5368709 27)).toInt16 = some value →
          toInt16 (u16At g.dataStream.contents (44 + 2 * c + 4 * i)) = value) ∧
        (∀ num scale, CFloat.finite 5368709 27 = .finite num scale → scale ≤ 149 →
          (toInt16 (u16At quietStereo.dataStream.contents (44 + 2 * c + 4 * i)) * num).natAbs <
            2 ^ 24 →
          -32768 ≤ Int.tdiv
            (toInt16 (u16At quietStereo.dataStream.contents (44 + 2 * c + 4 * i)) * num)
            (2 ^ scale) →
          Int.tdiv
            (toInt16 (u16At quietStereo.dataStream.contents (44 + 2 * c + 4 * i)) * num)
            (2 ^ scale) ≤ 32767 →
          toInt16 (u16At g.dataStream.contents (44 + 2 * c + 4 * i)) =
            Int.tdiv
              (toInt16 (u16At quietStereo.dataStream.contents (44 + 2 * c + 4 * i)) * num)
              (2 ^ scale)) :=
  C12_multiply_volume_samples (fun _ _ => 0) (fun _ _ => 0) (fun _ _ => 0) (fun _ _ => 0)
    (fun _ => 0) quietStereo (.finite 5368709 27) 2 (by decide) (by decide) (by decide)
    (by decide) (by decide) (by decide) (by decide) (by decide) (by decide)

end WavGlue
